import Mathlib

/-!
Wild Island: camera control, collision correction, flyer orbit and configuration.

A shallow embedding of the scene/camera logic of `main.cpp` (with the helpers of `utils.h`
and the constants of `settings.h`) and of the draw dispatch and model matrices of
`render.cpp`.

Modelling conventions.

* A C++ `float` is an element of a type `F` that has the arithmetic operations, a linear
  order and decimal literals.  The definitions of the numeric code are generic in `F`, so
  that the same definition is read in two arithmetics: exact arithmetic, where `F` is a
  linearly ordered field (no rounding, no infinities; run on `ℚ` and `ℝ`), and the
  arithmetic of the compiled program, where `F` is `Binary32` (IEEE 754 binary32: every
  operation rounds to nearest).  A theorem about a linearly ordered field `F` is a statement
  of exact arithmetic; where rounding changes the property, a run in `Binary32` shows it.
* `sqrt`, `sin`, `cos` and the constant used by `glm::radians` come from the C/GLM libraries;
  they are passed in as a record `FloatOps F`.  Theorems state the laws they need of these
  operations as hypotheses at the arguments the program really uses.
* A division by a zero length (`glm::normalize` of the zero vector) has no value, and is NaN
  in every component in the program.  Such a vector is `none`.
* A pointer to an `Object` is an `Option (Object F)`; dereferencing a null pointer makes the
  calling function return `none`.
* A C++ `int` is an `Int`; stream extraction saturates at the bounds of a 32-bit `int`.
-/

/-- The three float components of a `glm::vec3`. -/
structure Vec3 (F : Type) where
  x : F
  y : F
  z : F
deriving DecidableEq, Repr

/-- Library arithmetic used by the program: `sqrt`, `sin`, `cos` and the number pi. -/
structure FloatOps (F : Type) where
  sqrt : F → F
  sin : F → F
  cos : F → F
  pi : F

namespace glm

variable {F : Type} [Add F] [Sub F] [Mul F] [Div F] [Neg F] [Zero F] [One F] [NatCast F]
  [IntCast F] [OfScientific F] [LinearOrder F]

/-- Componentwise `a + b`. -/
def add (a b : Vec3 F) : Vec3 F := ⟨a.x + b.x, a.y + b.y, a.z + b.z⟩

/-- Componentwise `a - b`. -/
def sub (a b : Vec3 F) : Vec3 F := ⟨a.x - b.x, a.y - b.y, a.z - b.z⟩

/-- Scalar times vector, `s * v`. -/
def smul (s : F) (v : Vec3 F) : Vec3 F := ⟨s * v.x, s * v.y, s * v.z⟩

/-- Vector times scalar, `v * s`. -/
def muls (v : Vec3 F) (s : F) : Vec3 F := ⟨v.x * s, v.y * s, v.z * s⟩

/-- Componentwise `a / b`. -/
def div (a b : Vec3 F) : Vec3 F := ⟨a.x / b.x, a.y / b.y, a.z / b.z⟩

/-- The vector `glm::vec3(s)` with all components `s`. -/
def splat (s : F) : Vec3 F := ⟨s, s, s⟩

/-- The product `glm::dot(a, b)`. -/
def dot (a b : Vec3 F) : F := a.x * b.x + a.y * b.y + a.z * b.z

/-- The length `glm::length(v) = sqrt(dot(v, v))`. -/
def length (ops : FloatOps F) (v : Vec3 F) : F := ops.sqrt (dot v v)

/-- The value `glm::inversesqrt(x) = 1 / sqrt(x)`; no value when `sqrt(x)` is zero. -/
def inversesqrt (ops : FloatOps F) (x : F) : Option F :=
  if ops.sqrt x = 0 then none else some (1 / ops.sqrt x)

/-- The vector `glm::normalize(v) = v * inversesqrt(dot(v, v))`; no value for a vector of
length zero (the program gets NaN in every component). -/
def normalize (ops : FloatOps F) (v : Vec3 F) : Option (Vec3 F) :=
  (inversesqrt ops (dot v v)).map (fun i => muls v i)

/-- The function `glm::mix(x, y, a) = x * (1 - a) + y * a` on vectors. -/
def mix (x y : Vec3 F) (a : F) : Vec3 F := add (muls x (1 - a)) (muls y a)

/-- The conversion `glm::radians(degrees)`. -/
def radians (ops : FloatOps F) (degrees : F) : F := degrees * (ops.pi / 180)

end glm

namespace manaeste

section program

variable {F : Type} [Add F] [Sub F] [Mul F] [Div F] [Neg F] [Zero F] [One F] [NatCast F]
  [IntCast F] [OfScientific F] [LinearOrder F]

/-- The constant `SCENE_WIDTH` of settings.h. -/
def SCENE_WIDTH : F := 3.8

/-- The constant `SCENE_HEIGHT` of settings.h. -/
def SCENE_HEIGHT : F := 3.8

/-- The template `clampFromStd` of utils.h. -/
def clampFromStd {T : Type} [LinearOrder T] (value lower upper : T) : T :=
  if value < lower then lower else (if value > upper then upper else value)

/-- The function `correctCameraBoundsPosition` of main.cpp. -/
def correctCameraBoundsPosition (position : Vec3 F) : Vec3 F :=
  let boundX := clampFromStd position.x (-(SCENE_WIDTH)) SCENE_WIDTH
  let boundY := clampFromStd position.y (-(SCENE_HEIGHT)) SCENE_HEIGHT
  ⟨boundX, boundY, position.z⟩

/-- The enumeration `Direction` of utils.h. -/
inductive Direction where
  | Right
  | Left
  | Forward
  | Backward
  | TurnLeft
  | TurnRight
deriving DecidableEq, Repr

/-- The number of entries `KEYS_COUNT` of the key enumeration of utils.h. -/
def KEYS_COUNT : Nat := 4

/-- The key index `KEY_LEFT_ARROW`. -/
def KEY_LEFT_ARROW : Fin KEYS_COUNT := ⟨0, by decide⟩

/-- The key index `KEY_RIGHT_ARROW`. -/
def KEY_RIGHT_ARROW : Fin KEYS_COUNT := ⟨1, by decide⟩

/-- The key index `KEY_UP_ARROW`. -/
def KEY_UP_ARROW : Fin KEYS_COUNT := ⟨2, by decide⟩

/-- The key index `KEY_DOWN_ARROW`. -/
def KEY_DOWN_ARROW : Fin KEYS_COUNT := ⟨3, by decide⟩

/-- The struct `Object` of render.h.  Only `direction` is ever assigned the result of a
`glm::normalize`, so it is the one field that can be without a value. -/
structure Object (F : Type) where
  position : Vec3 F
  direction : Option (Vec3 F)
  speed : F
  size : F
  startTime : F
  currentTime : F
  viewAngle : F
  frameDuration : F

/-- The struct `SceneState` of utils.h. -/
structure SceneState (F : Type) where
  windowWidth : Int
  windowHeight : Int
  cameraNum : Int
  freeCameraMode : Bool
  movementSpeed : F
  gameOver : Bool
  keyMap : Fin KEYS_COUNT → Bool
  elapsedTime : F
  flashlightOn : Bool
  sunOn : Bool
  fogOn : Bool
  amongusOn : Bool
  sparklesOn : Bool
  fullScreen : Bool

/-- The struct `Camera` of utils.h.  The position and the direction are computed from
normalised vectors, so either can be without a value. -/
structure Camera (F : Type) where
  position : Option (Vec3 F)
  direction : Option (Vec3 F)
  viewAngle : F

/-- The struct `SceneObjects` of main.cpp; a null pointer is `none`. -/
structure SceneObjects (F : Type) where
  snowman : Option (Object F)
  amongus : Option (Object F)
  duck : Option (Object F)
  raider : Option (Object F)
  sparkles : Option (Object F)
  couch : Option (Object F)
  diamond : Option (Object F)
  terrainElementsList : List (Option (Object F))
  palmList : List (Option (Object F))

/-- The configuration variables of settings.h that `loadConfig` assigns. -/
structure Settings where
  NUM_PALMS : Int
  FULL_SCREEN : Int
  BIG_PALMS : Int
  BIG_DUCK : Int
  BIG_SNOWMAN : Int
deriving DecidableEq, Repr

/-- The process-wide variables of the program: the settings, `sceneState`, `camera`,
`sceneObjects`, and whether a passive-motion callback is registered with GLUT. -/
structure Globals (F : Type) where
  settings : Settings
  sceneState : SceneState F
  camera : Camera F
  sceneObjects : SceneObjects F
  passiveMotionFunc : Bool

/-- The function `isCameraCollidingWithDuck` of main.cpp. -/
def isCameraCollidingWithDuck (ops : FloatOps F) (cameraPosition duckPosition : Vec3 F)
    (duckRadius : F) : Bool :=
  let distance := glm.length ops (glm.sub cameraPosition duckPosition)
  if distance < (0.5 + duckRadius) then
    true
  else
    false

/-- The function `getAdjustedCameraPosition` of main.cpp. -/
def getAdjustedCameraPosition (ops : FloatOps F) (cameraPosition duckPosition : Vec3 F)
    (duckRadius : F) : Option (Vec3 F) :=
  let duckToCamera := glm.sub cameraPosition duckPosition
  let distance := glm.length ops duckToCamera
  if distance < duckRadius then
    let penetrationDepth := duckRadius - distance
    let adjustment := (glm.normalize ops duckToCamera).map (fun n => glm.muls n penetrationDepth)
    let adjustedPosition := adjustment.map (fun a => glm.add cameraPosition a)
    adjustedPosition
  else
    some cameraPosition

/-- The direction `(cos(radians(viewAngle)), sin(radians(viewAngle)), 0)` that the turn
cases of `moveCamera` assign. -/
def facing (ops : FloatOps F) (viewAngle : F) : Vec3 F :=
  ⟨ops.cos (glm.radians ops viewAngle), ops.sin (glm.radians ops viewAngle), 0⟩

/-- The `switch` of `moveCamera`: the camera and the new position after the case of the
given direction. -/
def moveCameraSwitch (ops : FloatOps F) (direction : Direction) (deltaAngle : F)
    (movementSpeed : F) (camera : Camera F) : Camera F × Option (Vec3 F) :=
  let newPosition := camera.position
  match direction with
  | Direction.Forward =>
    (camera, do
      let p ← newPosition
      let d ← camera.direction
      some (glm.add p (glm.div (glm.smul movementSpeed d) (glm.splat 2))))
  | Direction.Backward =>
    (camera, do
      let p ← newPosition
      let d ← camera.direction
      some (glm.sub p (glm.div (glm.smul movementSpeed d) (glm.splat 2))))
  | Direction.Left =>
    (camera, do
      let p ← newPosition
      let d ← camera.direction
      some (glm.add p (glm.div (glm.smul movementSpeed ⟨-d.y, d.x, d.z⟩) (glm.splat 2))))
  | Direction.Right =>
    (camera, do
      let p ← newPosition
      let d ← camera.direction
      some (glm.sub p (glm.div (glm.smul movementSpeed ⟨-d.y, d.x, d.z⟩) (glm.splat 2))))
  | Direction.TurnLeft =>
    let viewAngle := camera.viewAngle + deltaAngle
    let viewAngle := if viewAngle ≥ 360 then viewAngle - 360 else viewAngle
    ({ camera with viewAngle := viewAngle, direction := some (facing ops viewAngle) },
      newPosition)
  | Direction.TurnRight =>
    let viewAngle := camera.viewAngle - deltaAngle
    let viewAngle := if viewAngle < 0 then viewAngle + 360 else viewAngle
    ({ camera with viewAngle := viewAngle, direction := some (facing ops viewAngle) },
      newPosition)

/-- The function `moveCamera` of main.cpp.  It reads `sceneObjects.duck->position` without a
null check, so it has no result when there is no duck. -/
def moveCamera (ops : FloatOps F) (direction : Direction) (deltaAngle : F)
    (g : Globals F) : Option (Globals F) :=
  let (camera, newPosition) :=
    moveCameraSwitch ops direction deltaAngle g.sceneState.movementSpeed g.camera
  match g.sceneObjects.duck with
  | none => none
  | some duck =>
    let duckPosition : Vec3 F := { duck.position with z := 0 }
    let duckRadius : F := 0.7
    let newPosition : Option (Vec3 F) :=
      match newPosition with
      | none => none
      | some p =>
        if isCameraCollidingWithDuck ops p duckPosition duckRadius then
          getAdjustedCameraPosition ops p duckPosition duckRadius
        else
          some p
    let newPosition := newPosition.map correctCameraBoundsPosition
    some { g with camera := { camera with position := newPosition } }

/-- The function `passiveMouseMotionCb` of main.cpp.  The calls of `glutWarpPointer` move the
pointer of the window system and change none of the variables of `Globals`.  The absolute
value `std::abs` is that of an ordered field, so this callback, and with it the events of a
run, are read in exact arithmetic. -/
def passiveMouseMotionCb {F : Type} [LinearOrderedField F] (ops : FloatOps F)
    (mouseX _mouseY : Int) (g : Globals F) : Option (Globals F) :=
  if mouseX ≠ Int.tdiv g.sceneState.windowWidth 2 then
    let delta : F := 0.5 * ((mouseX - Int.tdiv g.sceneState.windowWidth 2 : Int) : F)
    let direction := if delta < 0 then Direction.TurnLeft else Direction.TurnRight
    moveCamera ops direction |delta| g
  else
    some g

/-- The function `updateScene` of main.cpp.  It reads `sceneObjects.raider` without a null
check, so it has no result when there is no flyer. -/
def updateScene (ops : FloatOps F) (elapsedTime : F) (g : Globals F) :
    Option (Globals F) :=
  match g.sceneObjects.raider with
  | none => none
  | some raider =>
    let g : Globals F :=
      if g.sceneState.cameraNum = 1 then
        { g with
          camera := { g.camera with position := some ⟨0, 0, 0⟩, direction := some ⟨0, 0, 0⟩ }
          sceneState := { g.sceneState with freeCameraMode := false }
          passiveMotionFunc := false }
      else if g.sceneState.cameraNum = 2 then
        { g with
          camera := { g.camera with position := some ⟨3, 3, 0⟩, direction := some ⟨-1, 0, 0⟩ }
          sceneState := { g.sceneState with freeCameraMode := false }
          passiveMotionFunc := false }
      else if g.sceneState.cameraNum = 5 then
        { g with
          sceneState := { g.sceneState with flashlightOn := false, freeCameraMode := false }
          camera := { g.camera with position := some raider.position,
                                    direction := raider.direction } }
      else
        { g with sceneState := { g.sceneState with freeCameraMode := true } }
    let g : Globals F :=
      { g with camera := { g.camera with
          position := g.camera.position.map correctCameraBoundsPosition } }
    let raiderSpeed := raider.speed
    let raiderElapsedTime := elapsedTime * raiderSpeed
    let raiderPos : Vec3 F := ⟨ops.sin raiderElapsedTime, ops.cos raiderElapsedTime, 1⟩
    let raiderVel : Vec3 F := ⟨-ops.cos raiderElapsedTime, ops.sin raiderElapsedTime, 0⟩
    let raiderDir := glm.normalize ops raiderVel
    let raider := { raider with position := raiderPos, direction := raiderDir }
    let sparkles := g.sceneObjects.sparkles.map
      (fun sp => { sp with currentTime := elapsedTime })
    some { g with sceneObjects :=
      { g.sceneObjects with raider := some raider, sparkles := sparkles } }

/-- A `std::ifstream` as `loadConfig` uses it: the text of the file, the part of it not yet
read, and the failbit and eofbit of the stream state. -/
structure IfStream where
  content : List Char
  rest : List Char
  failbit : Bool
  eofbit : Bool
deriving DecidableEq, Repr

/-- The constructor `std::ifstream file(path)`: `none` is a file that cannot be opened, which
leaves the stream with its failbit set. -/
def ifstream (file : Option (List Char)) : IfStream :=
  match file with
  | none => { content := [], rest := [], failbit := true, eofbit := false }
  | some text => { content := text, rest := text, failbit := false, eofbit := false }

/-- What follows the first newline of the text; `none` when the text has no newline. -/
def dropLine : List Char → Option (List Char)
  | [] => none
  | c :: cs => if c = '\n' then some cs else dropLine cs

/-- The call `std::getline(file, unused)`: on a stream that is not good it sets the failbit;
otherwise it extracts characters up to and including the next newline, sets the eofbit when
the end of the file comes first, and sets the failbit when it extracted nothing. -/
def getline (file : IfStream) : IfStream :=
  if file.failbit || file.eofbit then
    { file with failbit := true }
  else
    match dropLine file.rest with
    | some rest => { file with rest := rest }
    | none => { file with rest := [], eofbit := true, failbit := file.rest.isEmpty }

/-- The loop `while (std::getline(file, unused)) ++numLines;` run for at most `fuel` calls of
`getline`. -/
def whileGetline : Nat → IfStream → Nat → IfStream × Nat
  | 0, file, numLines => (file, numLines)
  | fuel + 1, file, numLines =>
    let file := getline file
    if file.failbit then (file, numLines) else whileGetline fuel file (numLines + 1)

/-- The test `std::isspace` of the C locale. -/
def isspace (c : Char) : Bool :=
  c = ' ' || c = '\t' || c = '\n' || c = '\x0b' || c = '\x0c' || c = '\r'

/-- The test `std::isdigit`. -/
def isdigit (c : Char) : Bool := '0' ≤ c && c ≤ '9'

/-- The longest run of decimal digits at the start of the text, accumulated onto `acc`, and
the text after it. -/
def scanDigits : List Char → Nat → Nat × List Char
  | [], acc => (acc, [])
  | c :: cs, acc =>
    if isdigit c then scanDigits cs (acc * 10 + (c.toNat - '0'.toNat)) else (acc, c :: cs)

/-- The largest `int`. -/
def INT_MAX : Int := 2147483647

/-- The smallest `int`. -/
def INT_MIN : Int := -2147483648

/-- The extraction `file >> value` for an `int` (ISO C++11, [istream.formatted.arithmetic] and
[facet.num.get.virtuals]): on a stream that is not good it sets the failbit and leaves `value`;
otherwise it skips white space, reads an optional sign and the digits after it, and stores the
number.  With no digit it stores 0 and sets the failbit; a number outside the range of `int`
stores the nearest bound and sets the failbit.  Reaching the end of the file sets the eofbit. -/
def extractInt (file : IfStream) (value : Int) : IfStream × Int :=
  if file.failbit || file.eofbit then
    ({ file with failbit := true }, value)
  else
    match file.rest.dropWhile isspace with
    | [] => ({ file with rest := [], failbit := true, eofbit := true }, value)
    | c :: cs =>
      let body := if c = '-' ∨ c = '+' then cs else c :: cs
      match body with
      | [] => ({ file with rest := [], failbit := true, eofbit := true }, 0)
      | d :: _ =>
        if isdigit d then
          let (n, rest) := scanDigits body 0
          let v : Int := if c = '-' then -(n : Int) else (n : Int)
          let file := { file with rest := rest, eofbit := rest.isEmpty }
          if v < INT_MIN then ({ file with failbit := true }, INT_MIN)
          else if INT_MAX < v then ({ file with failbit := true }, INT_MAX)
          else (file, v)
        else
          ({ file with rest := body, failbit := true }, 0)

/-- The function `loadConfig` of main.cpp; `file` is the text of the file at `path`, or `none`
when it cannot be opened.  The line-counting loop gets one call of `getline` more than the
file has characters. -/
def loadConfig (file : Option (List Char)) (settings : Settings) : Settings :=
  let file := ifstream file
  let (file, numLines) := whileGetline (file.rest.length + 1) file 0
  if numLines ≠ 5 then
    { settings with
      NUM_PALMS := 16
      FULL_SCREEN := 0
      BIG_DUCK := 1, BIG_PALMS := 1, BIG_SNOWMAN := 1 }
  else
    let file := { file with failbit := false, eofbit := false }
    let file := { file with rest := file.content }
    let (file, NUM_PALMS) := extractInt file settings.NUM_PALMS
    let (file, FULL_SCREEN) := extractInt file settings.FULL_SCREEN
    let (file, BIG_PALMS) := extractInt file settings.BIG_PALMS
    let (file, BIG_DUCK) := extractInt file settings.BIG_DUCK
    let (_, BIG_SNOWMAN) := extractInt file settings.BIG_SNOWMAN
    { NUM_PALMS := clampFromStd NUM_PALMS 0 16
      FULL_SCREEN := FULL_SCREEN
      BIG_PALMS := BIG_PALMS
      BIG_DUCK := BIG_DUCK
      BIG_SNOWMAN := BIG_SNOWMAN }

/-- The enumeration `ObjectType` of render.h, as the integer a C++ enumeration value is. -/
abbrev ObjectType := Int

/-- The enumerator `TERRAIN_ELEMENT`. -/
def TERRAIN_ELEMENT : ObjectType := 0

/-- The enumerator `PALM`. -/
def PALM : ObjectType := 1

/-- The enumerator `SNOWMAN`. -/
def SNOWMAN : ObjectType := 2

/-- The enumerator `RAIDER`. -/
def RAIDER : ObjectType := 3

/-- The enumerator `FIRE`. -/
def FIRE : ObjectType := 4

/-- The enumerator `BANNER`. -/
def BANNER : ObjectType := 5

/-- The enumerator `COUCH`. -/
def COUCH : ObjectType := 6

/-- The enumerator `DUCK`. -/
def DUCK : ObjectType := 7

/-- The enumerator `DIAMOND`. -/
def DIAMOND : ObjectType := 8

/-- The function `setObject` of main.cpp; it reads `sceneState.elapsedTime` and the settings
`BIG_DUCK`, `BIG_SNOWMAN` and `BIG_PALMS`.  A null result is `none`. -/
def setObject (ops : FloatOps F) (g : Globals F) (type : ObjectType) (objPosition : Vec3 F) :
    Option (Object F) :=
  let object : Object F :=
    { startTime := g.sceneState.elapsedTime
      currentTime := g.sceneState.elapsedTime
      size := 1.0
      direction := glm.normalize ops ⟨0.0, 0.0, 0.0⟩
      position := objPosition
      viewAngle := 0.0
      speed := 0.0
      frameDuration := 0.0 }
  if type = TERRAIN_ELEMENT then
    some { object with size := 1.0 }
  else if type = COUCH then
    some { object with size := 0.5, position := { object.position with z := -0.07 } }
  else if type = DUCK then
    if g.settings.BIG_DUCK = 0 then
      some { object with size := 0.4 }
    else
      some { object with size := 0.8, position := { object.position with z := 0.3 } }
  else if type = SNOWMAN then
    let object : Object F :=
      if g.settings.BIG_SNOWMAN = 0 then
        { object with size := 0.5 }
      else
        { object with size := 0.8, position := { object.position with z := 0.3 } }
    some { object with direction := some ⟨0.3, 0.0, 0.0⟩ }
  else if type = PALM then
    if g.settings.BIG_PALMS = 0 then
      some { object with size := 2.0 }
    else
      some { object with size := 4.0 }
  else if type = BANNER then
    some { object with size := 3.0 }
  else if type = DIAMOND then
    some { object with size := 0.1, position := ⟨-1.0, 0.0, 0.5⟩ }
  else if type = RAIDER then
    some { object with
      direction := some (facing ops object.viewAngle)
      size := 0.3
      speed := 0.7 }
  else if type = FIRE then
    let object : Object F :=
      if g.settings.BIG_DUCK = 0 then
        { object with size := 0.5 }
      else
        { object with size := 1.0 }
    some { object with frameDuration := 0.1 }
  else
    none

/-- The function `deleteObjects` of main.cpp. -/
def deleteObjects (g : Globals F) : Globals F :=
  { g with sceneObjects :=
    { g.sceneObjects with
      terrainElementsList := []
      palmList := []
      couch := none
      duck := none
      snowman := none
      sparkles := none
      raider := none
      amongus := none } }

/-- The array `palmsPositions` of settings.h. -/
def palmsPositions : List (Vec3 F) :=
  [⟨2.0, 0.0, 0.25⟩, ⟨-2.0, 0.0, 0.6⟩, ⟨0.0, -2.0, 0.6⟩, ⟨0.0, 2.0, 0.6⟩,
   ⟨-2.0, 2.0, 0.6⟩, ⟨2.0, -2.0, 0.6⟩, ⟨-2.0, -2.0, 0.6⟩, ⟨2.0, 2.0, 0.6⟩,
   ⟨3.3, 0.0, 0.6⟩, ⟨-3.4, 0.0, 0.6⟩, ⟨0.0, -3.3, 0.6⟩, ⟨0.0, 3.4, 0.6⟩,
   ⟨-3.4, 3.3, 0.6⟩, ⟨3.3, -3.4, 0.6⟩, ⟨-3.3, -3.3, 0.6⟩, ⟨3.3, 3.4, 0.6⟩]

/-- The array `terrainElPositions` of settings.h. -/
def terrainElPositions : List (Vec3 F) :=
  [⟨1.5, 0.0, -0.3⟩, ⟨1.5, 1.5, -0.3⟩, ⟨0.0, 1.5, -0.3⟩, ⟨-1.5, 0.0, -0.3⟩,
   ⟨-1.5, -1.5, -0.3⟩, ⟨0.0, -1.5, -0.3⟩, ⟨-1.5, 1.5, -0.3⟩, ⟨1.5, -1.5, -0.3⟩,
   ⟨0.0, 0.0, -0.3⟩, ⟨3.0, 0.0, -0.3⟩, ⟨-3.0, 0.0, -0.3⟩, ⟨0.0, 3.0, -0.3⟩,
   ⟨0.0, -3.0, -0.3⟩, ⟨3.0, 3.0, -0.3⟩, ⟨-3.0, 3.0, -0.3⟩, ⟨3.0, -3.0, -0.3⟩,
   ⟨-3.0, -3.0, -0.3⟩, ⟨1.5, 3.0, -0.3⟩, ⟨-1.5, 3.0, -0.3⟩, ⟨3.0, 1.5, -0.3⟩,
   ⟨3.0, -1.5, -0.3⟩, ⟨-1.5, -3.0, -0.3⟩, ⟨1.5, -3.0, -0.3⟩, ⟨-3.0, 1.5, -0.3⟩,
   ⟨-3.0, -1.5, -0.3⟩, ⟨0.0, 0.0, -0.3⟩]

/-- The function `resetScene` of main.cpp; `file` is the text of config.txt, or `none` when it
cannot be opened.  The calls `glutFullScreen`, `glutReshapeWindow`, `glutPositionWindow` and
`setFogState` only reach the window system or the shaders and change no field of `Globals`. -/
def resetScene (ops : FloatOps F) (file : Option (List Char)) (g : Globals F) : Globals F :=
  let g : Globals F := { g with settings := loadConfig file g.settings }
  let g := deleteObjects g
  let g : Globals F :=
    if g.sceneState.freeCameraMode then
      { g with sceneState := { g.sceneState with freeCameraMode := false }
               passiveMotionFunc := false }
    else g
  let g : Globals F := { g with sceneState := { g.sceneState with cameraNum := 4 } }
  let g : Globals F := { g with sceneState := { g.sceneState with keyMap := fun _ => false } }
  let g : Globals F := { g with camera := { g.camera with position := some ⟨0.0, 0.0, 0.0⟩ } }
  let g : Globals F :=
    { g with camera := { g.camera with direction := some (facing ops g.camera.viewAngle) } }
  let g : Globals F := { g with camera := { g.camera with viewAngle := 90.0 } }
  let g : Globals F :=
    { g with sceneObjects := { g.sceneObjects with duck := setObject ops g DUCK ⟨0.4, 2.0, 0.0⟩ } }
  let g : Globals F :=
    { g with sceneObjects :=
      { g.sceneObjects with diamond := setObject ops g DIAMOND ⟨0.0, 0.0, 0.0⟩ } }
  let g : Globals F :=
    { g with sceneObjects := { g.sceneObjects with couch := setObject ops g COUCH ⟨1.0, 1.0, 0.0⟩ } }
  let g : Globals F :=
    { g with sceneObjects :=
      { g.sceneObjects with snowman := setObject ops g SNOWMAN ⟨2.0, 1.0, 0.1⟩ } }
  let g : Globals F :=
    { g with sceneObjects :=
      { g.sceneObjects with
        raider := match g.sceneObjects.raider with
          | none => setObject ops g RAIDER ⟨1.0, 0.0, 0.5⟩
          | some raider => some raider } }
  let g : Globals F :=
    terrainElPositions.foldl
      (fun g position =>
        { g with sceneObjects :=
          { g.sceneObjects with
            terrainElementsList :=
              g.sceneObjects.terrainElementsList ++ [setObject ops g TERRAIN_ELEMENT position] } })
      g
  let g : Globals F :=
    palmsPositions.foldl
      (fun g position =>
        { g with sceneObjects :=
          { g.sceneObjects with
            palmList := g.sceneObjects.palmList ++ [setObject ops g PALM position] } })
      g
  let g : Globals F :=
    match g.sceneObjects.sparkles with
    | none =>
      { g with sceneObjects :=
        { g.sceneObjects with sparkles := setObject ops g FIRE ⟨0.4, 2.0, 0.0⟩ } }
    | some _ => g
  { g with sceneState :=
    { g.sceneState with
      fogOn := false
      sparklesOn := false
      sunOn := true
      amongusOn := false
      flashlightOn := false } }

/-- The variables of the program as their initialisers leave them at start-up. -/
def initialGlobals : Globals F :=
  { settings := { NUM_PALMS := 0, FULL_SCREEN := 0, BIG_PALMS := 0, BIG_DUCK := 0,
                  BIG_SNOWMAN := 0 }
    sceneState :=
      { windowWidth := 0, windowHeight := 0, cameraNum := 1, freeCameraMode := false,
        movementSpeed := 0.1, gameOver := false, keyMap := fun _ => false, elapsedTime := 0,
        flashlightOn := false, sunOn := false, fogOn := false, amongusOn := false,
        sparklesOn := false, fullScreen := false }
    camera := { position := some ⟨0, 0, 0⟩, direction := some ⟨0, 0, 0⟩, viewAngle := 0 }
    sceneObjects :=
      { snowman := none, amongus := none, duck := none, raider := none, sparkles := none,
        couch := none, diamond := none, terrainElementsList := [], palmList := [] }
    passiveMotionFunc := false }

/-- What one call of a draw function of render.cpp puts on the screen: an object of a given
type through `drawObject`, the skybox, the fire sprite, or the moving billboard. -/
inductive DrawCall (F : Type) where
  | object (type : ObjectType) (object : Object F)
  | skybox
  | sparkles (object : Object F)
  | amongus (object : Object F)

/-- The part of the OpenGL state that `drawAllObjects` sets: the stencil test, whether the
stencil operation on a depth pass is `GL_REPLACE`, the reference value of `glStencilFunc`,
the depth test and blending; and the draw calls made so far, each with the stencil value its
pixels are tagged with (`none` when it writes no stencil value). -/
structure GLState (F : Type) where
  stencilTest : Bool
  stencilReplace : Bool
  stencilRef : Int
  depthTest : Bool
  blend : Bool
  drawn : List (DrawCall F × Option Int)

/-- A draw call in the current OpenGL state: its pixels get the reference value when the
stencil test is on with operation `GL_REPLACE` (the function is always `GL_ALWAYS`). -/
def GLState.record (gl : GLState F) (call : DrawCall F) : GLState F :=
  { gl with drawn := gl.drawn ++
      [(call, if gl.stencilTest && gl.stencilReplace then some gl.stencilRef else none)] }

/-- The function `drawObject` of render.cpp: `setModelMat` reads the object for the seven
types of its `switch`, so there is no result for a null object of such a type; `setMaterial`
draws the geometry of these types (taken to be loaded) and nothing for another type. -/
def drawObject (type : ObjectType) (object : Option (Object F)) (gl : GLState F) :
    Option (GLState F) :=
  if type = TERRAIN_ELEMENT ∨ type = RAIDER ∨ type = DUCK ∨ type = PALM ∨ type = SNOWMAN ∨
      type = COUCH ∨ type = DIAMOND then
    match object with
    | none => none
    | some object => some (gl.record (DrawCall.object type object))
  else
    some gl

/-- The function `drawCubeSkybox` of render.cpp. -/
def drawCubeSkybox (gl : GLState F) : GLState F :=
  gl.record DrawCall.skybox

/-- The function `drawSparklesTexture` of render.cpp: it turns blending on, draws the sprite
and turns blending off; it reads the object, so there is no result for a null one. -/
def drawSparklesTexture (sparkles : Option (Object F)) (gl : GLState F) :
    Option (GLState F) :=
  match sparkles with
  | none => none
  | some sparkles =>
    let gl := { gl with blend := true }
    let gl := gl.record (DrawCall.sparkles sparkles)
    some { gl with blend := false }

/-- The function `drawAmongusMovingTexture` of render.cpp, called with a non-null object: its
static flags are back at their initial values after every call, so each call turns blending
on and the depth test off, draws, and turns the depth test on and blending off. -/
def drawAmongusMovingTexture (amongus : Object F) (gl : GLState F) : GLState F :=
  let gl := { gl with blend := true }
  let gl := { gl with depthTest := false }
  let gl := gl.record (DrawCall.amongus amongus)
  let gl := { gl with depthTest := true }
  { gl with blend := false }

/-- The three calls `glEnable(GL_STENCIL_TEST)`, `glStencilOp(GL_KEEP, GL_KEEP, GL_REPLACE)`
and `glStencilFunc(GL_ALWAYS, ref, 0xFF)` that open each tagged pass of `drawAllObjects`. -/
def stencilBegin (ref : Int) (gl : GLState F) : GLState F :=
  let gl := { gl with stencilTest := true }
  let gl := { gl with stencilReplace := true }
  { gl with stencilRef := ref }

/-- The three calls `glDisable(GL_STENCIL_TEST)`, `glDisable(GL_DEPTH_TEST)` and
`glEnable(GL_DEPTH_TEST)` that close each tagged pass of `drawAllObjects`. -/
def stencilEnd (gl : GLState F) : GLState F :=
  let gl := { gl with stencilTest := false }
  let gl := { gl with depthTest := false }
  { gl with depthTest := true }

/-- The function `drawAllObjects` of main.cpp.  `std::advance(it, NUM_PALMS)` is defined only
for `0 ≤ NUM_PALMS ≤ palmList.size()`; otherwise there is no result. -/
def drawAllObjects (g : Globals F) (gl : GLState F) : Option (GLState F) := do
  let gl ← g.sceneObjects.terrainElementsList.foldlM
    (fun gl terrainElement => drawObject TERRAIN_ELEMENT terrainElement gl) gl
  let gl := stencilBegin 3 gl
  let palms ←
    if 0 ≤ g.settings.NUM_PALMS ∧ g.settings.NUM_PALMS.toNat ≤ g.sceneObjects.palmList.length
    then some (g.sceneObjects.palmList.take g.settings.NUM_PALMS.toNat)
    else none
  let gl ← palms.foldlM (fun gl palm => drawObject PALM palm gl) gl
  let gl := stencilEnd gl
  let gl := stencilBegin 1 gl
  let gl ← drawObject SNOWMAN g.sceneObjects.snowman gl
  let gl := stencilEnd gl
  let gl := stencilBegin 2 gl
  let gl ← drawObject RAIDER g.sceneObjects.raider gl
  let gl := stencilEnd gl
  let gl := stencilBegin 4 gl
  let gl ← drawObject COUCH g.sceneObjects.couch gl
  let gl := stencilEnd gl
  let gl := stencilBegin 5 gl
  let gl ← drawObject DUCK g.sceneObjects.duck gl
  let gl := stencilEnd gl
  let gl := stencilBegin 6 gl
  let gl ← drawObject DIAMOND g.sceneObjects.diamond gl
  let gl := stencilEnd gl
  let gl := drawCubeSkybox gl
  let gl ←
    if g.sceneState.sparklesOn then drawSparklesTexture g.sceneObjects.sparkles gl
    else some gl
  let gl := stencilBegin 7 gl
  let gl :=
    if g.sceneState.amongusOn then
      match g.sceneObjects.amongus with
      | some amongus => drawAmongusMovingTexture amongus gl
      | none => gl
    else gl
  some (stencilEnd gl)

/-- The function `setCameraMode` of main.cpp. -/
def setCameraMode (mode : Int) (g : Globals F) : Globals F :=
  let g : Globals F := { g with sceneState := { g.sceneState with cameraNum := mode } }
  let g : Globals F :=
    { g with sceneState := { g.sceneState with freeCameraMode := decide (mode = 3) } }
  { g with passiveMotionFunc := false }

/-- The function `sparklesToggle` of main.cpp. -/
def sparklesToggle (g : Globals F) : Globals F :=
  { g with sceneState := { g.sceneState with sparklesOn := !g.sceneState.sparklesOn } }

/-- The function `flashlightToggle` of main.cpp. -/
def flashlightToggle (g : Globals F) : Globals F :=
  { g with sceneState := { g.sceneState with flashlightOn := !g.sceneState.flashlightOn } }

/-- The function `sunToggle` of main.cpp. -/
def sunToggle (g : Globals F) : Globals F :=
  { g with sceneState := { g.sceneState with sunOn := !g.sceneState.sunOn } }

/-- The function `bannerToggle` of main.cpp. -/
def bannerToggle (g : Globals F) : Globals F :=
  { g with sceneState := { g.sceneState with amongusOn := !g.sceneState.amongusOn } }

/-- The statements `sceneState.fogOn = !sceneState.fogOn; setFogState(sceneState.fogOn);` of
the fog key and the fog menu entry; `setFogState` sets a variable of render.cpp only. -/
def fogToggle (g : Globals F) : Globals F :=
  { g with sceneState := { g.sceneState with fogOn := !g.sceneState.fogOn } }

/-- The variable `WINDOW_WIDTH` of settings.h. -/
def WINDOW_WIDTH : Int := 1000

/-- The variable `WINDOW_HEIGHT` of settings.h. -/
def WINDOW_HEIGHT : Int := 800

/-- The function `fullScreenToggle` of main.cpp; `screenWidth` and `screenHeight` are what
`glutGet` returns for the size of the screen. -/
def fullScreenToggle (screenWidth screenHeight : Int) (g : Globals F) : Globals F :=
  let g : Globals F :=
    if !g.sceneState.fullScreen then
      { g with sceneState :=
        { g.sceneState with windowHeight := screenHeight, windowWidth := screenWidth } }
    else
      { g with sceneState :=
        { g.sceneState with windowHeight := WINDOW_HEIGHT, windowWidth := WINDOW_WIDTH } }
  { g with sceneState := { g.sceneState with fullScreen := !g.sceneState.fullScreen } }

/-- The test `glm::length(a - b) < threshold` of `drawScene`; it is false when one of the
vectors has no value. -/
def reached (ops : FloatOps F) (a b : Option (Vec3 F)) (threshold : F) : Bool :=
  match a, b with
  | some a, some b => decide (glm.length ops (glm.sub a b) < threshold)
  | _, _ => false

/-- The function `drawScene` of main.cpp, without the view and projection matrices it hands
to the shaders: the smoothing of the free camera, the reads of `sceneObjects.raider` (for
camera 5) and `sceneObjects.sparkles`, which have no result for a null pointer, and the call
of `drawAllObjects`. -/
def drawScene (ops : FloatOps F) (g : Globals F) (gl : GLState F) :
    Option (Globals F × GLState F) := do
  let g ←
    if g.sceneState.freeCameraMode then
      let targetPos := g.camera.position
      let targetDir := g.camera.direction
      let transitionSpeed : F := 0.1
      let threshold : F := 0.01
      let posReached := reached ops g.camera.position targetPos threshold
      let dirReached := reached ops g.camera.direction targetDir threshold
      let g : Globals F :=
        if !posReached then
          { g with camera := { g.camera with position := do
              let p ← g.camera.position
              let t ← targetPos
              some (glm.mix p t transitionSpeed) } }
        else g
      let g : Globals F :=
        if !dirReached then
          { g with camera := { g.camera with direction := do
              let d ← g.camera.direction
              let t ← targetDir
              some (glm.mix d t transitionSpeed) } }
        else g
      some g
    else if g.sceneState.cameraNum = 2 then
      some g
    else if g.sceneState.cameraNum = 5 then
      match g.sceneObjects.raider with
      | none => none
      | some _ => some g
    else
      some g
  match g.sceneObjects.sparkles with
  | none => none
  | some _ =>
    let gl ← drawAllObjects g gl
    some (g, gl)

/-- The key code `ESC_KEY` of settings.h. -/
def ESC_KEY : Char := Char.ofNat 27

/-- The special-key codes of freeglut_std.h that the program uses. -/
def GLUT_KEY_F1 : Int := 1

/-- The code `GLUT_KEY_F2` of freeglut_std.h. -/
def GLUT_KEY_F2 : Int := 2

/-- The code `GLUT_KEY_F3` of freeglut_std.h. -/
def GLUT_KEY_F3 : Int := 3

/-- The code `GLUT_KEY_F4` of freeglut_std.h. -/
def GLUT_KEY_F4 : Int := 4

/-- The code `GLUT_KEY_LEFT` of freeglut_std.h. -/
def GLUT_KEY_LEFT : Int := 100

/-- The code `GLUT_KEY_UP` of freeglut_std.h. -/
def GLUT_KEY_UP : Int := 101

/-- The code `GLUT_KEY_RIGHT` of freeglut_std.h. -/
def GLUT_KEY_RIGHT : Int := 102

/-- The code `GLUT_KEY_DOWN` of freeglut_std.h. -/
def GLUT_KEY_DOWN : Int := 103

/-- The code `GLUT_LEFT_BUTTON` of freeglut_std.h. -/
def GLUT_LEFT_BUTTON : Int := 0

/-- The code `GLUT_DOWN` of freeglut_std.h. -/
def GLUT_DOWN : Int := 0

/-- The assignment `sceneState.keyMap[key] = value`. -/
def setKey (key : Fin KEYS_COUNT) (value : Bool) (g : Globals F) : Globals F :=
  { g with sceneState :=
    { g.sceneState with keyMap := fun k => if k = key then value else g.sceneState.keyMap k } }

/-- The function `keyboardCb` of main.cpp; `glutLeaveMainLoop` changes no variable. -/
def keyboardCb (keyPressed : Char) (g : Globals F) : Globals F :=
  if keyPressed = ESC_KEY then g
  else if keyPressed = 'w' then setKey KEY_UP_ARROW true g
  else if keyPressed = 's' then setKey KEY_DOWN_ARROW true g
  else if keyPressed = 'a' then setKey KEY_LEFT_ARROW true g
  else if keyPressed = 'd' then setKey KEY_RIGHT_ARROW true g
  else g

/-- The function `keyboardUpCb` of main.cpp; `file` is the text of config.txt when the key
is released (`none` when it cannot be opened), `screenWidth` and `screenHeight` the size of
the screen. -/
def keyboardUpCb (ops : FloatOps F) (keyReleased : Char) (file : Option (List Char))
    (screenWidth screenHeight : Int) (g : Globals F) : Globals F :=
  if keyReleased = 'w' then setKey KEY_UP_ARROW false g
  else if keyReleased = 's' then setKey KEY_DOWN_ARROW false g
  else if keyReleased = 'a' then setKey KEY_LEFT_ARROW false g
  else if keyReleased = 'd' then setKey KEY_RIGHT_ARROW false g
  else if keyReleased = 'f' then flashlightToggle g
  else if keyReleased = 'g' then fogToggle g
  else if keyReleased = 'b' then bannerToggle g
  else if keyReleased = 'h' then sunToggle g
  else if keyReleased = 'j' then sparklesToggle g
  else if keyReleased = 'p' then fullScreenToggle screenWidth screenHeight g
  else if keyReleased = 'r' then resetScene ops file g
  else g

/-- The function `specialKeyboardCb` of main.cpp. -/
def specialKeyboardCb (specKeyPressed : Int) (g : Globals F) : Globals F :=
  if g.sceneState.gameOver then g
  else if specKeyPressed = GLUT_KEY_UP then setKey KEY_UP_ARROW true g
  else if specKeyPressed = GLUT_KEY_RIGHT then setKey KEY_RIGHT_ARROW true g
  else if specKeyPressed = GLUT_KEY_LEFT then setKey KEY_LEFT_ARROW true g
  else if specKeyPressed = GLUT_KEY_DOWN then setKey KEY_DOWN_ARROW true g
  else g

/-- The function `specialKeyboardUpCb` of main.cpp. -/
def specialKeyboardUpCb (specKeyReleased : Int) (g : Globals F) : Globals F :=
  if g.sceneState.gameOver then g
  else if specKeyReleased = GLUT_KEY_UP then setKey KEY_UP_ARROW false g
  else if specKeyReleased = GLUT_KEY_RIGHT then setKey KEY_RIGHT_ARROW false g
  else if specKeyReleased = GLUT_KEY_DOWN then setKey KEY_DOWN_ARROW false g
  else if specKeyReleased = GLUT_KEY_LEFT then setKey KEY_LEFT_ARROW false g
  else if specKeyReleased = GLUT_KEY_F1 then
    { g with sceneState := { g.sceneState with cameraNum := 1 } }
  else if specKeyReleased = GLUT_KEY_F2 then
    { g with sceneState := { g.sceneState with cameraNum := 2 } }
  else if specKeyReleased = GLUT_KEY_F3 then
    { g with sceneState := { g.sceneState with cameraNum := 4 } }
  else if specKeyReleased = GLUT_KEY_F4 then
    { g with sceneState := { g.sceneState with cameraNum := 5 } }
  else g

/-- The function `mouseCb` of main.cpp; `objStencilID` is the byte that `glReadPixels` reads
from the stencil buffer under the pointer.  Case 4 writes through `sceneObjects.couch`, so
there is no result for a null couch. -/
def mouseCb (buttonPressed buttonState : Int) (objStencilID : Nat) (g : Globals F) :
    Option (Globals F) :=
  if buttonPressed = GLUT_LEFT_BUTTON ∧ buttonState = GLUT_DOWN then
    if objStencilID = 1 then some (sparklesToggle g)
    else if objStencilID = 2 then some (setCameraMode 5 g)
    else if objStencilID = 4 then
      match g.sceneObjects.couch with
      | none => none
      | some couch =>
        some { g with sceneObjects :=
          { g.sceneObjects with couch := some { couch with size := 0.0 } } }
    else some g
  else some g

/-- The function `handleGameMenuChoice` of main.cpp; choice 3 calls `exit(0)`, after which
there is no state. -/
def handleGameMenuChoice (ops : FloatOps F) (choice : Int) (file : Option (List Char))
    (g : Globals F) : Option (Globals F) :=
  if choice = 1 then some (setCameraMode 1 g)
  else if choice = 2 then some (setCameraMode 2 g)
  else if choice = 3 then none
  else if choice = 4 then some (setCameraMode 4 g)
  else if choice = 5 then some (setCameraMode 5 g)
  else if choice = 6 then some (flashlightToggle g)
  else if choice = 7 then some (sunToggle g)
  else if choice = 8 then some (fogToggle g)
  else if choice = 9 then some (sparklesToggle g)
  else if choice = 10 then some (bannerToggle g)
  else if choice = 11 then some (resetScene ops file g)
  else some g

/-- The function `reshapeCb` of main.cpp. -/
def reshapeCb (newWidth newHeight : Int) (g : Globals F) : Globals F :=
  let g : Globals F := { g with sceneState := { g.sceneState with windowWidth := newWidth } }
  { g with sceneState := { g.sceneState with windowHeight := newHeight } }

/-- The entries of the map `keyMap` that `timerCb` builds. -/
def keyDirections : List (Fin KEYS_COUNT × Direction) :=
  [(KEY_UP_ARROW, Direction.Forward), (KEY_DOWN_ARROW, Direction.Backward),
   (KEY_RIGHT_ARROW, Direction.Right), (KEY_LEFT_ARROW, Direction.Left)]

/-- The function `timerCb` of main.cpp; `elapsedMs` is what `glutGet(GLUT_ELAPSED_TIME)`
returns and `order` the order in which the loop visits the entries of its
`std::unordered_map`, which the language leaves open. -/
def timerCb (ops : FloatOps F) (elapsedMs : Int) (order : List (Fin KEYS_COUNT × Direction))
    (g : Globals F) : Option (Globals F) := do
  let g : Globals F :=
    { g with sceneState := { g.sceneState with elapsedTime := 0.001 * (elapsedMs : F) } }
  let g ←
    if g.sceneState.cameraNum = 4 then
      order.foldlM
        (fun g pair => if g.sceneState.keyMap pair.1 then moveCamera ops pair.2 0.0 g else some g)
        g
    else some g
  let g ← updateScene ops g.sceneState.elapsedTime g
  let g : Globals F :=
    if g.sceneState.freeCameraMode then { g with passiveMotionFunc := true } else g
  let g : Globals F :=
    if g.sceneState.amongusOn ∧ g.sceneObjects.amongus.isNone then
      { g with sceneObjects :=
        { g.sceneObjects with amongus := setObject ops g BANNER ⟨0.0, 0.0, 0.0⟩ } }
    else g
  let amongus := g.sceneObjects.amongus.map
    (fun amongus => { amongus with currentTime := g.sceneState.elapsedTime })
  some { g with sceneObjects := { g.sceneObjects with amongus := amongus } }

/-- The function `initApplication` of main.cpp after the `loadConfig` of `main`: `file0` and
`file1` are the text of config.txt at the two reads.  The set-up of OpenGL, the shaders and
the meshes changes no field of `Globals`. -/
def initApplication (ops : FloatOps F) (file0 file1 : Option (List Char)) : Globals F :=
  let g : Globals F := initialGlobals
  let g : Globals F := { g with settings := loadConfig file0 g.settings }
  let g : Globals F := { g with sceneObjects := { g.sceneObjects with amongus := none } }
  resetScene ops file1 g

/-- The events of a run: the callbacks that `main` registers with GLUT, each with what it
receives from the window system (key, pointer, the byte read from the stencil buffer, the
clock, the text of config.txt, the OpenGL state), and direct calls of `moveCamera`,
`updateScene`, `drawScene`, `setCameraMode` and `resetScene`. -/
inductive Event (F : Type) where
  | moveCamera (direction : Direction) (deltaAngle : F)
  | updateScene (elapsedTime : F)
  | drawScene (gl : GLState F)
  | setCameraMode (mode : Int)
  | resetScene (file : Option (List Char))
  | keyboardCb (keyPressed : Char)
  | keyboardUpCb (keyReleased : Char) (file : Option (List Char))
      (screenWidth screenHeight : Int)
  | specialKeyboardCb (specKeyPressed : Int)
  | specialKeyboardUpCb (specKeyReleased : Int)
  | mouseCb (buttonPressed buttonState : Int) (objStencilID : Nat)
  | handleGameMenuChoice (choice : Int) (file : Option (List Char))
  | passiveMouseMotionCb (mouseX mouseY : Int)
  | timerCb (elapsedMs : Int) (order : List (Fin KEYS_COUNT × Direction))
  | reshapeCb (newWidth newHeight : Int)

/-- The state after an event, when there is one: `displayCb` is `drawScene`; GLUT calls
`passiveMouseMotionCb` only while it is registered; `timerCb` visits every entry of its map
once. -/
def step {F : Type} [LinearOrderedField F] (ops : FloatOps F) (event : Event F)
    (g : Globals F) : Option (Globals F) :=
  match event with
  | Event.moveCamera direction deltaAngle => moveCamera ops direction deltaAngle g
  | Event.updateScene elapsedTime => updateScene ops elapsedTime g
  | Event.drawScene gl => (drawScene ops g gl).map Prod.fst
  | Event.setCameraMode mode => some (setCameraMode mode g)
  | Event.resetScene file => some (resetScene ops file g)
  | Event.keyboardCb keyPressed => some (keyboardCb keyPressed g)
  | Event.keyboardUpCb keyReleased file screenWidth screenHeight =>
    some (keyboardUpCb ops keyReleased file screenWidth screenHeight g)
  | Event.specialKeyboardCb specKeyPressed => some (specialKeyboardCb specKeyPressed g)
  | Event.specialKeyboardUpCb specKeyReleased => some (specialKeyboardUpCb specKeyReleased g)
  | Event.mouseCb buttonPressed buttonState objStencilID =>
    mouseCb buttonPressed buttonState objStencilID g
  | Event.handleGameMenuChoice choice file => handleGameMenuChoice ops choice file g
  | Event.passiveMouseMotionCb mouseX mouseY =>
    if g.passiveMotionFunc then passiveMouseMotionCb ops mouseX mouseY g else none
  | Event.timerCb elapsedMs order =>
    if List.Perm order keyDirections then timerCb ops elapsedMs order g else none
  | Event.reshapeCb newWidth newHeight => some (reshapeCb newWidth newHeight g)

end program

variable {F : Type} [LinearOrderedField F]

/-!
Notions the claims are stated with.

The definitions from here to the first theorem are not code of the program.  They are the
notions that the claims speak of (the line count of a text, the decimal text of an integer,
the Euclidean distance, reduction modulo 360), the exactness law of the library square root,
and concrete inputs on which the definitions above are run.
-/

/-- The number of lines of a text: one for every newline, and one more for the characters
after the last newline when there are any. -/
def lineCount : List Char → Nat
  | [] => 0
  | [_] => 1
  | c :: c' :: cs => if c = '\n' then lineCount (c' :: cs) + 1 else lineCount (c' :: cs)

/-- The decimal digits of a natural number. -/
def natText (n : Nat) : List Char := Nat.toDigits 10 n

/-- The decimal text of an integer: a minus sign for a negative number, then the digits. -/
def intText (v : Int) : List Char :=
  if v < 0 then '-' :: natText v.natAbs else natText v.natAbs

/-- A configuration file of five lines holding the integers `n`, `f`, `p`, `d`, `s` in that
order, the last line with or without its newline. -/
def configText (n f p d s : Int) (trailingNewline : Bool) : List Char :=
  intText n ++ ('\n' :: (intText f ++ ('\n' :: (intText p ++ ('\n' :: (intText d ++
    ('\n' :: (intText s ++ (if trailingNewline then ['\n'] else [])))))))))

/-- The library `sqrt` is exact at `x`: its result is the non-negative square root. -/
def SqrtExactAt (ops : FloatOps F) (x : F) : Prop :=
  0 ≤ ops.sqrt x ∧ ops.sqrt x ^ 2 = x

/-- The number `d` is the 3D Euclidean distance between `a` and `b`. -/
def IsDistance (a b : Vec3 F) (d : F) : Prop :=
  0 ≤ d ∧ d ^ 2 = (a.x - b.x) ^ 2 + (a.y - b.y) ^ 2 + (a.z - b.z) ^ 2

/-- Exact operations on the rationals, to run the definitions on concrete inputs: the square
root of Mathlib (exact on squares of rationals) and a rational parametrisation of the unit
circle with `sin 0 = 0`, `cos 0 = 1` and `sin ^ 2 + cos ^ 2 = 1`; no result depends on the
value given for pi. -/
def ratOps : FloatOps ℚ where
  sqrt := Rat.sqrt
  sin := fun t => 2 * t / (1 + t * t)
  cos := fun t => (1 - t * t) / (1 + t * t)
  pi := 22 / 7

/-- The state that `resetScene` leaves at start-up when config.txt cannot be opened, over the
rationals. -/
def exampleGlobals : Globals ℚ := resetScene ratOps none initialGlobals

/-- The number `m` is `x` reduced modulo 360: it lies in `[0, 360)` and differs from `x` by a
whole number of turns. -/
def IsMod360 (x m : F) : Prop :=
  0 ≤ m ∧ m < 360 ∧ ∃ k : ℤ, x = m + 360 * (k : F)

/-- The state `exampleGlobals` with the camera turned to the given view angle. -/
def exampleGlobalsAt (viewAngle : ℚ) : Globals ℚ :=
  { exampleGlobals with
    camera := { exampleGlobals.camera with
      viewAngle := viewAngle, direction := some (facing ratOps viewAngle) } }

/-- The state `exampleGlobalsAt viewAngle` in a window 1920 pixels wide and 1080 high. -/
def exampleFullScreenAt (viewAngle : ℚ) : Globals ℚ :=
  { exampleGlobalsAt viewAngle with
    sceneState := { (exampleGlobalsAt viewAngle).sceneState with
      windowWidth := 1920, windowHeight := 1080 } }

/-- The states of a run of the program: the state in which `initApplication` leaves
`resetScene` at start-up, and every state an event leads to from such a state. -/
inductive Reachable (ops : FloatOps F) : Globals F → Prop where
  | init (file0 file1 : Option (List Char)) : Reachable ops (initApplication ops file0 file1)
  | step (event : Event F) (g g' : Globals F) :
      Reachable ops g → step ops event g = some g' → Reachable ops g'

/-- The state `exampleGlobals` after the F4 key selected camera 5, which follows the flyer. -/
def exampleChase : Globals ℚ :=
  { exampleGlobals with sceneState := { exampleGlobals.sceneState with cameraNum := 5 } }

/-- The state `exampleGlobals` with the camera at `(3.35, -2, 0)` facing `(1, 0, 0)`. -/
def exampleWalk : Globals ℚ :=
  { exampleGlobals with
    camera := { exampleGlobals.camera with
      position := some ⟨3.35, -2, 0⟩, direction := some ⟨1, 0, 0⟩ } }

/-- The state `g'` differs from `g` at most in the interface state: the scene objects, the
settings, the camera and the movement speed are the same. -/
def SameScene (g g' : Globals F) : Prop :=
  g'.sceneObjects = g.sceneObjects ∧ g'.settings = g.settings ∧ g'.camera = g.camera ∧
    g'.sceneState.movementSpeed = g.sceneState.movementSpeed

/-- The scene is set up: 26 ground tiles and 16 palms, none of them null, a palm count
between 0 and 16, and a snowman, flyer, sofa, duck, gem and fire sprite; every entity has a
positive size, except that the size of the sofa is 0.5 or 0. -/
structure SceneReady (g : Globals F) : Prop where
  tiles : ∃ tiles : List (Object F), g.sceneObjects.terrainElementsList = tiles.map some ∧
    tiles.length = 26 ∧ ∀ o ∈ tiles, 0 < o.size
  palms : ∃ palms : List (Object F), g.sceneObjects.palmList = palms.map some ∧
    palms.length = 16 ∧ ∀ o ∈ palms, 0 < o.size
  numPalms : 0 ≤ g.settings.NUM_PALMS ∧ g.settings.NUM_PALMS ≤ 16
  snowman : ∃ o, g.sceneObjects.snowman = some o ∧ 0 < o.size
  raider : ∃ o, g.sceneObjects.raider = some o ∧ 0 < o.size
  couch : ∃ o, g.sceneObjects.couch = some o ∧ (o.size = 0.5 ∨ o.size = 0)
  duck : ∃ o, g.sceneObjects.duck = some o ∧ 0 < o.size
  diamond : ∃ o, g.sceneObjects.diamond = some o ∧ 0 < o.size
  sparkles : ∃ o, g.sceneObjects.sparkles = some o ∧ 0 < o.size
  amongus : ∀ o, g.sceneObjects.amongus = some o → 0 < o.size

/-- The OpenGL state in which `displayCb` first calls `drawAllObjects`: stencil test and
blending off, depth test on, nothing drawn. -/
def exampleGL : GLState ℚ :=
  { stencilTest := false, stencilReplace := false, stencilRef := 0, depthTest := true,
    blend := false, drawn := [] }

/-- The entity that a draw call draws; the skybox is no entity. -/
def DrawCall.entity {F : Type} : DrawCall F → Option (Object F)
  | DrawCall.object _ o => some o
  | DrawCall.skybox => none
  | DrawCall.sparkles o => some o
  | DrawCall.amongus o => some o

/-- The palms among the draw calls made, in the order they were drawn. -/
def palmsDrawn {F : Type} (drawn : List (DrawCall F × Option Int)) : List (Object F) :=
  drawn.filterMap (fun call =>
    match call.1 with
    | DrawCall.object type o => if type = PALM then some o else none
    | _ => none)

/-- The state in which `initApplication` leaves the program when config.txt cannot be
opened, over the rationals. -/
def exampleStart : Globals ℚ := initApplication ratOps none none

/-- The camera is clear of the duck: it has a position within the bounds of the scene and at
squared distance at least 0.49 from the duck centre `(0.4, 2.0, 0)`, and a direction of
length at most 1; the duck is at `(0.4, 2.0)`; the flyer has a direction of length at most 1
and is at squared distance at least 0.49 from the duck centre; the movement speed is 0.1. -/
structure CameraReady (g : Globals F) : Prop where
  position : ∃ p, g.camera.position = some p ∧
    (-SCENE_WIDTH ≤ p.x ∧ p.x ≤ SCENE_WIDTH) ∧ (-SCENE_HEIGHT ≤ p.y ∧ p.y ≤ SCENE_HEIGHT) ∧
    0.49 ≤ glm.dot (glm.sub p ⟨0.4, 2.0, 0⟩) (glm.sub p ⟨0.4, 2.0, 0⟩)
  direction : ∃ d, g.camera.direction = some d ∧ glm.dot d d ≤ 1
  duck : ∃ dk, g.sceneObjects.duck = some dk ∧ dk.position.x = 0.4 ∧ dk.position.y = 2.0
  raider : ∃ r rd, g.sceneObjects.raider = some r ∧ r.direction = some rd ∧
    glm.dot rd rd ≤ 1 ∧
    0.49 ≤ glm.dot (glm.sub r.position ⟨0.4, 2.0, 0⟩) (glm.sub r.position ⟨0.4, 2.0, 0⟩)
  speed : g.sceneState.movementSpeed = 0.1

/-- The number that a run of decimal digits denotes. -/
def digitsValue (digits : List Char) : Nat :=
  digits.foldl (fun acc c => acc * 10 + (c.toNat - '0'.toNat)) 0

/-- The line holds the integer `v`: white space other than a newline, then an optional sign
`+` or `-`, then one or more decimal digits (leading zeros allowed) that denote `|v|`, then
white space other than a newline (the carriage return of a DOS line end, say). -/
def HoldsInt (line : List Char) (v : Int) : Prop :=
  ∃ lead sign digits trail : List Char,
    line = lead ++ (sign ++ (digits ++ trail)) ∧
    (∀ c ∈ lead, isspace c = true ∧ c ≠ '\n') ∧
    (sign = [] ∨ sign = ['+'] ∨ sign = ['-']) ∧
    digits ≠ [] ∧ (∀ c ∈ digits, isdigit c = true) ∧
    (∀ c ∈ trail, isspace c = true ∧ c ≠ '\n') ∧
    v = (if sign = ['-'] then -(digitsValue digits : Int) else (digitsValue digits : Int))

/-- The text of five lines, the last one with or without its newline. -/
def linesText (l1 l2 l3 l4 l5 : List Char) (trailingNewline : Bool) : List Char :=
  l1 ++ ('\n' :: (l2 ++ ('\n' :: (l3 ++ ('\n' :: (l4 ++
    ('\n' :: (l5 ++ (if trailingNewline then ['\n'] else [])))))))))

/-!
The `float` of the program as IEEE 754 binary32.

The definitions of the program above are generic in the arithmetic.  Here is the arithmetic
the compiled program runs: every operation gives the binary32 number nearest to its exact
result, each operation rounded on its own (no fused multiply-add), and a decimal literal
`0.7f` is the binary32 number nearest to 0.7.  The examples of rounding below are runs of
the definitions above in this arithmetic.
-/

/-- A finite number of IEEE 754 binary32, the `float` of the program, held as the rational
number it denotes.  Infinities, NaN and the sign of zero are left out.  Every literal and
every result of an operation below is a binary32 number, and so is every value written out
in the examples (each is the result of the run it is compared with). -/
structure Binary32 where
  val : ℚ
deriving DecidableEq

/-- The integer nearest to `y`, the even one of two equally near. -/
def Binary32.roundHalfEven (y : ℚ) : ℤ :=
  if y - ⌊y⌋ < 1 / 2 then ⌊y⌋
  else if 1 / 2 < y - ⌊y⌋ then ⌊y⌋ + 1
  else if ⌊y⌋ % 2 = 0 then ⌊y⌋ else ⌊y⌋ + 1

/-- The number of binary digits of `n`, counted with at most `fuel` halvings. -/
def Binary32.bits : ℕ → ℕ → ℕ
  | 0, _ => 0
  | fuel + 1, n => if n = 0 then 0 else Binary32.bits fuel (n / 2) + 1

/-- The binary exponent of a positive rational `a`: the `e` with `2 ^ e ≤ a < 2 ^ (e + 1)`. -/
def Binary32.exponent (a : ℚ) : ℤ :=
  let e : ℤ := (Binary32.bits a.num.natAbs a.num.natAbs : ℤ) - (Binary32.bits a.den a.den : ℤ)
  if a < 2 ^ e then e - 1 else e

/-- Rounding to binary32, to nearest and ties to even: a significand of 24 bits, and the
multiples of `2 ^ (-149)` below the least normal number.  A result beyond the largest finite
number is not turned into an infinity. -/
def Binary32.roundNearest (x : ℚ) : ℚ :=
  if x = 0 then 0
  else
    let ulp : ℚ := 2 ^ max (Binary32.exponent |x| - 23) (-149)
    Binary32.roundHalfEven (x / ulp) * ulp

instance Binary32.instAdd : Add Binary32 :=
  ⟨fun a b => ⟨Binary32.roundNearest (a.val + b.val)⟩⟩

instance Binary32.instSub : Sub Binary32 :=
  ⟨fun a b => ⟨Binary32.roundNearest (a.val - b.val)⟩⟩

instance Binary32.instMul : Mul Binary32 :=
  ⟨fun a b => ⟨Binary32.roundNearest (a.val * b.val)⟩⟩

instance Binary32.instDiv : Div Binary32 :=
  ⟨fun a b => ⟨Binary32.roundNearest (a.val / b.val)⟩⟩

instance Binary32.instNeg : Neg Binary32 := ⟨fun a => ⟨-a.val⟩⟩

instance Binary32.instZero : Zero Binary32 := ⟨⟨0⟩⟩

instance Binary32.instOne : One Binary32 := ⟨⟨1⟩⟩

instance Binary32.instNatCast : NatCast Binary32 := ⟨fun n => ⟨Binary32.roundNearest n⟩⟩

instance Binary32.instIntCast : IntCast Binary32 := ⟨fun n => ⟨Binary32.roundNearest n⟩⟩

instance Binary32.instOfScientific : OfScientific Binary32 :=
  ⟨fun m s e => ⟨Binary32.roundNearest (OfScientific.ofScientific m s e)⟩⟩

instance Binary32.instLinearOrder : LinearOrder Binary32 :=
  LinearOrder.lift' Binary32.val (fun a b h => by cases a; cases b; cases h; rfl)

/-- The exact rational coordinates of a vector of binary32 numbers. -/
def Binary32.exact (v : Vec3 Binary32) : Vec3 ℚ := ⟨v.x.val, v.y.val, v.z.val⟩

theorem clampFromStd_ge {T : Type} [LinearOrder T] (value lower upper : T)
    (h : lower ≤ upper) : lower ≤ clampFromStd value lower upper := by
  unfold clampFromStd
  split_ifs with h1 h2
  · exact le_refl _
  · exact h
  · exact not_lt.mp h1

theorem clampFromStd_le {T : Type} [LinearOrder T] (value lower upper : T)
    (h : lower ≤ upper) : clampFromStd value lower upper ≤ upper := by
  unfold clampFromStd
  split_ifs with h1 h2
  · exact h
  · exact le_refl _
  · exact not_lt.mp h2

theorem clampFromStd_eq_max_min {T : Type} [LinearOrder T] (value lower upper : T)
    (h : lower ≤ upper) : clampFromStd value lower upper = max lower (min value upper) := by
  unfold clampFromStd
  split_ifs with h1 h2
  · rw [max_eq_left]
    exact le_trans (min_le_left _ _) (le_of_lt h1)
  · rw [min_eq_right (le_of_lt h2), max_eq_right h]
  · rw [min_eq_left (not_lt.mp h2), max_eq_right (not_lt.mp h1)]

theorem neg_scene_le_scene : (-(3.8 : F)) ≤ 3.8 := by norm_num

/-- C1: the corrected position has x in `[-SCENE_WIDTH, SCENE_WIDTH]` and y in
`[-SCENE_HEIGHT, SCENE_HEIGHT]`, both `[-3.8, 3.8]`, each the coordinate of `p` clamped on its
own, and the z of `p`. -/
theorem correctCameraBoundsPosition_bounds (p : Vec3 F) :
    (-SCENE_WIDTH ≤ (correctCameraBoundsPosition p).x ∧
      (correctCameraBoundsPosition p).x ≤ SCENE_WIDTH) ∧
    (-SCENE_HEIGHT ≤ (correctCameraBoundsPosition p).y ∧
      (correctCameraBoundsPosition p).y ≤ SCENE_HEIGHT) ∧
    (correctCameraBoundsPosition p).x = max (-3.8) (min p.x 3.8) ∧
    (correctCameraBoundsPosition p).y = max (-3.8) (min p.y 3.8) ∧
    (correctCameraBoundsPosition p).z = p.z :=
  ⟨⟨clampFromStd_ge _ _ _ neg_scene_le_scene, clampFromStd_le _ _ _ neg_scene_le_scene⟩,
   ⟨clampFromStd_ge _ _ _ neg_scene_le_scene, clampFromStd_le _ _ _ neg_scene_le_scene⟩,
   clampFromStd_eq_max_min _ _ _ neg_scene_le_scene,
   clampFromStd_eq_max_min _ _ _ neg_scene_le_scene, rfl⟩

theorem dot_self_nonneg (v : Vec3 F) : 0 ≤ glm.dot v v := by
  unfold glm.dot
  nlinarith [mul_self_nonneg v.x, mul_self_nonneg v.y, mul_self_nonneg v.z]

/-- Over the real numbers the square root is exact at every squared length the program takes
a root of, whatever the other operations are. -/
theorem real_sqrtExactAt_dot (sin cos : ℝ → ℝ) (pi : ℝ) (v : Vec3 ℝ) :
    SqrtExactAt (⟨Real.sqrt, sin, cos, pi⟩ : FloatOps ℝ) (glm.dot v v) :=
  ⟨Real.sqrt_nonneg _, Real.sq_sqrt (dot_self_nonneg v)⟩

/-- Over the real numbers every two points have a Euclidean distance. -/
theorem real_isDistance (a b : Vec3 ℝ) :
    IsDistance a b (Real.sqrt (glm.dot (glm.sub a b) (glm.sub a b))) := by
  refine ⟨Real.sqrt_nonneg _, ?_⟩
  rw [Real.sq_sqrt (dot_self_nonneg _)]
  simp only [glm.dot, glm.sub]
  ring

/-- The real sine, cosine and square root satisfy the laws that the flyer example asks for. -/
theorem real_trig_laws :
    (⟨Real.sqrt, Real.sin, Real.cos, Real.pi⟩ : FloatOps ℝ).sin 0 = 0 ∧
    (⟨Real.sqrt, Real.sin, Real.cos, Real.pi⟩ : FloatOps ℝ).cos 0 = 1 ∧
    SqrtExactAt (⟨Real.sqrt, Real.sin, Real.cos, Real.pi⟩ : FloatOps ℝ) 1 :=
  ⟨Real.sin_zero, Real.cos_zero, by simp [SqrtExactAt]⟩

theorem ratOps_sqrtExactAt_sq (q : ℚ) : SqrtExactAt ratOps (q * q) := by
  unfold SqrtExactAt
  have h : ratOps.sqrt (q * q) = |q| := Rat.sqrt_eq q
  rw [h]
  exact ⟨abs_nonneg q, by rw [sq_abs]; ring⟩

theorem sqrt_one_of_exact (ops : FloatOps F) (h : SqrtExactAt ops 1) : ops.sqrt 1 = 1 := by
  obtain ⟨h0, h2⟩ := h
  have : ops.sqrt 1 ^ 2 = (1 : F) ^ 2 := by rw [h2]; norm_num
  exact (sq_eq_sq₀ h0 (by norm_num)).mp this

theorem exampleGlobals_raider :
    exampleGlobals.sceneObjects.raider =
      some { position := ⟨1.0, 0.0, 0.5⟩, direction := some (facing ratOps 0.0), speed := 0.7,
             size := 0.3, startTime := 0, currentTime := 0, viewAngle := 0.0,
             frameDuration := 0.0 } := rfl

theorem exampleGlobals_duck :
    exampleGlobals.sceneObjects.duck =
      some { position := ⟨0.4, 2.0, 0.3⟩, direction := glm.normalize ratOps ⟨0.0, 0.0, 0.0⟩,
             speed := 0.0, size := 0.8, startTime := 0, currentTime := 0, viewAngle := 0.0,
             frameDuration := 0.0 } := rfl

/-- C5: in a scene that has a flyer, after `updateScene t` the flyer is at
`(sin (t * speed), cos (t * speed), 1)` with direction
`normalize (-cos (t * speed), sin (t * speed), 0)`, whatever its position and direction were
before; at `t = 0` with speed 0.7 that is position `(0, 1, 1)` and direction `(-1, 0, 0)`. -/
theorem updateScene_raider_orbit (ops : FloatOps F) (t : F) (g : Globals F) (r : Object F)
    (hr : g.sceneObjects.raider = some r) :
    ∃ g' r', updateScene ops t g = some g' ∧ g'.sceneObjects.raider = some r' ∧
      r'.position = ⟨ops.sin (t * r.speed), ops.cos (t * r.speed), 1⟩ ∧
      r'.direction = glm.normalize ops ⟨-ops.cos (t * r.speed), ops.sin (t * r.speed), 0⟩ ∧
      r'.speed = r.speed ∧
      (t = 0 → r.speed = 0.7 → ops.sin 0 = 0 → ops.cos 0 = 1 → SqrtExactAt ops 1 →
        r'.position = ⟨0, 1, 1⟩ ∧ r'.direction = some ⟨-1, 0, 0⟩) := by
  simp only [updateScene, hr]
  refine ⟨_, _, rfl, rfl, rfl, rfl, rfl, ?_⟩
  intro ht _ hsin hcos hsqrt
  have h1 := sqrt_one_of_exact ops hsqrt
  subst ht
  simp only [zero_mul, hsin, hcos, glm.normalize, glm.inversesqrt, glm.dot, glm.muls]
  norm_num [h1]

theorem updateScene_raider_orbit_witness :
    exampleGlobals.sceneObjects.raider =
      some { position := ⟨1.0, 0.0, 0.5⟩, direction := some (facing ratOps 0.0), speed := 0.7,
             size := 0.3, startTime := 0, currentTime := 0, viewAngle := 0.0,
             frameDuration := 0.0 } ∧
    ratOps.sin 0 = 0 ∧ ratOps.cos 0 = 1 ∧ SqrtExactAt ratOps 1 ∧
    ∃ g' r', updateScene ratOps 0 exampleGlobals = some g' ∧
      g'.sceneObjects.raider = some r' ∧
      r'.position = ⟨0, 1, 1⟩ ∧ r'.direction = some ⟨-1, 0, 0⟩ := by
  have hsin : ratOps.sin 0 = 0 := by norm_num [ratOps]
  have hcos : ratOps.cos 0 = 1 := by norm_num [ratOps]
  have hsq : SqrtExactAt ratOps 1 := by
    have h := ratOps_sqrtExactAt_sq 1
    norm_num at h
    exact h
  obtain ⟨g', r', h1, h2, -, -, -, h3⟩ :=
    updateScene_raider_orbit ratOps 0 exampleGlobals _ exampleGlobals_raider
  exact ⟨exampleGlobals_raider, hsin, hcos, hsq, g', r', h1, h2,
    h3 rfl (by norm_num) hsin hcos hsq⟩

/-- With a duck in the scene `moveCamera` has a result, whose view angle and direction are
the ones its `switch` computed. -/
theorem moveCamera_camera (ops : FloatOps F) (direction : Direction) (deltaAngle : F)
    (g : Globals F) (dk : Object F) (hduck : g.sceneObjects.duck = some dk) :
    ∃ g', moveCamera ops direction deltaAngle g = some g' ∧
      g'.camera.viewAngle =
        (moveCameraSwitch ops direction deltaAngle g.sceneState.movementSpeed g.camera).1.viewAngle ∧
      g'.camera.direction =
        (moveCameraSwitch ops direction deltaAngle g.sceneState.movementSpeed g.camera).1.direction := by
  simp only [moveCamera, hduck]
  exact ⟨_, rfl, rfl, rfl⟩

theorem moveCameraSwitch_turnLeft (ops : FloatOps F) (d ms : F) (cam : Camera F) :
    (moveCameraSwitch ops Direction.TurnLeft d ms cam).1.viewAngle =
        (if cam.viewAngle + d ≥ 360 then cam.viewAngle + d - 360 else cam.viewAngle + d) ∧
      (moveCameraSwitch ops Direction.TurnLeft d ms cam).1.direction =
        some (facing ops (moveCameraSwitch ops Direction.TurnLeft d ms cam).1.viewAngle) :=
  ⟨rfl, rfl⟩

theorem moveCameraSwitch_turnRight (ops : FloatOps F) (d ms : F) (cam : Camera F) :
    (moveCameraSwitch ops Direction.TurnRight d ms cam).1.viewAngle =
        (if cam.viewAngle - d < 0 then cam.viewAngle - d + 360 else cam.viewAngle - d) ∧
      (moveCameraSwitch ops Direction.TurnRight d ms cam).1.direction =
        some (facing ops (moveCameraSwitch ops Direction.TurnRight d ms cam).1.viewAngle) :=
  ⟨rfl, rfl⟩

theorem exampleGlobalsAt_duck (a : ℚ) :
    (exampleGlobalsAt a).sceneObjects.duck =
      some { position := ⟨0.4, 2.0, 0.3⟩, direction := glm.normalize ratOps ⟨0.0, 0.0, 0.0⟩,
             speed := 0.0, size := 0.8, startTime := 0, currentTime := 0, viewAngle := 0.0,
             frameDuration := 0.0 } := rfl

theorem exampleFullScreenAt_duck (a : ℚ) :
    (exampleFullScreenAt a).sceneObjects.duck =
      some { position := ⟨0.4, 2.0, 0.3⟩, direction := glm.normalize ratOps ⟨0.0, 0.0, 0.0⟩,
             speed := 0.0, size := 0.8, startTime := 0, currentTime := 0, viewAngle := 0.0,
             frameDuration := 0.0 } := rfl

/-- C6 (counterexample): from view angle 350 a left turn by 370 degrees leaves the view angle
360, which is not `(350 + 370) mod 360 = 0`: the single subtraction of 360 does not bring it
back below 360. -/
theorem moveCamera_turnLeft_370 :
    ∃ g', moveCamera ratOps Direction.TurnLeft 370 (exampleGlobalsAt 350) = some g' ∧
      g'.camera.viewAngle = 360 ∧ ¬ IsMod360 ((350 : ℚ) + 370) g'.camera.viewAngle := by
  obtain ⟨g', h1, h2, -⟩ := moveCamera_camera ratOps Direction.TurnLeft 370
    (exampleGlobalsAt 350) _ (exampleGlobalsAt_duck 350)
  have hv : g'.camera.viewAngle = 360 := by
    rw [h2, (moveCameraSwitch_turnLeft _ _ _ _).1]
    norm_num [exampleGlobalsAt]
  refine ⟨g', h1, hv, ?_⟩
  rw [hv]
  rintro ⟨-, hlt, -⟩
  exact absurd hlt (by norm_num)

/-- C6 (amended): with view angle 350 and a duck in the scene, a left turn by `d` degrees with
`0 ≤ d < 370` leaves the view angle `(350 + d) mod 360`; with view angle 5, a right turn by 10
degrees leaves 355. -/
theorem moveCamera_turn_wrap (ops : FloatOps F) (g : Globals F) (dk : Object F)
    (hduck : g.sceneObjects.duck = some dk) :
    (∀ d : F, 0 ≤ d → d < 370 → g.camera.viewAngle = 350 →
      ∃ g', moveCamera ops Direction.TurnLeft d g = some g' ∧
        IsMod360 (350 + d) g'.camera.viewAngle) ∧
    (g.camera.viewAngle = 5 →
      ∃ g', moveCamera ops Direction.TurnRight 10 g = some g' ∧ g'.camera.viewAngle = 355) := by
  constructor
  · intro d hd0 hd370 hv
    obtain ⟨g', h1, h2, -⟩ := moveCamera_camera ops Direction.TurnLeft d g dk hduck
    refine ⟨g', h1, ?_⟩
    rw [h2, (moveCameraSwitch_turnLeft _ _ _ _).1, hv]
    split_ifs with h
    · refine ⟨by linarith, by linarith, 1, ?_⟩
      push_cast
      ring
    · refine ⟨by linarith, lt_of_not_ge h, 0, ?_⟩
      push_cast
      ring
  · intro hv
    obtain ⟨g', h1, h2, -⟩ := moveCamera_camera ops Direction.TurnRight 10 g dk hduck
    refine ⟨g', h1, ?_⟩
    rw [h2, (moveCameraSwitch_turnRight _ _ _ _).1, hv]
    norm_num

theorem moveCamera_turn_wrap_witness :
    (exampleGlobalsAt 350).camera.viewAngle = 350 ∧ (0 : ℚ) ≤ 20 ∧ (20 : ℚ) < 370 ∧
    (∃ g', moveCamera ratOps Direction.TurnLeft 20 (exampleGlobalsAt 350) = some g' ∧
      IsMod360 ((350 : ℚ) + 20) g'.camera.viewAngle) ∧
    (exampleGlobalsAt 5).camera.viewAngle = 5 ∧
    (∃ g', moveCamera ratOps Direction.TurnRight 10 (exampleGlobalsAt 5) = some g' ∧
      g'.camera.viewAngle = 355) :=
  ⟨rfl, by norm_num, by norm_num,
    (moveCamera_turn_wrap ratOps (exampleGlobalsAt 350) _ (exampleGlobalsAt_duck 350)).1 20
      (by norm_num) (by norm_num) rfl,
    rfl,
    (moveCamera_turn_wrap ratOps (exampleGlobalsAt 5) _ (exampleGlobalsAt_duck 5)).2 rfl⟩

/-- C7 (counterexample): in a window 1920 pixels wide, with view angle 300 (inside
`[0, 360)`), the pointer at `x = 0` makes `passiveMouseMotionCb` call
`moveCamera(TurnLeft, 480)`, which leaves the view angle 420, outside `[0, 360)`. -/
theorem moveCamera_turnLeft_480 :
    (0 : ℚ) ≤ (exampleFullScreenAt 300).camera.viewAngle ∧
    (exampleFullScreenAt 300).camera.viewAngle < 360 ∧
    passiveMouseMotionCb ratOps 0 540 (exampleFullScreenAt 300) =
      moveCamera ratOps Direction.TurnLeft 480 (exampleFullScreenAt 300) ∧
    ∃ g', moveCamera ratOps Direction.TurnLeft 480 (exampleFullScreenAt 300) = some g' ∧
      g'.camera.viewAngle = 420 ∧ ¬ (0 ≤ g'.camera.viewAngle ∧ g'.camera.viewAngle < 360) := by
  obtain ⟨g', h1, h2, -⟩ := moveCamera_camera ratOps Direction.TurnLeft 480
    (exampleFullScreenAt 300) _ (exampleFullScreenAt_duck 300)
  have hv : g'.camera.viewAngle = 420 := by
    rw [h2, (moveCameraSwitch_turnLeft _ _ _ _).1]
    norm_num [exampleFullScreenAt, exampleGlobalsAt]
  refine ⟨by norm_num [exampleFullScreenAt, exampleGlobalsAt],
    by norm_num [exampleFullScreenAt, exampleGlobalsAt], ?_, g', h1, hv, ?_⟩
  · have hw : (exampleFullScreenAt 300).sceneState.windowWidth = 1920 := rfl
    simp only [passiveMouseMotionCb, hw]
    norm_num [Int.tdiv]
  · rw [hv]
    rintro ⟨-, hlt⟩
    exact absurd hlt (by norm_num)

/-- C7 (amended): for a view angle in `[0, 360)`, a duck in the scene and every `d ≥ 0`, both
turns succeed and leave the direction `(cos θ, sin θ, 0)` for the new view angle `θ` in
degrees; the new view angle is in `[0, 360)` exactly when `viewAngle + d < 720` for a left turn
and exactly when `d ≤ viewAngle + 360` for a right turn, so for every `d < 360`. -/
theorem moveCamera_turn_invariant (ops : FloatOps F) (g : Globals F) (dk : Object F) (d : F)
    (hduck : g.sceneObjects.duck = some dk)
    (hv0 : 0 ≤ g.camera.viewAngle) (hv360 : g.camera.viewAngle < 360) (hd : 0 ≤ d) :
    ∃ gl gr, moveCamera ops Direction.TurnLeft d g = some gl ∧
      moveCamera ops Direction.TurnRight d g = some gr ∧
      gl.camera.direction =
        some ⟨ops.cos (glm.radians ops gl.camera.viewAngle),
              ops.sin (glm.radians ops gl.camera.viewAngle), 0⟩ ∧
      gr.camera.direction =
        some ⟨ops.cos (glm.radians ops gr.camera.viewAngle),
              ops.sin (glm.radians ops gr.camera.viewAngle), 0⟩ ∧
      ((0 ≤ gl.camera.viewAngle ∧ gl.camera.viewAngle < 360) ↔ g.camera.viewAngle + d < 720) ∧
      ((0 ≤ gr.camera.viewAngle ∧ gr.camera.viewAngle < 360) ↔ d ≤ g.camera.viewAngle + 360) ∧
      (d < 360 → (0 ≤ gl.camera.viewAngle ∧ gl.camera.viewAngle < 360) ∧
        (0 ≤ gr.camera.viewAngle ∧ gr.camera.viewAngle < 360)) := by
  obtain ⟨gl, l1, l2, l3⟩ := moveCamera_camera ops Direction.TurnLeft d g dk hduck
  obtain ⟨gr, r1, r2, r3⟩ := moveCamera_camera ops Direction.TurnRight d g dk hduck
  have hl : ((0 ≤ gl.camera.viewAngle ∧ gl.camera.viewAngle < 360) ↔
      g.camera.viewAngle + d < 720) := by
    rw [l2, (moveCameraSwitch_turnLeft _ _ _ _).1]
    split_ifs with h
    · constructor
      · rintro ⟨-, h2⟩
        linarith
      · intro h2
        exact ⟨by linarith, by linarith⟩
    · constructor
      · intro _
        linarith [lt_of_not_ge h]
      · intro _
        exact ⟨by linarith, lt_of_not_ge h⟩
  have hr : ((0 ≤ gr.camera.viewAngle ∧ gr.camera.viewAngle < 360) ↔
      d ≤ g.camera.viewAngle + 360) := by
    rw [r2, (moveCameraSwitch_turnRight _ _ _ _).1]
    split_ifs with h
    · constructor
      · rintro ⟨h1, -⟩
        linarith
      · intro h2
        exact ⟨by linarith, by linarith⟩
    · constructor
      · intro _
        linarith [not_lt.mp h]
      · intro _
        exact ⟨not_lt.mp h, by linarith⟩
  refine ⟨gl, gr, l1, r1, ?_, ?_, hl, hr, ?_⟩
  · rw [l3, (moveCameraSwitch_turnLeft _ _ _ _).2, l2]
    rfl
  · rw [r3, (moveCameraSwitch_turnRight _ _ _ _).2, r2]
    rfl
  · intro hd360
    exact ⟨hl.mpr (by linarith), hr.mpr (by linarith)⟩

theorem moveCamera_turn_invariant_witness :
    (0 : ℚ) ≤ (exampleGlobalsAt 350).camera.viewAngle ∧
    (exampleGlobalsAt 350).camera.viewAngle < 360 ∧ (0 : ℚ) ≤ 20 ∧
    ∃ gl gr, moveCamera ratOps Direction.TurnLeft 20 (exampleGlobalsAt 350) = some gl ∧
      moveCamera ratOps Direction.TurnRight 20 (exampleGlobalsAt 350) = some gr ∧
      (0 ≤ gl.camera.viewAngle ∧ gl.camera.viewAngle < 360) ∧
      (0 ≤ gr.camera.viewAngle ∧ gr.camera.viewAngle < 360) := by
  have h0 : (0 : ℚ) ≤ (exampleGlobalsAt 350).camera.viewAngle := by
    norm_num [exampleGlobalsAt]
  have h1 : (exampleGlobalsAt 350).camera.viewAngle < 360 := by
    norm_num [exampleGlobalsAt]
  obtain ⟨gl, gr, a, b, -, -, -, -, c⟩ :=
    moveCamera_turn_invariant ratOps (exampleGlobalsAt 350) _ 20 (exampleGlobalsAt_duck 350)
      h0 h1 (by norm_num)
  exact ⟨h0, h1, by norm_num, gl, gr, a, b, (c (by norm_num)).1, (c (by norm_num)).2⟩

theorem digitChar_spec :
    ∀ k, k < 10 → isdigit (Nat.digitChar k) = true ∧
      (Nat.digitChar k).toNat - '0'.toNat = k := by
  decide

theorem isdigit_ne_newline (c : Char) (h : isdigit c = true) : c ≠ '\n' := by
  intro hc
  subst hc
  revert h
  decide

theorem isdigit_ne_minus (c : Char) (h : isdigit c = true) : c ≠ '-' := by
  intro hc
  subst hc
  revert h
  decide

theorem isdigit_ne_plus (c : Char) (h : isdigit c = true) : c ≠ '+' := by
  intro hc
  subst hc
  revert h
  decide

theorem isdigit_not_isspace (c : Char) (h : isdigit c = true) : isspace c = false := by
  cases hs : isspace c with
  | false => rfl
  | true =>
    exfalso
    simp only [isspace, Bool.or_eq_true, decide_eq_true_eq] at hs
    rcases hs with ((((hc | hc) | hc) | hc) | hc) | hc <;> subst hc <;> revert h <;> decide

theorem scanDigits_stop (tail : List Char) (acc : Nat)
    (htail : ∀ c ∈ tail.head?, isdigit c = false) : scanDigits tail acc = (acc, tail) := by
  cases tail with
  | nil => rfl
  | cons c cs =>
    have hc : isdigit c = false := htail c (by simp)
    simp [scanDigits, hc]

theorem scanDigits_append (L tail : List Char) (acc : Nat)
    (hL : ∀ c ∈ L, isdigit c = true) :
    scanDigits (L ++ tail) acc =
      scanDigits tail (L.foldl (fun a c => a * 10 + (c.toNat - '0'.toNat)) acc) := by
  induction L generalizing acc with
  | nil => rfl
  | cons c cs ih =>
    have hc : isdigit c = true := hL c (by simp)
    simp only [List.cons_append, scanDigits, hc, if_true, List.foldl_cons]
    exact ih _ (fun c' h' => hL c' (List.mem_cons_of_mem _ h'))

/-- The decimal digits of `n` are a non-empty run of digit characters whose value is `n`. -/
theorem toDigitsCore_spec (fuel : Nat) :
    ∀ (n : Nat) (ds : List Char), n < fuel →
      ∃ L, Nat.toDigitsCore 10 fuel n ds = L ++ ds ∧ L ≠ [] ∧
        (∀ c ∈ L, isdigit c = true) ∧
        L.foldl (fun a c => a * 10 + (c.toNat - '0'.toNat)) 0 = n := by
  induction fuel with
  | zero => intro n ds h; exact absurd h (Nat.not_lt_zero n)
  | succ fuel ih =>
    intro n ds h
    have hm : n % 10 < 10 := Nat.mod_lt n (by decide)
    obtain ⟨hdig, hval⟩ := digitChar_spec (n % 10) hm
    by_cases h0 : n / 10 = 0
    · refine ⟨[Nat.digitChar (n % 10)], ?_, by simp, ?_, ?_⟩
      · simp [Nat.toDigitsCore, h0]
      · intro c hc
        rw [List.mem_singleton] at hc
        rw [hc]
        exact hdig
      · simp only [List.foldl_cons, List.foldl_nil, zero_mul, zero_add, hval]
        have := Nat.div_add_mod n 10
        omega
    · have hlt : n / 10 < fuel := by omega
      obtain ⟨L, hL, -, hd, hv⟩ := ih (n / 10) (Nat.digitChar (n % 10) :: ds) hlt
      refine ⟨L ++ [Nat.digitChar (n % 10)], ?_, by simp, ?_, ?_⟩
      · simp [Nat.toDigitsCore, h0, hL]
      · intro c hc
        rw [List.mem_append, List.mem_singleton] at hc
        rcases hc with hc | hc
        · exact hd c hc
        · rw [hc]
          exact hdig
      · rw [List.foldl_append, hv]
        simp only [List.foldl_cons, List.foldl_nil, hval]
        have := Nat.div_add_mod n 10
        omega

theorem natText_spec (n : Nat) :
    natText n ≠ [] ∧ (∀ c ∈ natText n, isdigit c = true) ∧
      (natText n).foldl (fun a c => a * 10 + (c.toNat - '0'.toNat)) 0 = n := by
  obtain ⟨L, hL, hne, hd, hv⟩ := toDigitsCore_spec (n + 1) n [] (Nat.lt_succ_self n)
  have : natText n = L := by
    simp [natText, Nat.toDigits, hL]
  rw [this]
  exact ⟨hne, hd, hv⟩

theorem scanDigits_natText (n : Nat) (tail : List Char)
    (htail : ∀ c ∈ tail.head?, isdigit c = false) :
    scanDigits (natText n ++ tail) 0 = (n, tail) := by
  obtain ⟨-, hd, hv⟩ := natText_spec n
  rw [scanDigits_append _ _ _ hd, hv]
  exact scanDigits_stop tail n htail

theorem dropWhile_isspace_append (ws X : List Char) (hws : ∀ c ∈ ws, isspace c = true)
    (hX : ∀ c ∈ X.head?, isspace c = false) : (ws ++ X).dropWhile isspace = X := by
  induction ws with
  | nil =>
    cases X with
    | nil => rfl
    | cons c cs =>
      have hc : isspace c = false := hX c (by simp)
      simp [List.dropWhile, hc]
  | cons c cs ih =>
    have hc : isspace c = true := hws c (by simp)
    simp only [List.cons_append, List.dropWhile, hc]
    exact ih (fun c' h' => hws c' (List.mem_cons_of_mem _ h'))


/-- Extraction reads back the decimal text of an integer: on a good stream whose remaining
text is white space, then the text of `v`, then something that does not start with a digit,
`file >> value` stores `v` saturated to the range of `int` and stops right after the digits. -/
theorem extractInt_intText (file : IfStream) (old v : Int) (ws tail : List Char)
    (hfail : file.failbit = false) (heof : file.eofbit = false)
    (hws : ∀ c ∈ ws, isspace c = true)
    (htail : ∀ c ∈ tail.head?, isdigit c = false)
    (hrest : file.rest = ws ++ (intText v ++ tail)) :
    extractInt file old =
      (if v < INT_MIN then
        ({ file with rest := tail, eofbit := tail.isEmpty, failbit := true }, INT_MIN)
      else if INT_MAX < v then
        ({ file with rest := tail, eofbit := tail.isEmpty, failbit := true }, INT_MAX)
      else ({ file with rest := tail, eofbit := tail.isEmpty }, v)) := by
  obtain ⟨hne, hd, -⟩ := natText_spec v.natAbs
  obtain ⟨c, cs, hL⟩ : ∃ c cs, natText v.natAbs = c :: cs := List.exists_cons_of_ne_nil hne
  have hcd : isdigit c = true := hd c (by rw [hL]; simp)
  have hscan : scanDigits (c :: (cs ++ tail)) 0 = (v.natAbs, tail) := by
    have h := scanDigits_natText v.natAbs tail htail
    rw [hL] at h
    exact h
  by_cases hneg : v < 0
  · have hit : intText v ++ tail = '-' :: c :: (cs ++ tail) := by
      simp [intText, hneg, hL]
    have hdw : (ws ++ (intText v ++ tail)).dropWhile isspace = '-' :: c :: (cs ++ tail) := by
      rw [hit]
      exact dropWhile_isspace_append ws _ hws (by intro c' hc'; simp at hc'; subst hc'; decide)
    have hval : -((v.natAbs : Nat) : Int) = v := by omega
    simp only [extractInt, hfail, heof, hrest, hdw, Bool.or_self, Bool.false_eq_true, if_false,
      true_or, if_true, hcd, hscan, hval]
  · have hit : intText v ++ tail = c :: (cs ++ tail) := by
      simp [intText, hneg, hL]
    have hdw : (ws ++ (intText v ++ tail)).dropWhile isspace = c :: (cs ++ tail) := by
      rw [hit]
      exact dropWhile_isspace_append ws _ hws
        (by intro c' hc'; simp at hc'; subst hc'; exact isdigit_not_isspace _ hcd)
    have hval : ((v.natAbs : Nat) : Int) = v := by omega
    have h1 : c ≠ '-' := isdigit_ne_minus c hcd
    have h2 : c ≠ '+' := isdigit_ne_plus c hcd
    simp only [extractInt, hfail, heof, hrest, hdw, Bool.or_self, Bool.false_eq_true, if_false,
      h1, h2, or_self, hcd, if_true, hscan, hval]

theorem dropLine_length (t r : List Char) (h : dropLine t = some r) : r.length < t.length := by
  induction t with
  | nil => simp [dropLine] at h
  | cons c cs ih =>
    simp only [dropLine] at h
    split_ifs at h with hc
    · cases h
      simp
    · have := ih h
      simp only [List.length_cons]
      omega

theorem lineCount_of_dropLine_some (t r : List Char) (h : dropLine t = some r) :
    lineCount t = lineCount r + 1 := by
  induction t with
  | nil => simp [dropLine] at h
  | cons c cs ih =>
    simp only [dropLine] at h
    split_ifs at h with hc
    · rw [← Option.some.inj h]
      cases cs with
      | nil => rfl
      | cons c' cs' => simp [lineCount, hc]
    · cases cs with
      | nil => simp [dropLine] at h
      | cons c' cs' =>
        simp only [lineCount, hc, if_false]
        exact ih h

theorem lineCount_of_dropLine_none (t : List Char) (h : dropLine t = none) (hne : t ≠ []) :
    lineCount t = 1 := by
  induction t with
  | nil => exact absurd rfl hne
  | cons c cs ih =>
    simp only [dropLine] at h
    split_ifs at h with hc
    cases cs with
    | nil => rfl
    | cons c' cs' =>
      simp only [lineCount, hc, if_false]
      exact ih h (by simp)

theorem getline_not_good (file : IfStream) (h : (file.failbit || file.eofbit) = true) :
    getline file = { file with failbit := true } := by
  simp [getline, h]

theorem getline_some (file : IfStream) (r : List Char) (hf : file.failbit = false)
    (he : file.eofbit = false) (hdl : dropLine file.rest = some r) :
    getline file = { file with rest := r } := by
  simp [getline, hf, he, hdl]

theorem getline_none (file : IfStream) (hf : file.failbit = false)
    (he : file.eofbit = false) (hdl : dropLine file.rest = none) :
    getline file = { file with rest := [], eofbit := true, failbit := file.rest.isEmpty } := by
  simp [getline, hf, he, hdl]

theorem whileGetline_succ (fuel : Nat) (file : IfStream) (numLines : Nat) :
    whileGetline (fuel + 1) file numLines =
      if (getline file).failbit then (getline file, numLines)
      else whileGetline fuel (getline file) (numLines + 1) := rfl

/-- The line-counting loop with more fuel than the stream has characters left stops because
`getline` failed (not because the fuel ran out), keeps the text of the file, and has counted
the lines of the remaining text. -/
theorem whileGetline_spec (fuel : Nat) :
    ∀ (file : IfStream) (numLines : Nat), file.rest.length < fuel →
      (whileGetline fuel file numLines).1.failbit = true ∧
      (whileGetline fuel file numLines).1.content = file.content ∧
      (whileGetline fuel file numLines).2 =
        (if file.failbit || file.eofbit then numLines else numLines + lineCount file.rest) := by
  induction fuel with
  | zero => intro file n h; exact absurd h (Nat.not_lt_zero _)
  | succ fuel ih =>
    intro file n h
    rw [whileGetline_succ]
    by_cases hgood : (file.failbit || file.eofbit) = true
    · rw [getline_not_good file hgood]
      simp [hgood]
    · have hg : (file.failbit || file.eofbit) = false := by simpa using hgood
      have hf : file.failbit = false := by
        cases hh : file.failbit <;> simp [hh] at hg ⊢
      have he : file.eofbit = false := by
        cases hh : file.eofbit <;> simp [hh, hf] at hg ⊢
      cases hdl : dropLine file.rest with
      | some r =>
        have hlt := dropLine_length _ _ hdl
        have hcnt := lineCount_of_dropLine_some _ _ hdl
        obtain ⟨a, b, c⟩ := ih { file with rest := r } (n + 1) (by simp; omega)
        rw [getline_some file r hf he hdl]
        simp only [hf, he, Bool.or_self, Bool.false_eq_true, if_false] at a b c ⊢
        refine ⟨a, b, ?_⟩
        rw [c, hcnt]
        omega
      | none =>
        rw [getline_none file hf he hdl]
        by_cases hnil : file.rest = []
        · simp [hnil, hf, he, lineCount]
        · have hcnt := lineCount_of_dropLine_none _ hdl hnil
          have hfuel : ∃ k, fuel = k + 1 := by
            have : 0 < file.rest.length := List.length_pos.mpr hnil
            exact ⟨fuel - 1, by omega⟩
          obtain ⟨k, hk⟩ := hfuel
          have hemp : file.rest.isEmpty = false := by
            cases hr : file.rest with
            | nil => exact absurd hr hnil
            | cons _ _ => rfl
          subst hk
          rw [whileGetline_succ]
          simp [getline, hf, he, hemp, hcnt]

theorem whileGetline_ifstream (file : Option (List Char)) :
    (whileGetline ((ifstream file).rest.length + 1) (ifstream file) 0).1.failbit = true ∧
    (whileGetline ((ifstream file).rest.length + 1) (ifstream file) 0).1.content =
      (ifstream file).content ∧
    (whileGetline ((ifstream file).rest.length + 1) (ifstream file) 0).2 =
      (match file with
       | none => 0
       | some text => lineCount text) := by
  obtain ⟨a, b, c⟩ := whileGetline_spec ((ifstream file).rest.length + 1) (ifstream file) 0
    (Nat.lt_succ_self _)
  refine ⟨a, b, ?_⟩
  rw [c]
  cases file with
  | none => rfl
  | some text => simp [ifstream]

theorem loadConfig_of_lineCount_ne (file : Option (List Char)) (settings : Settings)
    (h : (match file with
          | none => 0
          | some text => lineCount text) ≠ 5) :
    loadConfig file settings =
      { NUM_PALMS := 16, FULL_SCREEN := 0, BIG_PALMS := 1, BIG_DUCK := 1, BIG_SNOWMAN := 1 } := by
  obtain ⟨-, -, c⟩ := whileGetline_ifstream file
  unfold loadConfig
  simp only [c, h, ne_eq, not_false_eq_true, if_true]

/-- On a text of five lines `loadConfig` rewinds the stream and extracts the five settings
in the order of the source. -/
theorem loadConfig_of_lineCount_eq (text : List Char) (settings : Settings)
    (h : lineCount text = 5) :
    loadConfig (some text) settings =
      { NUM_PALMS := clampFromStd
          (extractInt ⟨text, text, false, false⟩ settings.NUM_PALMS).2 0 16
        FULL_SCREEN :=
          (extractInt (extractInt ⟨text, text, false, false⟩ settings.NUM_PALMS).1
            settings.FULL_SCREEN).2
        BIG_PALMS :=
          (extractInt (extractInt (extractInt ⟨text, text, false, false⟩ settings.NUM_PALMS).1
            settings.FULL_SCREEN).1 settings.BIG_PALMS).2
        BIG_DUCK :=
          (extractInt (extractInt (extractInt (extractInt ⟨text, text, false, false⟩
            settings.NUM_PALMS).1 settings.FULL_SCREEN).1 settings.BIG_PALMS).1
            settings.BIG_DUCK).2
        BIG_SNOWMAN :=
          (extractInt (extractInt (extractInt (extractInt (extractInt
            ⟨text, text, false, false⟩ settings.NUM_PALMS).1 settings.FULL_SCREEN).1
            settings.BIG_PALMS).1 settings.BIG_DUCK).1 settings.BIG_SNOWMAN).2 } := by
  obtain ⟨-, b, c⟩ := whileGetline_ifstream (some text)
  simp only [ifstream] at b c
  unfold loadConfig
  simp only [ifstream, c, b, h, ne_eq, not_true_eq_false, if_false]

/-- C9: a configuration input whose line count is not 5, and a file that cannot be opened,
give 16 palms, windowed mode and all three big variants, whatever the text and the settings
before the call. -/
theorem loadConfig_defaults (file : Option (List Char)) (settings : Settings)
    (h : ∀ text, file = some text → lineCount text ≠ 5) :
    loadConfig file settings =
      { NUM_PALMS := 16, FULL_SCREEN := 0, BIG_PALMS := 1, BIG_DUCK := 1, BIG_SNOWMAN := 1 } := by
  apply loadConfig_of_lineCount_ne
  cases file with
  | none => decide
  | some text => exact h text rfl

theorem loadConfig_defaults_witness :
    (∀ text, some "4\n1\n0\n1".toList = some text → lineCount text ≠ 5) ∧
    loadConfig (some "4\n1\n0\n1".toList) ⟨7, 7, 7, 7, 7⟩ =
      { NUM_PALMS := 16, FULL_SCREEN := 0, BIG_PALMS := 1, BIG_DUCK := 1, BIG_SNOWMAN := 1 } ∧
    loadConfig none ⟨7, 7, 7, 7, 7⟩ =
      { NUM_PALMS := 16, FULL_SCREEN := 0, BIG_PALMS := 1, BIG_DUCK := 1, BIG_SNOWMAN := 1 } := by
  have h : ∀ text, some "4\n1\n0\n1".toList = some text → lineCount text ≠ 5 := by
    intro text ht
    rw [← Option.some.inj ht]
    decide
  exact ⟨h, loadConfig_defaults _ _ h,
    loadConfig_defaults none _ (fun text ht => Option.noConfusion ht)⟩

theorem intText_spec (v : Int) :
    intText v ≠ [] ∧ ∀ c ∈ intText v, c ≠ '\n' := by
  obtain ⟨hne, hd, -⟩ := natText_spec v.natAbs
  unfold intText
  split_ifs with h
  · refine ⟨by simp, ?_⟩
    intro c hc
    rw [List.mem_cons] at hc
    rcases hc with hc | hc
    · rw [hc]
      decide
    · exact isdigit_ne_newline c (hd c hc)
  · exact ⟨hne, fun c hc => isdigit_ne_newline c (hd c hc)⟩

theorem dropLine_append (L r : List Char) (hL : ∀ c ∈ L, c ≠ '\n') :
    dropLine (L ++ ('\n' :: r)) = some r := by
  induction L with
  | nil => simp [dropLine]
  | cons c cs ih =>
    have hc : c ≠ '\n' := hL c (by simp)
    simp only [List.cons_append, dropLine, hc, if_false]
    exact ih (fun c' h' => hL c' (List.mem_cons_of_mem _ h'))

theorem dropLine_of_no_newline (L : List Char) (hL : ∀ c ∈ L, c ≠ '\n') :
    dropLine L = none := by
  induction L with
  | nil => rfl
  | cons c cs ih =>
    have hc : c ≠ '\n' := hL c (by simp)
    simp only [dropLine, hc, if_false]
    exact ih (fun c' h' => hL c' (List.mem_cons_of_mem _ h'))

theorem lineCount_append_newline (L r : List Char) (hL : ∀ c ∈ L, c ≠ '\n') :
    lineCount (L ++ ('\n' :: r)) = lineCount r + 1 :=
  lineCount_of_dropLine_some _ _ (dropLine_append L r hL)

theorem lineCount_last_line (L : List Char) (hne : L ≠ []) (hL : ∀ c ∈ L, c ≠ '\n')
    (trailingNewline : Bool) :
    lineCount (L ++ (if trailingNewline then ['\n'] else [])) = 1 := by
  cases trailingNewline with
  | true =>
    simp only [if_true]
    rw [lineCount_append_newline L [] hL]
    rfl
  | false =>
    simp only [Bool.false_eq_true, if_false, List.append_nil]
    exact lineCount_of_dropLine_none L (dropLine_of_no_newline L hL) hne

theorem lineCount_configText (n f p d s : Int) (trailingNewline : Bool) :
    lineCount (configText n f p d s trailingNewline) = 5 := by
  unfold configText
  rw [lineCount_append_newline _ _ (intText_spec n).2,
    lineCount_append_newline _ _ (intText_spec f).2,
    lineCount_append_newline _ _ (intText_spec p).2,
    lineCount_append_newline _ _ (intText_spec d).2,
    lineCount_last_line _ (intText_spec s).1 (intText_spec s).2]

theorem extractInt_in_range (file : IfStream) (old v : Int) (ws tail : List Char) (c : Char)
    (hfail : file.failbit = false) (heof : file.eofbit = false)
    (hws : ∀ c ∈ ws, isspace c = true) (hc : isdigit c = false)
    (hrest : file.rest = ws ++ (intText v ++ (c :: tail)))
    (hv : INT_MIN ≤ v ∧ v ≤ INT_MAX) :
    extractInt file old = ({ file with rest := c :: tail }, v) := by
  rw [extractInt_intText file old v ws (c :: tail) hfail heof hws
    (by intro c' hc'; simp at hc'; subst hc'; exact hc) hrest]
  rw [if_neg (not_lt.mpr hv.1), if_neg (not_lt.mpr hv.2)]
  cases file
  simp only at heof
  simp [heof]

theorem extractInt_in_range_last (file : IfStream) (old v : Int) (ws : List Char)
    (trailingNewline : Bool)
    (hfail : file.failbit = false) (heof : file.eofbit = false)
    (hws : ∀ c ∈ ws, isspace c = true)
    (hrest : file.rest = ws ++ (intText v ++ (if trailingNewline then ['\n'] else [])))
    (hv : INT_MIN ≤ v ∧ v ≤ INT_MAX) :
    (extractInt file old).2 = v := by
  rw [extractInt_intText file old v ws _ hfail heof hws
    (by cases trailingNewline <;> simp; decide) hrest]
  rw [if_neg (not_lt.mpr hv.1), if_neg (not_lt.mpr hv.2)]

theorem extractInt_first (text : List Char) (old v : Int) (tail : List Char)
    (htext : text = intText v ++ ('\n' :: tail)) :
    (extractInt ⟨text, text, false, false⟩ old).2 = clampFromStd v INT_MIN INT_MAX := by
  rw [extractInt_intText ⟨text, text, false, false⟩ old v [] ('\n' :: tail) rfl rfl
    (by simp) (by intro c' hc'; simp at hc'; subst hc'; decide) (by simpa using htext)]
  unfold clampFromStd
  split_ifs <;> rfl

/-- C8 (counterexample): a file of five lines holding the integers 4, 2147483648, 0, 1, 0
leaves `FULL_SCREEN` at 2147483647 and the three flags after it at their old values, because
2147483648 is not a value of `int` and the failed extraction stops the ones after it. -/
theorem loadConfig_int_overflow :
    configText 4 2147483648 0 1 0 false = "4\n2147483648\n0\n1\n0".toList ∧
    loadConfig (some (configText 4 2147483648 0 1 0 false)) ⟨7, 7, 7, 7, 7⟩ =
      { NUM_PALMS := 4, FULL_SCREEN := 2147483647, BIG_PALMS := 7, BIG_DUCK := 7,
        BIG_SNOWMAN := 7 } ∧
    loadConfig (some (configText 4 2147483648 0 1 0 false)) ⟨7, 7, 7, 7, 7⟩ ≠
      { NUM_PALMS := clampFromStd 4 0 16, FULL_SCREEN := 2147483648, BIG_PALMS := 0,
        BIG_DUCK := 1, BIG_SNOWMAN := 0 } := by
  decide

theorem holdsInt_spec (line : List Char) (v : Int) (h : HoldsInt line v) :
    line ≠ [] ∧ ∀ c ∈ line, c ≠ '\n' := by
  obtain ⟨lead, sign, digits, trail, hl, hlead, hsign, hne, hd, htrail, -⟩ := h
  subst hl
  refine ⟨?_, ?_⟩
  · intro h0
    simp only [List.append_eq_nil] at h0
    exact hne h0.2.2.1
  · intro c hc
    simp only [List.mem_append] at hc
    rcases hc with hc | hc | hc | hc
    · exact (hlead c hc).2
    · rcases hsign with hs | hs | hs <;> rw [hs] at hc
      · exact absurd hc (List.not_mem_nil _)
      · rw [List.mem_singleton] at hc
        rw [hc]
        decide
      · rw [List.mem_singleton] at hc
        rw [hc]
        decide
    · exact isdigit_ne_newline c (hd c hc)
    · exact (htrail c hc).2

theorem lineCount_linesText (l1 l2 l3 l4 l5 : List Char) (n f p d s : Int)
    (trailingNewline : Bool) (h1 : HoldsInt l1 n) (h2 : HoldsInt l2 f) (h3 : HoldsInt l3 p)
    (h4 : HoldsInt l4 d) (h5 : HoldsInt l5 s) :
    lineCount (linesText l1 l2 l3 l4 l5 trailingNewline) = 5 := by
  unfold linesText
  rw [lineCount_append_newline _ _ (holdsInt_spec l1 n h1).2,
    lineCount_append_newline _ _ (holdsInt_spec l2 f h2).2,
    lineCount_append_newline _ _ (holdsInt_spec l3 p h3).2,
    lineCount_append_newline _ _ (holdsInt_spec l4 d h4).2,
    lineCount_last_line _ (holdsInt_spec l5 s h5).1 (holdsInt_spec l5 s h5).2]

/-- Extraction reads a line that holds an integer: on a good stream whose remaining text is
white space, then a line holding `v` in the range of `int`, then a text that does not start
with a digit, `file >> value` stores `v` and stops inside the line, with only white space of
the line left before that text. -/
theorem extractInt_holdsInt (file : IfStream) (old v : Int) (ws line tail : List Char)
    (hfail : file.failbit = false) (heof : file.eofbit = false)
    (hws : ∀ c ∈ ws, isspace c = true) (hline : HoldsInt line v)
    (htail : ∀ c ∈ tail.head?, isdigit c = false)
    (hrest : file.rest = ws ++ (line ++ tail))
    (hv : INT_MIN ≤ v ∧ v ≤ INT_MAX) :
    ∃ trail : List Char, (∀ c ∈ trail, isspace c = true) ∧
      extractInt file old =
        ({ file with rest := trail ++ tail, eofbit := (trail ++ tail).isEmpty }, v) := by
  obtain ⟨lead, sign, digits, trail, hl, hlead, hsign, hne, hd, htrail, hval⟩ := hline
  refine ⟨trail, fun c hc => (htrail c hc).1, ?_⟩
  obtain ⟨c, cs, hL⟩ : ∃ c cs, digits = c :: cs := List.exists_cons_of_ne_nil hne
  have hcd : isdigit c = true := hd c (by rw [hL]; simp)
  have hR : ∀ c ∈ (trail ++ tail).head?, isdigit c = false := by
    intro c' hc'
    cases trail with
    | nil => exact htail c' (by simpa using hc')
    | cons t ts =>
      simp only [List.cons_append, List.head?_cons, Option.mem_def, Option.some.injEq] at hc'
      subst hc'
      cases hdt : isdigit t with
      | false => rfl
      | true =>
        have h1 := isdigit_not_isspace t hdt
        rw [(htrail t (by simp)).1] at h1
        exact absurd h1 (by decide)
  have hscan : scanDigits (c :: (cs ++ (trail ++ tail))) 0 = (digitsValue digits, trail ++ tail) := by
    have h := scanDigits_append digits (trail ++ tail) 0 hd
    rw [scanDigits_stop _ _ hR] at h
    rw [hL] at h
    rw [hL]
    exact h
  have hws' : ∀ c ∈ ws ++ lead, isspace c = true := by
    intro c' hc'
    rw [List.mem_append] at hc'
    rcases hc' with hc' | hc'
    · exact hws c' hc'
    · exact (hlead c' hc').1
  have hrest' : file.rest = (ws ++ lead) ++ (sign ++ (c :: (cs ++ (trail ++ tail)))) := by
    rw [hrest, hl, hL]
    simp
  have h1 : c ≠ '-' := isdigit_ne_minus c hcd
  have h2 : c ≠ '+' := isdigit_ne_plus c hcd
  rcases hsign with hs | hs | hs
  · subst hs
    have hdw : ((ws ++ lead) ++ ([] ++ (c :: (cs ++ (trail ++ tail))))).dropWhile isspace =
        c :: (cs ++ (trail ++ tail)) :=
      dropWhile_isspace_append _ _ hws'
        (by intro c' hc'; simp at hc'; subst hc'; exact isdigit_not_isspace _ hcd)
    have hval' : v = ((digitsValue digits : Nat) : Int) := by
      rw [hval]
      simp
    subst hval'
    simp only [extractInt, hfail, heof, hrest', hdw, Bool.or_self, Bool.false_eq_true, if_false,
      h1, h2, or_self, hcd, if_true, hscan, not_lt.mpr hv.1, not_lt.mpr hv.2]
  · subst hs
    have hdw : ((ws ++ lead) ++ (['+'] ++ (c :: (cs ++ (trail ++ tail))))).dropWhile isspace =
        '+' :: c :: (cs ++ (trail ++ tail)) :=
      dropWhile_isspace_append _ _ hws' (by intro c' hc'; simp at hc'; subst hc'; decide)
    have hval' : v = ((digitsValue digits : Nat) : Int) := by
      rw [hval]
      simp
    subst hval'
    have hpm : ('+' : Char) ≠ '-' := by decide
    simp only [extractInt, hfail, heof, hrest', hdw, Bool.or_self, Bool.false_eq_true, if_false,
      or_true, hcd, if_true, hscan, hpm, not_lt.mpr hv.1, not_lt.mpr hv.2]
  · subst hs
    have hdw : ((ws ++ lead) ++ (['-'] ++ (c :: (cs ++ (trail ++ tail))))).dropWhile isspace =
        '-' :: c :: (cs ++ (trail ++ tail)) :=
      dropWhile_isspace_append _ _ hws' (by intro c' hc'; simp at hc'; subst hc'; decide)
    have hval' : v = -((digitsValue digits : Nat) : Int) := by
      rw [hval]
      simp
    subst hval'
    simp only [extractInt, hfail, heof, hrest', hdw, Bool.or_self, Bool.false_eq_true, if_false,
      true_or, hcd, if_true, hscan, not_lt.mpr hv.1, not_lt.mpr hv.2]

theorem holdsInt_intText (v : Int) : HoldsInt (intText v) v := by
  obtain ⟨hne, hd, hv⟩ := natText_spec v.natAbs
  by_cases hneg : v < 0
  · refine ⟨[], ['-'], natText v.natAbs, [], ?_, by simp, Or.inr (Or.inr rfl), hne, hd, by simp,
      ?_⟩
    · simp [intText, hneg]
    · simp only [digitsValue, hv, if_true]
      omega
  · refine ⟨[], [], natText v.natAbs, [], ?_, by simp, Or.inl rfl, hne, hd, by simp, ?_⟩
    · simp [intText, hneg]
    · have hne' : ([] : List Char) ≠ ['-'] := by simp
      simp only [digitsValue, hv, hne', if_false]
      omega

/-- C8 (amended): for a file of exactly five lines that hold, in this order, the integers
`n`, `f`, `p`, `d`, `s`, each within the range of `int` (each line: optional blanks, an
optional sign, decimal digits, optional blanks such as the carriage return of a DOS line
end; the last line with or without its newline), `loadConfig` sets `NUM_PALMS` to `n`
clamped to `[0, 16]`, `FULL_SCREEN` to `f`, `BIG_PALMS` to `p`, `BIG_DUCK` to `d` and
`BIG_SNOWMAN` to `s`. -/
theorem loadConfig_five_lines (l1 l2 l3 l4 l5 : List Char) (n f p d s : Int)
    (trailingNewline : Bool) (settings : Settings)
    (h1 : HoldsInt l1 n) (h2 : HoldsInt l2 f) (h3 : HoldsInt l3 p) (h4 : HoldsInt l4 d)
    (h5 : HoldsInt l5 s)
    (hn : INT_MIN ≤ n ∧ n ≤ INT_MAX) (hf : INT_MIN ≤ f ∧ f ≤ INT_MAX)
    (hp : INT_MIN ≤ p ∧ p ≤ INT_MAX) (hd : INT_MIN ≤ d ∧ d ≤ INT_MAX)
    (hs : INT_MIN ≤ s ∧ s ≤ INT_MAX) :
    lineCount (linesText l1 l2 l3 l4 l5 trailingNewline) = 5 ∧
    loadConfig (some (linesText l1 l2 l3 l4 l5 trailingNewline)) settings =
      { NUM_PALMS := clampFromStd n 0 16, FULL_SCREEN := f, BIG_PALMS := p, BIG_DUCK := d,
        BIG_SNOWMAN := s } := by
  have hcount := lineCount_linesText l1 l2 l3 l4 l5 n f p d s trailingNewline h1 h2 h3 h4 h5
  refine ⟨hcount, ?_⟩
  have hnl : ∀ (X : List Char), ∀ c ∈ ('\n' :: X).head?, isdigit c = false := by
    intro X c hc
    simp only [List.head?_cons, Option.mem_def, Option.some.injEq] at hc
    subst hc
    decide
  have hsp : ∀ (t : List Char), (∀ c ∈ t, isspace c = true) →
      ∀ c ∈ t ++ ['\n'], isspace c = true := by
    intro t ht c hc
    rw [List.mem_append, List.mem_singleton] at hc
    rcases hc with hc | hc
    · exact ht c hc
    · rw [hc]
      decide
  have hemp : ∀ (t X : List Char), (t ++ '\n' :: X).isEmpty = false := by
    intro t X
    cases t <;> rfl
  rw [loadConfig_of_lineCount_eq _ _ hcount]
  obtain ⟨t1, ht1, e1⟩ := extractInt_holdsInt
    ⟨linesText l1 l2 l3 l4 l5 trailingNewline, linesText l1 l2 l3 l4 l5 trailingNewline,
      false, false⟩ settings.NUM_PALMS n [] l1 _ rfl rfl (by simp) h1 (hnl _) rfl hn
  rw [e1]
  simp only [hemp]
  obtain ⟨t2, ht2, e2⟩ := extractInt_holdsInt
    ⟨linesText l1 l2 l3 l4 l5 trailingNewline, t1 ++ '\n' :: (l2 ++ ('\n' :: (l3 ++
      ('\n' :: (l4 ++ ('\n' :: (l5 ++ (if trailingNewline then ['\n'] else [])))))))),
      false, false⟩ settings.FULL_SCREEN f (t1 ++ ['\n']) l2
      ('\n' :: (l3 ++ ('\n' :: (l4 ++ ('\n' :: (l5 ++
        (if trailingNewline then ['\n'] else [])))))))
      rfl rfl (hsp t1 ht1) h2 (hnl _) (by simp) hf
  rw [e2]
  simp only [hemp]
  obtain ⟨t3, ht3, e3⟩ := extractInt_holdsInt
    ⟨linesText l1 l2 l3 l4 l5 trailingNewline, t2 ++ '\n' :: (l3 ++
      ('\n' :: (l4 ++ ('\n' :: (l5 ++ (if trailingNewline then ['\n'] else [])))))),
      false, false⟩ settings.BIG_PALMS p (t2 ++ ['\n']) l3
      ('\n' :: (l4 ++ ('\n' :: (l5 ++ (if trailingNewline then ['\n'] else [])))))
      rfl rfl (hsp t2 ht2) h3 (hnl _) (by simp) hp
  rw [e3]
  simp only [hemp]
  obtain ⟨t4, ht4, e4⟩ := extractInt_holdsInt
    ⟨linesText l1 l2 l3 l4 l5 trailingNewline, t3 ++ '\n' :: (l4 ++ ('\n' :: (l5 ++
      (if trailingNewline then ['\n'] else [])))), false, false⟩
      settings.BIG_DUCK d (t3 ++ ['\n']) l4
      ('\n' :: (l5 ++ (if trailingNewline then ['\n'] else [])))
      rfl rfl (hsp t3 ht3) h4 (hnl _) (by simp) hd
  rw [e4]
  simp only [hemp]
  obtain ⟨t5, ht5, e5⟩ := extractInt_holdsInt
    ⟨linesText l1 l2 l3 l4 l5 trailingNewline, t4 ++ '\n' :: (l5 ++
      (if trailingNewline then ['\n'] else [])), false, false⟩
      settings.BIG_SNOWMAN s (t4 ++ ['\n']) l5 (if trailingNewline then ['\n'] else [])
      rfl rfl (hsp t4 ht4) h5
      (by cases trailingNewline <;> simp; decide) (by simp) hs
  rw [e5]

theorem loadConfig_five_lines_witness :
    HoldsInt " 4\r".toList 4 ∧ HoldsInt "+1\r".toList 1 ∧ HoldsInt "00\r".toList 0 ∧
    HoldsInt "1 \r".toList 1 ∧ HoldsInt "-0".toList 0 ∧
    (INT_MIN ≤ 4 ∧ 4 ≤ INT_MAX) ∧ (INT_MIN ≤ 1 ∧ 1 ≤ INT_MAX) ∧ (INT_MIN ≤ 0 ∧ 0 ≤ INT_MAX) ∧
    linesText " 4\r".toList "+1\r".toList "00\r".toList "1 \r".toList "-0".toList false =
      " 4\r\n+1\r\n00\r\n1 \r\n-0".toList ∧
    loadConfig (some " 4\r\n+1\r\n00\r\n1 \r\n-0".toList) ⟨7, 7, 7, 7, 7⟩ =
      { NUM_PALMS := 4, FULL_SCREEN := 1, BIG_PALMS := 0, BIG_DUCK := 1, BIG_SNOWMAN := 0 } ∧
    linesText (intText 4) (intText 1) (intText 0) (intText 1) (intText 0) false =
      "4\n1\n0\n1\n0".toList ∧
    loadConfig (some "4\n1\n0\n1\n0".toList) ⟨7, 7, 7, 7, 7⟩ =
      { NUM_PALMS := 4, FULL_SCREEN := 1, BIG_PALMS := 0, BIG_DUCK := 1, BIG_SNOWMAN := 0 } := by
  have a1 : HoldsInt " 4\r".toList 4 :=
    ⟨[' '], [], ['4'], ['\r'], rfl, by decide, Or.inl rfl, by decide, by decide, by decide,
      by decide⟩
  have a2 : HoldsInt "+1\r".toList 1 :=
    ⟨[], ['+'], ['1'], ['\r'], rfl, by decide, Or.inr (Or.inl rfl), by decide, by decide,
      by decide, by decide⟩
  have a3 : HoldsInt "00\r".toList 0 :=
    ⟨[], [], ['0', '0'], ['\r'], rfl, by decide, Or.inl rfl, by decide, by decide, by decide,
      by decide⟩
  have a4 : HoldsInt "1 \r".toList 1 :=
    ⟨[], [], ['1'], [' ', '\r'], rfl, by decide, Or.inl rfl, by decide, by decide, by decide,
      by decide⟩
  have a5 : HoldsInt "-0".toList 0 :=
    ⟨[], ['-'], ['0'], [], rfl, by decide, Or.inr (Or.inr rfl), by decide, by decide,
      by decide, by decide⟩
  exact ⟨a1, a2, a3, a4, a5, by decide, by decide, by decide, by decide,
    (loadConfig_five_lines _ _ _ _ _ 4 1 0 1 0 false ⟨7, 7, 7, 7, 7⟩ a1 a2 a3 a4 a5
      (by decide) (by decide) (by decide) (by decide) (by decide)).2,
    by decide,
    (loadConfig_five_lines _ _ _ _ _ 4 1 0 1 0 false ⟨7, 7, 7, 7, 7⟩ (holdsInt_intText 4)
      (holdsInt_intText 1) (holdsInt_intText 0) (holdsInt_intText 1) (holdsInt_intText 0)
      (by decide) (by decide) (by decide) (by decide) (by decide)).2⟩

/-- C10: after `loadConfig` the palm count is between 0 and 16 for every configuration input;
a five-line file asking for more than 16 palms (for 20, say) gives 16 and one asking for a
negative count gives 0. -/
theorem loadConfig_palms_bounds (file : Option (List Char)) (settings : Settings) :
    (0 ≤ (loadConfig file settings).NUM_PALMS ∧ (loadConfig file settings).NUM_PALMS ≤ 16) ∧
    (∀ (n f p d s : Int) (trailingNewline : Bool), 16 < n →
      (loadConfig (some (configText n f p d s trailingNewline)) settings).NUM_PALMS = 16) ∧
    (∀ (n f p d s : Int) (trailingNewline : Bool), n < 0 →
      (loadConfig (some (configText n f p d s trailingNewline)) settings).NUM_PALMS = 0) := by
  refine ⟨?_, ?_, ?_⟩
  · by_cases h : (match file with
        | none => 0
        | some text => lineCount text) = 5
    · cases file with
      | none => exact absurd h (by decide)
      | some text =>
        rw [loadConfig_of_lineCount_eq text settings h]
        exact ⟨clampFromStd_ge _ _ _ (by decide), clampFromStd_le _ _ _ (by decide)⟩
    · rw [loadConfig_of_lineCount_ne file settings h]
      decide
  · intro n f p d s nl hn
    rw [loadConfig_of_lineCount_eq _ _ (lineCount_configText n f p d s nl)]
    simp only
    rw [extractInt_first (configText n f p d s nl) _ n _ rfl]
    unfold clampFromStd INT_MIN INT_MAX
    split_ifs <;> omega
  · intro n f p d s nl hn
    rw [loadConfig_of_lineCount_eq _ _ (lineCount_configText n f p d s nl)]
    simp only
    rw [extractInt_first (configText n f p d s nl) _ n _ rfl]
    unfold clampFromStd INT_MIN INT_MAX
    split_ifs <;> omega

theorem loadConfig_palms_bounds_witness :
    configText 20 1 0 1 0 false = "20\n1\n0\n1\n0".toList ∧
    ((16 : Int) < 20 ∧
      (loadConfig (some (configText 20 1 0 1 0 false)) ⟨7, 7, 7, 7, 7⟩).NUM_PALMS = 16) ∧
    configText (-3) 1 0 1 0 true = "-3\n1\n0\n1\n0\n".toList ∧
    ((-3 : Int) < 0 ∧
      (loadConfig (some (configText (-3) 1 0 1 0 true)) ⟨7, 7, 7, 7, 7⟩).NUM_PALMS = 0) :=
  ⟨by decide,
    ⟨by decide, (loadConfig_palms_bounds none ⟨7, 7, 7, 7, 7⟩).2.1 20 1 0 1 0 false (by decide)⟩,
    by decide,
    ⟨by decide, (loadConfig_palms_bounds none ⟨7, 7, 7, 7, 7⟩).2.2 (-3) 1 0 1 0 true (by decide)⟩⟩

theorem setObject_DIAMOND (ops : FloatOps F) (g : Globals F) (p : Vec3 F) :
    setObject ops g DIAMOND p =
      some { position := ⟨-1.0, 0.0, 0.5⟩, direction := glm.normalize ops ⟨0.0, 0.0, 0.0⟩,
             speed := 0.0, size := 0.1, startTime := g.sceneState.elapsedTime,
             currentTime := g.sceneState.elapsedTime, viewAngle := 0.0,
             frameDuration := 0.0 } := rfl

theorem setObject_RAIDER (ops : FloatOps F) (g : Globals F) (p : Vec3 F) :
    setObject ops g RAIDER p =
      some { position := p, direction := some (facing ops 0.0),
             speed := 0.7, size := 0.3, startTime := g.sceneState.elapsedTime,
             currentTime := g.sceneState.elapsedTime, viewAngle := 0.0,
             frameDuration := 0.0 } := rfl

/-- C12: `setObject(DIAMOND, p)` returns an entity at `(-1, 0, 0.5)` of size 0.1, whatever the
requested position, the settings and the elapsed time are. -/
theorem setObject_diamond (ops : FloatOps F) (g : Globals F) (p : Vec3 F) :
    ∃ o, setObject ops g DIAMOND p = some o ∧ o.position = ⟨-1, 0, 0.5⟩ ∧ o.size = 0.1 := by
  refine ⟨_, setObject_DIAMOND ops g p, ?_, rfl⟩
  norm_num

theorem radians_zero (ops : FloatOps F) : glm.radians ops 0.0 = 0 := by
  unfold glm.radians
  norm_num

theorem facing_zero (ops : FloatOps F) :
    facing ops (0.0 : F) = ⟨ops.cos 0, ops.sin 0, 0⟩ := by
  simp only [facing, radians_zero]

/-- C13: `setObject(RAIDER, p)` returns an entity with direction `(cos 0, sin 0, 0)`, which is
`(1, 0, 0)`, position `p`, speed 0.7 and size 0.3. -/
theorem setObject_raider (ops : FloatOps F) (g : Globals F) (p : Vec3 F) :
    ∃ o, setObject ops g RAIDER p = some o ∧
      o.direction = some ⟨ops.cos 0, ops.sin 0, 0⟩ ∧
      o.position = p ∧ o.speed = 0.7 ∧ o.size = 0.3 ∧
      (ops.cos 0 = 1 → ops.sin 0 = 0 → o.direction = some ⟨1, 0, 0⟩) := by
  refine ⟨_, setObject_RAIDER ops g p, ?_, rfl, rfl, rfl, ?_⟩
  · simp only [facing_zero]
  · intro hc hs
    simp only [facing_zero, hc, hs]

theorem setObject_raider_witness :
    ratOps.cos 0 = 1 ∧ ratOps.sin 0 = 0 ∧
    ∃ o, setObject ratOps exampleGlobals RAIDER ⟨1.0, 0.0, 0.5⟩ = some o ∧
      o.direction = some ⟨1, 0, 0⟩ ∧ o.position = ⟨1.0, 0.0, 0.5⟩ ∧ o.speed = 0.7 ∧
      o.size = 0.3 := by
  have hc : ratOps.cos 0 = 1 := by norm_num [ratOps]
  have hs : ratOps.sin 0 = 0 := by norm_num [ratOps]
  obtain ⟨o, h1, -, h3, h4, h5, h6⟩ := setObject_raider ratOps exampleGlobals ⟨1.0, 0.0, 0.5⟩
  exact ⟨hc, hs, o, h1, h6 hc hs, h3, h4, h5⟩

theorem setObject_TERRAIN_ELEMENT (ops : FloatOps F) (g : Globals F) (p : Vec3 F) :
    setObject ops g TERRAIN_ELEMENT p =
      some { position := p, direction := glm.normalize ops ⟨0.0, 0.0, 0.0⟩,
             speed := 0.0, size := 1.0, startTime := g.sceneState.elapsedTime,
             currentTime := g.sceneState.elapsedTime, viewAngle := 0.0,
             frameDuration := 0.0 } := rfl

theorem setObject_COUCH (ops : FloatOps F) (g : Globals F) (p : Vec3 F) :
    setObject ops g COUCH p =
      some { position := { p with z := -0.07 }, direction := glm.normalize ops ⟨0.0, 0.0, 0.0⟩,
             speed := 0.0, size := 0.5, startTime := g.sceneState.elapsedTime,
             currentTime := g.sceneState.elapsedTime, viewAngle := 0.0,
             frameDuration := 0.0 } := rfl

theorem setObject_BANNER (ops : FloatOps F) (g : Globals F) (p : Vec3 F) :
    setObject ops g BANNER p =
      some { position := p, direction := glm.normalize ops ⟨0.0, 0.0, 0.0⟩,
             speed := 0.0, size := 3.0, startTime := g.sceneState.elapsedTime,
             currentTime := g.sceneState.elapsedTime, viewAngle := 0.0,
             frameDuration := 0.0 } := rfl

theorem setObject_DUCK (ops : FloatOps F) (g : Globals F) (p : Vec3 F) :
    setObject ops g DUCK p =
      some { position := if g.settings.BIG_DUCK = 0 then p else { p with z := 0.3 },
             direction := glm.normalize ops ⟨0.0, 0.0, 0.0⟩,
             speed := 0.0, size := if g.settings.BIG_DUCK = 0 then 0.4 else 0.8,
             startTime := g.sceneState.elapsedTime,
             currentTime := g.sceneState.elapsedTime, viewAngle := 0.0,
             frameDuration := 0.0 } := by
  show (if g.settings.BIG_DUCK = 0 then _ else _) = _
  split_ifs <;> rfl

theorem setObject_PALM (ops : FloatOps F) (g : Globals F) (p : Vec3 F) :
    setObject ops g PALM p =
      some { position := p, direction := glm.normalize ops ⟨0.0, 0.0, 0.0⟩,
             speed := 0.0, size := if g.settings.BIG_PALMS = 0 then 2.0 else 4.0,
             startTime := g.sceneState.elapsedTime,
             currentTime := g.sceneState.elapsedTime, viewAngle := 0.0,
             frameDuration := 0.0 } := by
  show (if g.settings.BIG_PALMS = 0 then _ else _) = _
  split_ifs <;> rfl

theorem setObject_SNOWMAN_eq (ops : FloatOps F) (g : Globals F) (p : Vec3 F) :
    setObject ops g SNOWMAN p =
      some { position := if g.settings.BIG_SNOWMAN = 0 then p else { p with z := 0.3 },
             direction := some ⟨0.3, 0.0, 0.0⟩,
             speed := 0.0, size := if g.settings.BIG_SNOWMAN = 0 then 0.5 else 0.8,
             startTime := g.sceneState.elapsedTime,
             currentTime := g.sceneState.elapsedTime, viewAngle := 0.0,
             frameDuration := 0.0 } := by
  have hT : ¬ SNOWMAN = TERRAIN_ELEMENT := by decide
  have hC : ¬ SNOWMAN = COUCH := by decide
  have hD : ¬ SNOWMAN = DUCK := by decide
  unfold setObject
  simp only [if_neg hT, if_neg hC, if_neg hD, if_true]
  split_ifs <;> rfl

theorem setObject_FIRE (ops : FloatOps F) (g : Globals F) (p : Vec3 F) :
    setObject ops g FIRE p =
      some { position := p, direction := glm.normalize ops ⟨0.0, 0.0, 0.0⟩,
             speed := 0.0, size := if g.settings.BIG_DUCK = 0 then 0.5 else 1.0,
             startTime := g.sceneState.elapsedTime,
             currentTime := g.sceneState.elapsedTime, viewAngle := 0.0,
             frameDuration := 0.1 } := by
  have h1 : ¬ FIRE = TERRAIN_ELEMENT := by decide
  have h2 : ¬ FIRE = COUCH := by decide
  have h3 : ¬ FIRE = DUCK := by decide
  have h4 : ¬ FIRE = SNOWMAN := by decide
  have h5 : ¬ FIRE = PALM := by decide
  have h6 : ¬ FIRE = BANNER := by decide
  have h7 : ¬ FIRE = DIAMOND := by decide
  have h8 : ¬ FIRE = RAIDER := by decide
  unfold setObject
  simp only [if_neg h1, if_neg h2, if_neg h3, if_neg h4, if_neg h5, if_neg h6, if_neg h7,
    if_neg h8, if_true]
  split_ifs <;> rfl

theorem setObject_unknown (ops : FloatOps F) (g : Globals F) (type : ObjectType)
    (p : Vec3 F)
    (h : ¬ (type = TERRAIN_ELEMENT ∨ type = PALM ∨ type = SNOWMAN ∨ type = RAIDER ∨
      type = FIRE ∨ type = BANNER ∨ type = COUCH ∨ type = DUCK ∨ type = DIAMOND)) :
    setObject ops g type p = none := by
  simp only [not_or] at h
  obtain ⟨h1, h2, h3, h4, h5, h6, h7, h8, h9⟩ := h
  simp only [setObject]
  rw [if_neg h1, if_neg h7, if_neg h8, if_neg h3, if_neg h2, if_neg h6, if_neg h9, if_neg h4,
    if_neg h5]

/-- The result of `setObject`, when there is one, was created at the elapsed time of the
scene, has a positive size, and its type is one of the nine enumerators. -/
theorem setObject_some (ops : FloatOps F) (g : Globals F) (type : ObjectType)
    (p : Vec3 F) (o : Object F) (ho : setObject ops g type p = some o) :
    o.startTime = g.sceneState.elapsedTime ∧ o.currentTime = g.sceneState.elapsedTime ∧
      0 < o.size ∧
      (type = TERRAIN_ELEMENT ∨ type = PALM ∨ type = SNOWMAN ∨ type = RAIDER ∨ type = FIRE ∨
        type = BANNER ∨ type = COUCH ∨ type = DUCK ∨ type = DIAMOND) := by
  by_cases h : type = TERRAIN_ELEMENT ∨ type = PALM ∨ type = SNOWMAN ∨ type = RAIDER ∨
      type = FIRE ∨ type = BANNER ∨ type = COUCH ∨ type = DUCK ∨ type = DIAMOND
  · refine ⟨?_, ?_, ?_, h⟩ <;>
      rcases h with h | h | h | h | h | h | h | h | h <;> subst h
    all_goals first
      | (rw [setObject_TERRAIN_ELEMENT] at ho; rw [← Option.some.inj ho])
      | (rw [setObject_PALM] at ho; rw [← Option.some.inj ho])
      | (rw [setObject_SNOWMAN_eq] at ho; rw [← Option.some.inj ho])
      | (rw [setObject_RAIDER] at ho; rw [← Option.some.inj ho])
      | (rw [setObject_FIRE] at ho; rw [← Option.some.inj ho])
      | (rw [setObject_BANNER] at ho; rw [← Option.some.inj ho])
      | (rw [setObject_COUCH] at ho; rw [← Option.some.inj ho])
      | (rw [setObject_DUCK] at ho; rw [← Option.some.inj ho])
      | (rw [setObject_DIAMOND] at ho; rw [← Option.some.inj ho])
    all_goals first
      | rfl
      | (show (0 : F) < _; split_ifs <;> norm_num)
      | (show (0 : F) < _; norm_num)
  · rw [setObject_unknown ops g type p h] at ho
    exact Option.noConfusion ho

theorem setObject_isSome (ops : FloatOps F) (g : Globals F) (type : ObjectType)
    (p : Vec3 F)
    (h : type = TERRAIN_ELEMENT ∨ type = PALM ∨ type = SNOWMAN ∨ type = RAIDER ∨ type = FIRE ∨
        type = BANNER ∨ type = COUCH ∨ type = DUCK ∨ type = DIAMOND) :
    ∃ o, setObject ops g type p = some o := by
  rcases h with h | h | h | h | h | h | h | h | h <;> subst h
  · exact ⟨_, setObject_TERRAIN_ELEMENT ops g p⟩
  · exact ⟨_, setObject_PALM ops g p⟩
  · exact ⟨_, setObject_SNOWMAN_eq ops g p⟩
  · exact ⟨_, setObject_RAIDER ops g p⟩
  · exact ⟨_, setObject_FIRE ops g p⟩
  · exact ⟨_, setObject_BANNER ops g p⟩
  · exact ⟨_, setObject_COUCH ops g p⟩
  · exact ⟨_, setObject_DUCK ops g p⟩
  · exact ⟨_, setObject_DIAMOND ops g p⟩

/-- C14: `setObject` returns a null result exactly for a type that is none of the nine
enumerators of `ObjectType`; an entity it returns has `startTime` and `currentTime` equal to
the elapsed time of the scene. -/
theorem setObject_null_iff (ops : FloatOps F) (g : Globals F) (type : ObjectType)
    (p : Vec3 F) :
    (setObject ops g type p = none ↔
      ¬ (type = TERRAIN_ELEMENT ∨ type = PALM ∨ type = SNOWMAN ∨ type = RAIDER ∨ type = FIRE ∨
        type = BANNER ∨ type = COUCH ∨ type = DUCK ∨ type = DIAMOND)) ∧
    (∀ o, setObject ops g type p = some o →
      o.startTime = g.sceneState.elapsedTime ∧ o.currentTime = g.sceneState.elapsedTime) := by
  constructor
  · constructor
    · intro hnone hmem
      obtain ⟨o, ho⟩ := setObject_isSome ops g type p hmem
      rw [hnone] at ho
      exact Option.noConfusion ho
    · exact setObject_unknown ops g type p
  · intro o ho
    obtain ⟨h1, h2, -, -⟩ := setObject_some ops g type p o ho
    exact ⟨h1, h2⟩

theorem setObject_null_iff_witness :
    setObject ratOps exampleGlobals 9 ⟨0, 0, 0⟩ = none ∧
    ∃ o, setObject ratOps exampleGlobals DUCK ⟨0.4, 2.0, 0.0⟩ = some o ∧
      o.startTime = exampleGlobals.sceneState.elapsedTime ∧
      o.currentTime = exampleGlobals.sceneState.elapsedTime := by
  have h9 : setObject ratOps exampleGlobals 9 ⟨0, 0, 0⟩ = none :=
    (setObject_null_iff ratOps exampleGlobals 9 ⟨0, 0, 0⟩).1.mpr (by decide)
  obtain ⟨o, ho⟩ := setObject_isSome ratOps exampleGlobals DUCK ⟨0.4, 2.0, 0.0⟩ (by decide)
  exact ⟨h9, o, ho, (setObject_null_iff ratOps exampleGlobals DUCK ⟨0.4, 2.0, 0.0⟩).2 o ho⟩

theorem clampFromStd_of_mem {T : Type} [LinearOrder T] (value lower upper : T)
    (h1 : lower ≤ value) (h2 : value ≤ upper) : clampFromStd value lower upper = value := by
  unfold clampFromStd
  rw [if_neg (not_lt.mpr h1), if_neg (not_lt.mpr h2)]

/-- A position inside the scene bounds is left as it is by `correctCameraBoundsPosition`. -/
theorem correctCameraBoundsPosition_of_mem (p : Vec3 F)
    (hx : -3.8 ≤ p.x ∧ p.x ≤ 3.8) (hy : -3.8 ≤ p.y ∧ p.y ≤ 3.8) :
    correctCameraBoundsPosition p = p := by
  unfold correctCameraBoundsPosition SCENE_WIDTH SCENE_HEIGHT
  simp only [clampFromStd_of_mem _ _ _ hx.1 hx.2, clampFromStd_of_mem _ _ _ hy.1 hy.2]

/-- C15: in a scene that has a flyer, after `updateScene` with camera 1 the camera is at
`(0, 0, 0)` with direction `(0, 0, 0)`, and with camera 2 at `(3, 3, 0)` with direction
`(-1, 0, 0)`, whatever the camera was before; the free-camera flag is false in both cases. -/
theorem updateScene_fixed_cameras (ops : FloatOps F) (t : F) (g : Globals F) (r : Object F)
    (hr : g.sceneObjects.raider = some r) :
    (g.sceneState.cameraNum = 1 →
      ∃ g', updateScene ops t g = some g' ∧ g'.camera.position = some ⟨0, 0, 0⟩ ∧
        g'.camera.direction = some ⟨0, 0, 0⟩ ∧ g'.sceneState.freeCameraMode = false) ∧
    (g.sceneState.cameraNum = 2 →
      ∃ g', updateScene ops t g = some g' ∧ g'.camera.position = some ⟨3, 3, 0⟩ ∧
        g'.camera.direction = some ⟨-1, 0, 0⟩ ∧ g'.sceneState.freeCameraMode = false) := by
  have h0 : correctCameraBoundsPosition (⟨0, 0, 0⟩ : Vec3 F) = ⟨0, 0, 0⟩ :=
    correctCameraBoundsPosition_of_mem _ (by norm_num) (by norm_num)
  have h3 : correctCameraBoundsPosition (⟨3, 3, 0⟩ : Vec3 F) = ⟨3, 3, 0⟩ :=
    correctCameraBoundsPosition_of_mem _ (by norm_num) (by norm_num)
  constructor
  · intro h
    simp only [updateScene, hr, h, if_true]
    exact ⟨_, rfl, by simp only [Option.map_some', h0], rfl, rfl⟩
  · intro h
    have h21 : ¬ ((2 : Int) = 1) := by decide
    simp only [updateScene, hr, h, if_true, if_neg h21]
    exact ⟨_, rfl, by simp only [Option.map_some', h3], rfl, rfl⟩

theorem updateScene_fixed_cameras_witness :
    (exampleGlobalsAt 350).sceneObjects.raider =
      some { position := ⟨1.0, 0.0, 0.5⟩, direction := some (facing ratOps 0.0), speed := 0.7,
             size := 0.3, startTime := 0, currentTime := 0, viewAngle := 0.0,
             frameDuration := 0.0 } ∧
    (setCameraMode 1 (exampleGlobalsAt 350)).sceneState.cameraNum = 1 ∧
    (∃ g', updateScene ratOps 5 (setCameraMode 1 (exampleGlobalsAt 350)) = some g' ∧
      g'.camera.position = some ⟨0, 0, 0⟩ ∧ g'.camera.direction = some ⟨0, 0, 0⟩ ∧
      g'.sceneState.freeCameraMode = false) ∧
    (setCameraMode 2 (exampleGlobalsAt 350)).sceneState.cameraNum = 2 ∧
    (∃ g', updateScene ratOps 5 (setCameraMode 2 (exampleGlobalsAt 350)) = some g' ∧
      g'.camera.position = some ⟨3, 3, 0⟩ ∧ g'.camera.direction = some ⟨-1, 0, 0⟩ ∧
      g'.sceneState.freeCameraMode = false) :=
  ⟨rfl, rfl,
    (updateScene_fixed_cameras ratOps 5 (setCameraMode 1 (exampleGlobalsAt 350)) _ rfl).1 rfl,
    rfl,
    (updateScene_fixed_cameras ratOps 5 (setCameraMode 2 (exampleGlobalsAt 350)) _ rfl).2 rfl⟩

theorem exampleChase_raider :
    exampleChase.sceneObjects.raider =
      some { position := ⟨1.0, 0.0, 0.5⟩, direction := some (facing ratOps 0.0), speed := 0.7,
             size := 0.3, startTime := 0, currentTime := 0, viewAngle := 0.0,
             frameDuration := 0.0 } := rfl

/-- The result of `updateScene` with camera 5, in a scene that has a flyer. -/
theorem updateScene_chase_eq (ops : FloatOps F) (t : F) (g : Globals F) (r : Object F)
    (hr : g.sceneObjects.raider = some r) (h5 : g.sceneState.cameraNum = 5) :
    ∃ g' r', updateScene ops t g = some g' ∧ g'.sceneObjects.raider = some r' ∧
      g'.camera.position = some (correctCameraBoundsPosition r.position) ∧
      g'.camera.direction = r.direction ∧
      r'.position = ⟨ops.sin (t * r.speed), ops.cos (t * r.speed), 1⟩ ∧
      r'.direction = glm.normalize ops ⟨-ops.cos (t * r.speed), ops.sin (t * r.speed), 0⟩ ∧
      g'.sceneState.freeCameraMode = false := by
  have h51 : ¬ ((5 : Int) = 1) := by decide
  have h52 : ¬ ((5 : Int) = 2) := by decide
  simp only [updateScene, hr, h5, if_true, if_neg h51, if_neg h52]
  exact ⟨_, _, rfl, rfl, rfl, rfl, rfl, rfl, rfl⟩

/-- C16 (counterexample): right after start-up, with camera 5 selected, `updateScene 0` leaves
the camera at `(1, 0, 0.5)`, where the flyer was, while the flyer is now at `(0, 1, 1)`; the
camera direction `(1, 0, 0)` is the old direction of the flyer, whose direction is now
`(-1, 0, 0)`. -/
theorem updateScene_chase_lags :
    exampleChase.sceneState.cameraNum = 5 ∧
    ∃ g' r', updateScene ratOps 0 exampleChase = some g' ∧
      g'.sceneObjects.raider = some r' ∧
      g'.camera.position = some ⟨1, 0, 0.5⟩ ∧ r'.position = ⟨0, 1, 1⟩ ∧
      g'.camera.direction = some ⟨1, 0, 0⟩ ∧ r'.direction = some ⟨-1, 0, 0⟩ ∧
      g'.camera.position ≠ some r'.position ∧ g'.camera.direction ≠ r'.direction := by
  obtain ⟨g', r', h1, h2, h3, h4, h5, h6, -⟩ :=
    updateScene_chase_eq ratOps 0 exampleChase _ exampleChase_raider rfl
  have hs1 : ratOps.sqrt 1 = 1 := by
    apply sqrt_one_of_exact
    have h := ratOps_sqrtExactAt_sq 1
    norm_num at h
    exact h
  have hp : g'.camera.position = some ⟨1, 0, 0.5⟩ := by
    rw [h3, correctCameraBoundsPosition_of_mem _ (by norm_num) (by norm_num)]
    norm_num
  have hrp : r'.position = ⟨0, 1, 1⟩ := by
    rw [h5]
    norm_num [ratOps]
  have hd : g'.camera.direction = some ⟨1, 0, 0⟩ := by
    rw [h4, facing_zero]
    norm_num [ratOps]
  have hrd : r'.direction = some ⟨-1, 0, 0⟩ := by
    rw [h6]
    have e : (⟨-ratOps.cos (0 * 0.7), ratOps.sin (0 * 0.7), 0⟩ : Vec3 ℚ) = ⟨-1, 0, 0⟩ := by
      norm_num [ratOps]
    rw [e]
    norm_num [glm.normalize, glm.inversesqrt, glm.dot, glm.muls, hs1]
  refine ⟨rfl, g', r', h1, h2, hp, hrp, hd, hrd, ?_, ?_⟩
  · rw [hp, hrp]
    norm_num
  · rw [hd, hrd]
    norm_num

/-- C16 (amended): in a scene that has a flyer, after `updateScene t` with camera 5 the camera
is where the flyer was before the call, brought within the scene bounds (so exactly there
when that position is within the bounds), with the direction the flyer had before the call;
the flyer itself has moved on to the orbit point of `t`; the free-camera flag is false. -/
theorem updateScene_chase (ops : FloatOps F) (t : F) (g : Globals F) (r : Object F)
    (hr : g.sceneObjects.raider = some r) (h5 : g.sceneState.cameraNum = 5) :
    ∃ g' r', updateScene ops t g = some g' ∧ g'.sceneObjects.raider = some r' ∧
      g'.camera.position = some (correctCameraBoundsPosition r.position) ∧
      ((-3.8 ≤ r.position.x ∧ r.position.x ≤ 3.8) → (-3.8 ≤ r.position.y ∧ r.position.y ≤ 3.8) →
        g'.camera.position = some r.position) ∧
      g'.camera.direction = r.direction ∧
      r'.position = ⟨ops.sin (t * r.speed), ops.cos (t * r.speed), 1⟩ ∧
      r'.direction = glm.normalize ops ⟨-ops.cos (t * r.speed), ops.sin (t * r.speed), 0⟩ ∧
      g'.sceneState.freeCameraMode = false := by
  obtain ⟨g', r', h1, h2, h3, h4, h5, h6, h7⟩ := updateScene_chase_eq ops t g r hr h5
  refine ⟨g', r', h1, h2, h3, ?_, h4, h5, h6, h7⟩
  intro hx hy
  rw [h3, correctCameraBoundsPosition_of_mem _ hx hy]

theorem updateScene_chase_witness :
    exampleChase.sceneObjects.raider =
      some { position := ⟨1.0, 0.0, 0.5⟩, direction := some (facing ratOps 0.0), speed := 0.7,
             size := 0.3, startTime := 0, currentTime := 0, viewAngle := 0.0,
             frameDuration := 0.0 } ∧
    exampleChase.sceneState.cameraNum = 5 ∧
    ∃ g' r', updateScene ratOps 0 exampleChase = some g' ∧
      g'.sceneObjects.raider = some r' ∧
      g'.camera.position = some ⟨1.0, 0.0, 0.5⟩ ∧
      g'.camera.direction = some (facing ratOps 0.0) ∧
      g'.sceneState.freeCameraMode = false := by
  obtain ⟨g', r', h1, h2, -, h3, h4, -, -, h7⟩ :=
    updateScene_chase ratOps 0 exampleChase _ exampleChase_raider rfl
  exact ⟨exampleChase_raider, rfl, g', r', h1, h2,
    h3 (by norm_num) (by norm_num), h4, h7⟩

/-- The guard of `moveCamera` changes nothing: where the collision test is false the
correction returns the position as it is. -/
theorem getAdjustedCameraPosition_of_not_colliding (ops : FloatOps F) (c o : Vec3 F) (r : F)
    (h : isCameraCollidingWithDuck ops c o r = false) :
    getAdjustedCameraPosition ops c o r = some c := by
  unfold isCameraCollidingWithDuck at h
  unfold getAdjustedCameraPosition
  by_cases hl : glm.length ops (glm.sub c o) < 0.5 + r
  · simp [hl] at h
  · have : ¬ glm.length ops (glm.sub c o) < r := by
      intro hlt
      apply hl
      have : r ≤ 0.5 + r := by norm_num
      exact lt_of_lt_of_le hlt this
    simp only [this, if_false]

/-- The position that `moveCamera` stores when the `switch` left the new position `q`. -/
theorem moveCamera_position (ops : FloatOps F) (direction : Direction) (deltaAngle : F)
    (g : Globals F) (dk : Object F) (hduck : g.sceneObjects.duck = some dk) :
    ∃ g', moveCamera ops direction deltaAngle g = some g' ∧
      g' = { g with camera :=
        { (moveCameraSwitch ops direction deltaAngle g.sceneState.movementSpeed g.camera).1 with
          position :=
            ((moveCameraSwitch ops direction deltaAngle g.sceneState.movementSpeed g.camera).2.bind
              (fun q => getAdjustedCameraPosition ops q { dk.position with z := 0 } 0.7)).map
              correctCameraBoundsPosition } } := by
  simp only [moveCamera, hduck]
  refine ⟨_, rfl, ?_⟩
  cases hq : (moveCameraSwitch ops direction deltaAngle g.sceneState.movementSpeed g.camera).2 with
  | none => rfl
  | some q =>
    simp only [Option.bind]
    cases hc : isCameraCollidingWithDuck ops q { dk.position with z := 0 } 0.7 with
    | true => simp
    | false =>
      rw [getAdjustedCameraPosition_of_not_colliding ops q _ _ hc]
      simp

theorem moveCameraSwitch_translate (ops : FloatOps F) (deltaAngle ms : F) (cam : Camera F)
    (p d : Vec3 F) (hp : cam.position = some p) (hd : cam.direction = some d) :
    moveCameraSwitch ops Direction.Forward deltaAngle ms cam =
        (cam, some (glm.add p (glm.smul (0.5 * ms) d))) ∧
    moveCameraSwitch ops Direction.Backward deltaAngle ms cam =
        (cam, some (glm.add p (glm.smul (-(0.5 * ms)) d))) ∧
    moveCameraSwitch ops Direction.Left deltaAngle ms cam =
        (cam, some (glm.add p (glm.smul (0.5 * ms) ⟨-d.y, d.x, d.z⟩))) ∧
    moveCameraSwitch ops Direction.Right deltaAngle ms cam =
        (cam, some (glm.add p (glm.smul (-(0.5 * ms)) ⟨-d.y, d.x, d.z⟩))) := by
  have e : ∀ a b : F, a * b / 2 = 0.5 * a * b := by
    intro a b
    norm_num
    ring
  refine ⟨?_, ?_, ?_, ?_⟩ <;>
    simp only [moveCameraSwitch, hp, hd, Option.bind_eq_bind, Option.some_bind, glm.add,
      glm.sub, glm.smul, glm.div, glm.splat, e, Prod.mk.injEq, Option.some.injEq,
      Vec3.mk.injEq, true_and] <;>
    refine ⟨?_, ?_, ?_⟩ <;> ring

/-- C20: for a camera with a position and a direction in a scene that has a duck, each of
Forward, Backward, Left and Right sets the camera position to
`correctCameraBoundsPosition (collisionCorrect (position + s * v))`: `v` is the direction for
Forward and Backward and `(-direction.y, direction.x, direction.z)` for Left and Right, `s` is
`0.5 * movementSpeed` for Forward and Left and its negative for Backward and Right, and
`collisionCorrect` is `getAdjustedCameraPosition` against the duck position with z set to 0
and radius 0.7 (the guard by `isCameraCollidingWithDuck` makes no difference); nothing else
changes, in particular not the view angle or the direction. -/
theorem moveCamera_translate (ops : FloatOps F) (g : Globals F) (dk : Object F)
    (p d : Vec3 F) (deltaAngle : F)
    (hduck : g.sceneObjects.duck = some dk)
    (hp : g.camera.position = some p) (hd : g.camera.direction = some d) :
    (moveCamera ops Direction.Forward deltaAngle g = some { g with camera := { g.camera with
      position := (getAdjustedCameraPosition ops
        (glm.add p (glm.smul (0.5 * g.sceneState.movementSpeed) d))
        { dk.position with z := 0 } 0.7).map correctCameraBoundsPosition } }) ∧
    (moveCamera ops Direction.Backward deltaAngle g = some { g with camera := { g.camera with
      position := (getAdjustedCameraPosition ops
        (glm.add p (glm.smul (-(0.5 * g.sceneState.movementSpeed)) d))
        { dk.position with z := 0 } 0.7).map correctCameraBoundsPosition } }) ∧
    (moveCamera ops Direction.Left deltaAngle g = some { g with camera := { g.camera with
      position := (getAdjustedCameraPosition ops
        (glm.add p (glm.smul (0.5 * g.sceneState.movementSpeed) ⟨-d.y, d.x, d.z⟩))
        { dk.position with z := 0 } 0.7).map correctCameraBoundsPosition } }) ∧
    (moveCamera ops Direction.Right deltaAngle g = some { g with camera := { g.camera with
      position := (getAdjustedCameraPosition ops
        (glm.add p (glm.smul (-(0.5 * g.sceneState.movementSpeed)) ⟨-d.y, d.x, d.z⟩))
        { dk.position with z := 0 } 0.7).map correctCameraBoundsPosition } }) ∧
    (∀ q : Vec3 F,
      (if isCameraCollidingWithDuck ops q { dk.position with z := 0 } 0.7 then
        getAdjustedCameraPosition ops q { dk.position with z := 0 } 0.7 else some q) =
      getAdjustedCameraPosition ops q { dk.position with z := 0 } 0.7) := by
  obtain ⟨e1, e2, e3, e4⟩ :=
    moveCameraSwitch_translate ops deltaAngle g.sceneState.movementSpeed g.camera p d hp hd
  refine ⟨?_, ?_, ?_, ?_, ?_⟩
  · obtain ⟨g', h1, h2⟩ := moveCamera_position ops Direction.Forward deltaAngle g dk hduck
    rw [h1, h2, e1]
    rfl
  · obtain ⟨g', h1, h2⟩ := moveCamera_position ops Direction.Backward deltaAngle g dk hduck
    rw [h1, h2, e2]
    rfl
  · obtain ⟨g', h1, h2⟩ := moveCamera_position ops Direction.Left deltaAngle g dk hduck
    rw [h1, h2, e3]
    rfl
  · obtain ⟨g', h1, h2⟩ := moveCamera_position ops Direction.Right deltaAngle g dk hduck
    rw [h1, h2, e4]
    rfl
  · intro q
    cases hc : isCameraCollidingWithDuck ops q { dk.position with z := 0 } 0.7 with
    | true => simp
    | false =>
      rw [getAdjustedCameraPosition_of_not_colliding ops q _ _ hc]
      simp

theorem ratOps_sqrt_25 : ratOps.sqrt 25 = 5 := by
  have e : (25 : ℚ) = 5 * 5 := by norm_num
  rw [e]
  apply (sq_eq_sq₀ (ratOps_sqrtExactAt_sq 5).1 (by norm_num : (0 : ℚ) ≤ 5)).mp
  rw [(ratOps_sqrtExactAt_sq 5).2]
  norm_num

theorem moveCamera_translate_witness :
    exampleWalk.sceneObjects.duck =
      some { position := ⟨0.4, 2.0, 0.3⟩, direction := glm.normalize ratOps ⟨0.0, 0.0, 0.0⟩,
             speed := 0.0, size := 0.8, startTime := 0, currentTime := 0, viewAngle := 0.0,
             frameDuration := 0.0 } ∧
    exampleWalk.camera.position = some ⟨3.35, -2, 0⟩ ∧
    exampleWalk.camera.direction = some ⟨1, 0, 0⟩ ∧
    moveCamera ratOps Direction.Forward 0 exampleWalk =
      some { exampleWalk with camera := { exampleWalk.camera with
        position := some ⟨3.4, -2, 0⟩ } } := by
  refine ⟨rfl, rfl, rfl, ?_⟩
  rw [(moveCamera_translate ratOps exampleWalk _ ⟨3.35, -2, 0⟩ ⟨1, 0, 0⟩ 0 rfl rfl rfl).1]
  have hq : glm.add (⟨3.35, -2, 0⟩ : Vec3 ℚ)
      (glm.smul (0.5 * exampleWalk.sceneState.movementSpeed) ⟨1, 0, 0⟩) = ⟨3.4, -2, 0⟩ := by
    have hms : exampleWalk.sceneState.movementSpeed = 0.1 := rfl
    rw [hms]
    norm_num [glm.add, glm.smul]
  have hadj : getAdjustedCameraPosition ratOps (⟨3.4, -2, 0⟩ : Vec3 ℚ) ⟨0.4, 2.0, 0⟩ 0.7 =
      some ⟨3.4, -2, 0⟩ := by
    have e : glm.dot (glm.sub (⟨3.4, -2, 0⟩ : Vec3 ℚ) ⟨0.4, 2.0, 0⟩)
        (glm.sub (⟨3.4, -2, 0⟩ : Vec3 ℚ) ⟨0.4, 2.0, 0⟩) = 25 := by
      norm_num [glm.dot, glm.sub]
    simp only [getAdjustedCameraPosition, glm.length, e, ratOps_sqrt_25]
    norm_num
  have hclamp : correctCameraBoundsPosition (⟨3.4, -2, 0⟩ : Vec3 ℚ) = ⟨3.4, -2, 0⟩ :=
    correctCameraBoundsPosition_of_mem _ (by norm_num) (by norm_num)
  have key : (getAdjustedCameraPosition ratOps
        (glm.add (⟨3.35, -2, 0⟩ : Vec3 ℚ)
          (glm.smul (0.5 * exampleWalk.sceneState.movementSpeed) ⟨1, 0, 0⟩))
        ⟨0.4, 2.0, 0⟩ 0.7).map correctCameraBoundsPosition = some ⟨3.4, -2, 0⟩ := by
    rw [hq, hadj, Option.map_some', hclamp]
  exact congrArg (fun p => some { exampleWalk with camera := { exampleWalk.camera with
    position := p } }) key

theorem ratOps_trig (x : ℚ) : ratOps.sin x ^ 2 + ratOps.cos x ^ 2 = 1 := by
  have h : (1 : ℚ) + x * x ≠ 0 := by nlinarith [mul_self_nonneg x]
  simp only [ratOps]
  field_simp
  ring

/-- With an exact square root at 1, normalising a vector of squared length 1 gives a vector
of squared length 1. -/
theorem normalize_unit (ops : FloatOps F) (hsqrt : SqrtExactAt ops 1) (v : Vec3 F)
    (hv : glm.dot v v = 1) :
    ∃ u, glm.normalize ops v = some u ∧ glm.dot u u = 1 := by
  have h1 := sqrt_one_of_exact ops hsqrt
  refine ⟨glm.muls v (1 / 1), ?_, ?_⟩
  · simp only [glm.normalize, glm.inversesqrt, hv, h1, one_ne_zero, if_false, Option.map_some']
  · simp only [glm.dot, glm.muls] at hv ⊢
    norm_num
    exact hv

/-- The flyer direction that `updateScene` computes is a unit vector. -/
theorem orbit_direction_unit (ops : FloatOps F)
    (htrig : ∀ x, ops.sin x ^ 2 + ops.cos x ^ 2 = 1) (hsqrt : SqrtExactAt ops 1) (x : F) :
    ∃ u, glm.normalize ops ⟨-ops.cos x, ops.sin x, 0⟩ = some u ∧ glm.dot u u = 1 := by
  apply normalize_unit ops hsqrt
  simp only [glm.dot]
  have := htrig x
  nlinarith

theorem facing_unit (ops : FloatOps F)
    (htrig : ∀ x, ops.sin x ^ 2 + ops.cos x ^ 2 = 1) (a : F) :
    glm.dot (facing ops a) (facing ops a) = 1 := by
  simp only [glm.dot, facing]
  have := htrig (glm.radians ops a)
  nlinarith

/-- The stencil value a draw call gets in the OpenGL state `gl`. -/
theorem record_drawn {F : Type} (gl : GLState F) (call : DrawCall F) :
    (gl.record call).drawn = gl.drawn ++
        [(call, if gl.stencilTest && gl.stencilReplace then some gl.stencilRef else none)] ∧
      (gl.record call).stencilTest = gl.stencilTest ∧
      (gl.record call).stencilReplace = gl.stencilReplace ∧
      (gl.record call).stencilRef = gl.stencilRef :=
  ⟨rfl, rfl, rfl, rfl⟩

theorem drawObject_some {F : Type} (type : ObjectType)
    (htype : type = TERRAIN_ELEMENT ∨ type = RAIDER ∨ type = DUCK ∨ type = PALM ∨
      type = SNOWMAN ∨ type = COUCH ∨ type = DIAMOND)
    (o : Object F) (gl : GLState F) :
    drawObject type (some o) gl = some (gl.record (DrawCall.object type o)) := by
  simp only [drawObject, htype, if_true]

/-- Drawing a list of objects that are all there, one `drawObject` each, adds one draw call
per object, in the order of the list, all with the stencil value of the current state. -/
theorem foldlM_drawObject {F : Type} (type : ObjectType)
    (htype : type = TERRAIN_ELEMENT ∨ type = RAIDER ∨ type = DUCK ∨ type = PALM ∨
      type = SNOWMAN ∨ type = COUCH ∨ type = DIAMOND)
    (objects : List (Object F)) :
    ∀ gl : GLState F,
      (objects.map some).foldlM (fun gl object => drawObject type object gl) gl =
        some { gl with drawn := gl.drawn ++ objects.map (fun o => (DrawCall.object type o,
          if gl.stencilTest && gl.stencilReplace then some gl.stencilRef else none)) } := by
  induction objects with
  | nil =>
    intro gl
    simp [List.foldlM]
  | cons o os ih =>
    intro gl
    rw [List.map_cons, List.foldlM_cons, drawObject_some type htype]
    simp only [Option.bind_eq_bind, Option.some_bind]
    rw [ih]
    simp [GLState.record, List.append_assoc]


/-- The draw calls of one `drawAllObjects`, when every object it reads is there and
`NUM_PALMS` is within the palm list: the tiles with no stencil value, the first `NUM_PALMS`
palms with 3, snowman 1, flyer 2, sofa 4, duck 5, gem 6, the skybox and (with `sparklesOn`)
the fire sprite with none, and (with `amongusOn`, once the billboard exists) the billboard
with 7. -/
theorem drawAllObjects_eq {F : Type} (g : Globals F) (gl : GLState F)
    (tiles palms : List (Object F)) (sn ra co du di sp : Object F)
    (htiles : g.sceneObjects.terrainElementsList = tiles.map some)
    (hpalms : g.sceneObjects.palmList = palms.map some)
    (hn : 0 ≤ g.settings.NUM_PALMS ∧ g.settings.NUM_PALMS.toNat ≤ palms.length)
    (hsn : g.sceneObjects.snowman = some sn) (hra : g.sceneObjects.raider = some ra)
    (hco : g.sceneObjects.couch = some co) (hdu : g.sceneObjects.duck = some du)
    (hdi : g.sceneObjects.diamond = some di) (hsp : g.sceneObjects.sparkles = some sp)
    (hst : gl.stencilTest = false) :
    ∃ gl', drawAllObjects g gl = some gl' ∧ gl'.stencilTest = false ∧
      gl'.drawn = gl.drawn ++
        (tiles.map (fun o => (DrawCall.object TERRAIN_ELEMENT o, (none : Option Int))) ++
        ((palms.take g.settings.NUM_PALMS.toNat).map
            (fun o => (DrawCall.object PALM o, (some 3 : Option Int))) ++
        ([(DrawCall.object SNOWMAN sn, (some 1 : Option Int)), (DrawCall.object RAIDER ra, (some 2 : Option Int)),
          (DrawCall.object COUCH co, (some 4 : Option Int)), (DrawCall.object DUCK du, (some 5 : Option Int)),
          (DrawCall.object DIAMOND di, (some 6 : Option Int)), (DrawCall.skybox, (none : Option Int))] ++
        ((if g.sceneState.sparklesOn then [(DrawCall.sparkles sp, (none : Option Int))] else []) ++
         (match g.sceneState.amongusOn, g.sceneObjects.amongus with
          | true, some a => [(DrawCall.amongus a, (some 7 : Option Int))]
          | _, _ => []))))) := by
  have hlen : g.settings.NUM_PALMS.toNat ≤ (palms.map some).length := by
    simpa using hn.2
  obtain ⟨st, sr, ref, dt, bl, l⟩ := gl
  simp only at hst
  subst hst
  unfold drawAllObjects
  rw [htiles, hpalms, hsn, hra, hco, hdu, hdi, hsp]
  cases g.sceneState.sparklesOn <;> cases g.sceneState.amongusOn <;>
    cases g.sceneObjects.amongus <;>
    simp only [foldlM_drawObject TERRAIN_ELEMENT (Or.inl rfl), Option.bind_eq_bind,
      Option.some_bind, hn.1, hlen, and_self, if_true, ← List.map_take,
      foldlM_drawObject PALM (Or.inr (Or.inr (Or.inr (Or.inl rfl)))),
      drawObject_some SNOWMAN (Or.inr (Or.inr (Or.inr (Or.inr (Or.inl rfl))))),
      drawObject_some RAIDER (Or.inr (Or.inl rfl)),
      drawObject_some COUCH (Or.inr (Or.inr (Or.inr (Or.inr (Or.inr (Or.inl rfl)))))),
      drawObject_some DUCK (Or.inr (Or.inr (Or.inl rfl))),
      drawObject_some DIAMOND (Or.inr (Or.inr (Or.inr (Or.inr (Or.inr (Or.inr rfl)))))),
      stencilBegin, stencilEnd, drawCubeSkybox, drawSparklesTexture, drawAmongusMovingTexture,
      GLState.record, Bool.false_and, Bool.and_self, Bool.false_eq_true, if_false,
      List.append_assoc, List.singleton_append, List.cons_append, List.nil_append,
      List.append_nil] <;>
    exact ⟨_, rfl, rfl, rfl⟩

theorem foldl_terrain (ops : FloatOps F) (positions : List (Vec3 F)) :
    ∀ g : Globals F,
      positions.foldl
        (fun g position =>
          { g with sceneObjects :=
            { g.sceneObjects with
              terrainElementsList :=
                g.sceneObjects.terrainElementsList ++ [setObject ops g TERRAIN_ELEMENT position] } })
        g =
      { g with sceneObjects :=
        { g.sceneObjects with
          terrainElementsList := g.sceneObjects.terrainElementsList ++
            positions.map (fun p => setObject ops g TERRAIN_ELEMENT p) } } := by
  induction positions with
  | nil => intro g; simp
  | cons p ps ih =>
    intro g
    rw [List.foldl_cons, ih]
    simp only [List.map_cons, List.append_assoc, List.singleton_append]
    rfl

theorem foldl_palms (ops : FloatOps F) (positions : List (Vec3 F)) :
    ∀ g : Globals F,
      positions.foldl
        (fun g position =>
          { g with sceneObjects :=
            { g.sceneObjects with
              palmList := g.sceneObjects.palmList ++ [setObject ops g PALM position] } })
        g =
      { g with sceneObjects :=
        { g.sceneObjects with
          palmList := g.sceneObjects.palmList ++
            positions.map (fun p => setObject ops g PALM p) } } := by
  induction positions with
  | nil => intro g; simp
  | cons p ps ih =>
    intro g
    rw [List.foldl_cons, ih]
    simp only [List.map_cons, List.append_assoc, List.singleton_append]
    rfl

/-- The state that `resetScene` leaves, field by field: `g1` is the state before, with the
settings that `loadConfig` has just read. -/
theorem resetScene_eq (ops : FloatOps F) (file : Option (List Char)) (g g1 : Globals F)
    (hg1 : g1 = { g with settings := loadConfig file g.settings }) :
    resetScene ops file g =
      { settings := loadConfig file g.settings
        sceneState :=
          { g.sceneState with
            freeCameraMode := false
            cameraNum := 4
            keyMap := fun _ => false
            fogOn := false
            sparklesOn := false
            sunOn := true
            amongusOn := false
            flashlightOn := false }
        camera :=
          { position := some ⟨0.0, 0.0, 0.0⟩
            direction := some (facing ops g.camera.viewAngle)
            viewAngle := 90.0 }
        sceneObjects :=
          { snowman := setObject ops g1 SNOWMAN ⟨2.0, 1.0, 0.1⟩
            amongus := none
            duck := setObject ops g1 DUCK ⟨0.4, 2.0, 0.0⟩
            raider := setObject ops g1 RAIDER ⟨1.0, 0.0, 0.5⟩
            sparkles := setObject ops g1 FIRE ⟨0.4, 2.0, 0.0⟩
            couch := setObject ops g1 COUCH ⟨1.0, 1.0, 0.0⟩
            diamond := setObject ops g1 DIAMOND ⟨0.0, 0.0, 0.0⟩
            terrainElementsList :=
              terrainElPositions.map (fun p => setObject ops g1 TERRAIN_ELEMENT p)
            palmList := palmsPositions.map (fun p => setObject ops g1 PALM p) }
        passiveMotionFunc :=
          if g.sceneState.freeCameraMode then false else g.passiveMotionFunc } := by
  subst hg1
  obtain ⟨settings, ss, cam, so, pm⟩ := g
  obtain ⟨ww, wh, cn, fcm, ms, go, km, et, fl, sun, fog, am, sp, fs⟩ := ss
  unfold resetScene
  simp only [foldl_terrain, foldl_palms]
  cases fcm
  · rfl
  · rfl

theorem loadConfig_NUM_PALMS_range (file : Option (List Char)) (settings : Settings) :
    0 ≤ (loadConfig file settings).NUM_PALMS ∧ (loadConfig file settings).NUM_PALMS ≤ 16 := by
  by_cases h : (match file with
      | none => 0
      | some text => lineCount text) = 5
  · cases file with
    | none => exact absurd h (by decide)
    | some text =>
      rw [loadConfig_of_lineCount_eq text settings h]
      exact ⟨clampFromStd_ge _ _ _ (by decide), clampFromStd_le _ _ _ (by decide)⟩
  · rw [loadConfig_of_lineCount_ne file settings h]
    decide

theorem SceneReady.of_sameScene {g g' : Globals F} (h : SceneReady g) (hs : SameScene g g') :
    SceneReady g' := by
  obtain ⟨ho, hset, -, -⟩ := hs
  obtain ⟨h1, h2, h3, h4, h5, h6, h7, h8, h9, h10⟩ := h
  constructor <;> (first | rw [ho] | rw [hset]) <;> assumption

theorem resetScene_sceneReady (ops : FloatOps F) (file : Option (List Char)) (g : Globals F) :
    SceneReady (resetScene ops file g) := by
  rw [resetScene_eq ops file g _ rfl]
  constructor
  · refine ⟨terrainElPositions.map (fun p =>
        { position := p, direction := glm.normalize ops ⟨0.0, 0.0, 0.0⟩,
          speed := 0.0, size := 1.0, startTime := g.sceneState.elapsedTime,
          currentTime := g.sceneState.elapsedTime, viewAngle := 0.0,
          frameDuration := 0.0 }), ?_, ?_, ?_⟩
    · simp only [setObject_TERRAIN_ELEMENT, List.map_map]
      rfl
    · simp [terrainElPositions]
    · intro o ho
      obtain ⟨p, -, rfl⟩ := List.mem_map.mp ho
      show (0 : F) < 1.0
      norm_num
  · refine ⟨palmsPositions.map (fun p =>
        { position := p, direction := glm.normalize ops ⟨0.0, 0.0, 0.0⟩,
          speed := 0.0,
          size := if (loadConfig file g.settings).BIG_PALMS = 0 then 2.0 else 4.0,
          startTime := g.sceneState.elapsedTime,
          currentTime := g.sceneState.elapsedTime, viewAngle := 0.0,
          frameDuration := 0.0 }), ?_, ?_, ?_⟩
    · simp only [setObject_PALM, List.map_map]
      rfl
    · simp [palmsPositions]
    · intro o ho
      obtain ⟨p, -, rfl⟩ := List.mem_map.mp ho
      show (0 : F) < (if _ then _ else _)
      split_ifs <;> norm_num
  · exact loadConfig_NUM_PALMS_range file g.settings
  · refine ⟨_, setObject_SNOWMAN_eq ops _ _, ?_⟩
    show (0 : F) < (if _ then _ else _)
    split_ifs <;> norm_num
  · refine ⟨_, setObject_RAIDER ops _ _, ?_⟩
    show (0 : F) < 0.3
    norm_num
  · exact ⟨_, setObject_COUCH ops _ _, Or.inl rfl⟩
  · refine ⟨_, setObject_DUCK ops _ _, ?_⟩
    show (0 : F) < (if _ then _ else _)
    split_ifs <;> norm_num
  · refine ⟨_, setObject_DIAMOND ops _ _, ?_⟩
    show (0 : F) < 0.1
    norm_num
  · refine ⟨_, setObject_FIRE ops _ _, ?_⟩
    show (0 : F) < (if _ then _ else _)
    split_ifs <;> norm_num
  · intro o ho
    exact Option.noConfusion ho

theorem SameScene.refl {F : Type} (g : Globals F) : SameScene g g := ⟨rfl, rfl, rfl, rfl⟩

theorem SameScene.trans {F : Type} {g g' g'' : Globals F} (h : SameScene g g') (h' : SameScene g' g'') :
    SameScene g g'' :=
  ⟨h'.1.trans h.1, h'.2.1.trans h.2.1, h'.2.2.1.trans h.2.2.1, h'.2.2.2.trans h.2.2.2⟩

theorem setCameraMode_sameScene {F : Type} (mode : Int) (g : Globals F) :
    SameScene g (setCameraMode mode g) := ⟨rfl, rfl, rfl, rfl⟩

theorem sparklesToggle_sameScene {F : Type} (g : Globals F) : SameScene g (sparklesToggle g) :=
  ⟨rfl, rfl, rfl, rfl⟩

theorem flashlightToggle_sameScene {F : Type} (g : Globals F) : SameScene g (flashlightToggle g) :=
  ⟨rfl, rfl, rfl, rfl⟩

theorem sunToggle_sameScene {F : Type} (g : Globals F) : SameScene g (sunToggle g) :=
  ⟨rfl, rfl, rfl, rfl⟩

theorem bannerToggle_sameScene {F : Type} (g : Globals F) : SameScene g (bannerToggle g) :=
  ⟨rfl, rfl, rfl, rfl⟩

theorem fogToggle_sameScene {F : Type} (g : Globals F) : SameScene g (fogToggle g) :=
  ⟨rfl, rfl, rfl, rfl⟩

theorem fullScreenToggle_sameScene {F : Type} (screenWidth screenHeight : Int) (g : Globals F) :
    SameScene g (fullScreenToggle screenWidth screenHeight g) := by
  unfold fullScreenToggle
  cases g.sceneState.fullScreen <;> exact ⟨rfl, rfl, rfl, rfl⟩

theorem setKey_sameScene {F : Type} (key : Fin KEYS_COUNT) (value : Bool) (g : Globals F) :
    SameScene g (setKey key value g) := ⟨rfl, rfl, rfl, rfl⟩

theorem reshapeCb_sameScene {F : Type} (newWidth newHeight : Int) (g : Globals F) :
    SameScene g (reshapeCb newWidth newHeight g) := ⟨rfl, rfl, rfl, rfl⟩

theorem keyboardCb_sameScene {F : Type} (keyPressed : Char) (g : Globals F) :
    SameScene g (keyboardCb keyPressed g) := by
  unfold keyboardCb
  split_ifs <;> exact ⟨rfl, rfl, rfl, rfl⟩

theorem specialKeyboardCb_sameScene {F : Type} (specKeyPressed : Int) (g : Globals F) :
    SameScene g (specialKeyboardCb specKeyPressed g) := by
  unfold specialKeyboardCb
  split_ifs <;> exact ⟨rfl, rfl, rfl, rfl⟩

theorem specialKeyboardUpCb_sameScene {F : Type} (specKeyReleased : Int) (g : Globals F) :
    SameScene g (specialKeyboardUpCb specKeyReleased g) := by
  unfold specialKeyboardUpCb
  split_ifs <;> exact ⟨rfl, rfl, rfl, rfl⟩

/-- A key release either changes interface state only or, for the key r, resets the scene. -/
theorem keyboardUpCb_cases (ops : FloatOps F) (keyReleased : Char) (file : Option (List Char))
    (screenWidth screenHeight : Int) (g : Globals F) :
    SameScene g (keyboardUpCb ops keyReleased file screenWidth screenHeight g) ∨
      keyboardUpCb ops keyReleased file screenWidth screenHeight g = resetScene ops file g := by
  unfold keyboardUpCb
  by_cases h1 : keyReleased = 'w'
  · rw [if_pos h1]
    exact Or.inl (setKey_sameScene _ _ g)
  rw [if_neg h1]
  by_cases h2 : keyReleased = 's'
  · rw [if_pos h2]
    exact Or.inl (setKey_sameScene _ _ g)
  rw [if_neg h2]
  by_cases h3 : keyReleased = 'a'
  · rw [if_pos h3]
    exact Or.inl (setKey_sameScene _ _ g)
  rw [if_neg h3]
  by_cases h4 : keyReleased = 'd'
  · rw [if_pos h4]
    exact Or.inl (setKey_sameScene _ _ g)
  rw [if_neg h4]
  by_cases h5 : keyReleased = 'f'
  · rw [if_pos h5]
    exact Or.inl (flashlightToggle_sameScene g)
  rw [if_neg h5]
  by_cases h6 : keyReleased = 'g'
  · rw [if_pos h6]
    exact Or.inl (fogToggle_sameScene g)
  rw [if_neg h6]
  by_cases h7 : keyReleased = 'b'
  · rw [if_pos h7]
    exact Or.inl (bannerToggle_sameScene g)
  rw [if_neg h7]
  by_cases h8 : keyReleased = 'h'
  · rw [if_pos h8]
    exact Or.inl (sunToggle_sameScene g)
  rw [if_neg h8]
  by_cases h9 : keyReleased = 'j'
  · rw [if_pos h9]
    exact Or.inl (sparklesToggle_sameScene g)
  rw [if_neg h9]
  by_cases h10 : keyReleased = 'p'
  · rw [if_pos h10]
    exact Or.inl (fullScreenToggle_sameScene _ _ g)
  rw [if_neg h10]
  by_cases h11 : keyReleased = 'r'
  · rw [if_pos h11]
    exact Or.inr rfl
  rw [if_neg h11]
  exact Or.inl (SameScene.refl g)

/-- A menu choice either changes interface state only or, for choice 11, resets the scene. -/
theorem handleGameMenuChoice_cases (ops : FloatOps F) (choice : Int)
    (file : Option (List Char)) (g g' : Globals F)
    (h : handleGameMenuChoice ops choice file g = some g') :
    SameScene g g' ∨ g' = resetScene ops file g := by
  unfold handleGameMenuChoice at h
  by_cases h1 : choice = 1
  · rw [if_pos h1] at h
    rw [← Option.some.inj h]
    exact Or.inl (setCameraMode_sameScene _ g)
  rw [if_neg h1] at h
  by_cases h2 : choice = 2
  · rw [if_pos h2] at h
    rw [← Option.some.inj h]
    exact Or.inl (setCameraMode_sameScene _ g)
  rw [if_neg h2] at h
  by_cases h3 : choice = 3
  · rw [if_pos h3] at h
    exact Option.noConfusion h
  rw [if_neg h3] at h
  by_cases h4 : choice = 4
  · rw [if_pos h4] at h
    rw [← Option.some.inj h]
    exact Or.inl (setCameraMode_sameScene _ g)
  rw [if_neg h4] at h
  by_cases h5 : choice = 5
  · rw [if_pos h5] at h
    rw [← Option.some.inj h]
    exact Or.inl (setCameraMode_sameScene _ g)
  rw [if_neg h5] at h
  by_cases h6 : choice = 6
  · rw [if_pos h6] at h
    rw [← Option.some.inj h]
    exact Or.inl (flashlightToggle_sameScene g)
  rw [if_neg h6] at h
  by_cases h7 : choice = 7
  · rw [if_pos h7] at h
    rw [← Option.some.inj h]
    exact Or.inl (sunToggle_sameScene g)
  rw [if_neg h7] at h
  by_cases h8 : choice = 8
  · rw [if_pos h8] at h
    rw [← Option.some.inj h]
    exact Or.inl (fogToggle_sameScene g)
  rw [if_neg h8] at h
  by_cases h9 : choice = 9
  · rw [if_pos h9] at h
    rw [← Option.some.inj h]
    exact Or.inl (sparklesToggle_sameScene g)
  rw [if_neg h9] at h
  by_cases h10 : choice = 10
  · rw [if_pos h10] at h
    rw [← Option.some.inj h]
    exact Or.inl (bannerToggle_sameScene g)
  rw [if_neg h10] at h
  by_cases h11 : choice = 11
  · rw [if_pos h11] at h
    exact Or.inr (Option.some.inj h).symm
  rw [if_neg h11] at h
  rw [← Option.some.inj h]
  exact Or.inl (SameScene.refl g)

/-- A mouse click either changes interface state only or, for a left press on stencil value
4, sets the size of the sofa to 0. -/
theorem mouseCb_cases (buttonPressed buttonState : Int) (objStencilID : Nat)
    (g g' : Globals F) (h : mouseCb buttonPressed buttonState objStencilID g = some g') :
    SameScene g g' ∨ ∃ couch, g.sceneObjects.couch = some couch ∧
      g' = { g with sceneObjects :=
        { g.sceneObjects with couch := some { couch with size := 0.0 } } } := by
  unfold mouseCb at h
  split_ifs at h
  · rw [← Option.some.inj h]
    exact Or.inl (sparklesToggle_sameScene g)
  · rw [← Option.some.inj h]
    exact Or.inl (setCameraMode_sameScene _ g)
  · cases hc : g.sceneObjects.couch with
    | none =>
      rw [hc] at h
      exact Option.noConfusion h
    | some couch =>
      rw [hc] at h
      exact Or.inr ⟨couch, rfl, (Option.some.inj h).symm⟩
  · rw [← Option.some.inj h]
    exact Or.inl (SameScene.refl g)
  · rw [← Option.some.inj h]
    exact Or.inl (SameScene.refl g)

theorem mix_self (x : Vec3 F) (a : F) : glm.mix x x a = x := by
  cases x
  simp only [glm.mix, glm.add, glm.muls, Vec3.mk.injEq]
  refine ⟨?_, ?_, ?_⟩ <;> ring

theorem bind_mix_self (o : Option (Vec3 F)) (a : F) :
    (o.bind fun p => o.bind fun t => some (glm.mix p t a)) = o := by
  cases o with
  | none => rfl
  | some p => simp [mix_self]

/-- The function `drawScene` leaves every variable as it was: the free camera is smoothed
towards its own position and direction. -/
theorem drawScene_fst (ops : FloatOps F) (g : Globals F) (gl : GLState F)
    (r : Globals F × GLState F) (h : drawScene ops g gl = some r) : r.1 = g := by
  obtain ⟨settings, ss, ⟨pos, dir, va⟩, so, pm⟩ := g
  simp only [drawScene, Option.bind_eq_bind, bind_mix_self, ite_self] at h
  have key : ∀ y : Globals F,
      (match y.sceneObjects.sparkles with
        | none => none
        | some _ => (drawAllObjects y gl).bind fun gl => some (y, gl)) = some r → r.1 = y := by
    intro y hy
    cases hs : y.sceneObjects.sparkles with
    | none =>
      rw [hs] at hy
      exact Option.noConfusion hy
    | some sp =>
      rw [hs] at hy
      simp only [Option.bind_eq_some] at hy
      obtain ⟨gl', -, h3⟩ := hy
      rw [← Option.some.inj h3]
  simp only [Option.some_bind, Option.none_bind] at h
  split_ifs at h
  · exact key _ h
  · exact key _ h
  · cases hr : so.raider with
    | none =>
      rw [hr] at h
      exact Option.noConfusion h
    | some ra =>
      rw [hr] at h
      exact key _ h
  · exact key _ h

theorem foldlM_moveCamera_induct (ops : FloatOps F) (P : Globals F → Prop)
    (hmove : ∀ direction deltaAngle g g', P g →
      moveCamera ops direction deltaAngle g = some g' → P g')
    (order : List (Fin KEYS_COUNT × Direction)) :
    ∀ g g' : Globals F, P g →
      order.foldlM
        (fun g pair => if g.sceneState.keyMap pair.1 then moveCamera ops pair.2 0.0 g else some g)
        g = some g' → P g' := by
  induction order with
  | nil =>
    intro g g' hg h
    rw [List.foldlM_nil] at h
    rw [← Option.some.inj h]
    exact hg
  | cons pair rest ih =>
    intro g g' hg h
    rw [List.foldlM_cons] at h
    simp only [Option.bind_eq_bind, Option.bind_eq_some] at h
    obtain ⟨g1, h1, h2⟩ := h
    refine ih g1 g' ?_ h2
    split_ifs at h1
    · exact hmove _ _ g g1 hg h1
    · rw [← Option.some.inj h1]
      exact hg

/-- The part of `timerCb` from the call of `updateScene` on keeps a property that each of
its steps keeps. -/
theorem timerCb_tail_induct (ops : FloatOps F) (P : Globals F → Prop)
    (hsame : ∀ g g', P g → SameScene g g' → P g')
    (hupdate : ∀ elapsedTime g g', P g → updateScene ops elapsedTime g = some g' → P g')
    (hbanner : ∀ g, P g → P { g with sceneObjects :=
      { g.sceneObjects with amongus := setObject ops g BANNER ⟨0.0, 0.0, 0.0⟩ } })
    (htime : ∀ g t, P g → P { g with sceneObjects :=
      { g.sceneObjects with amongus :=
        g.sceneObjects.amongus.map (fun amongus => { amongus with currentTime := t }) } })
    (g2 g' : Globals F) (hg2 : P g2)
    (h : (do
      let g ← updateScene ops g2.sceneState.elapsedTime g2
      let g : Globals F :=
        if g.sceneState.freeCameraMode then { g with passiveMotionFunc := true } else g
      let g : Globals F :=
        if g.sceneState.amongusOn ∧ g.sceneObjects.amongus.isNone then
          { g with sceneObjects :=
            { g.sceneObjects with amongus := setObject ops g BANNER ⟨0.0, 0.0, 0.0⟩ } }
        else g
      let amongus := g.sceneObjects.amongus.map
        (fun amongus => { amongus with currentTime := g.sceneState.elapsedTime })
      some { g with sceneObjects := { g.sceneObjects with amongus := amongus } }) = some g') :
    P g' := by
  cases hu : updateScene ops g2.sceneState.elapsedTime g2 with
  | none =>
    rw [hu] at h
    exact Option.noConfusion h
  | some g3 =>
    rw [hu] at h
    have hg3 : P g3 := hupdate _ g2 g3 hg2 hu
    have h' := Option.some.inj h
    rw [← h']
    refine htime _ _ ?_
    have hg4 : P (if g3.sceneState.freeCameraMode then { g3 with passiveMotionFunc := true }
        else g3) := by
      split_ifs
      · exact hsame _ _ hg3 ⟨rfl, rfl, rfl, rfl⟩
      · exact hg3
    have hstep : ∀ X : Globals F, P X →
        P (if X.sceneState.amongusOn ∧ X.sceneObjects.amongus.isNone then
            { X with sceneObjects :=
              { X.sceneObjects with amongus := setObject ops X BANNER ⟨0.0, 0.0, 0.0⟩ } }
          else X) := by
      intro X hX
      split_ifs
      · exact hbanner _ hX
      · exact hX
    exact hstep _ hg4

/-- A property of the state holds after a tick when every part of `timerCb` keeps it. -/
theorem timerCb_induct (ops : FloatOps F) (P : Globals F → Prop)
    (hsame : ∀ g g', P g → SameScene g g' → P g')
    (hmove : ∀ direction deltaAngle g g', P g →
      moveCamera ops direction deltaAngle g = some g' → P g')
    (hupdate : ∀ elapsedTime g g', P g → updateScene ops elapsedTime g = some g' → P g')
    (hbanner : ∀ g, P g → P { g with sceneObjects :=
      { g.sceneObjects with amongus := setObject ops g BANNER ⟨0.0, 0.0, 0.0⟩ } })
    (htime : ∀ g t, P g → P { g with sceneObjects :=
      { g.sceneObjects with amongus :=
        g.sceneObjects.amongus.map (fun amongus => { amongus with currentTime := t }) } })
    (elapsedMs : Int) (order : List (Fin KEYS_COUNT × Direction)) (g g' : Globals F)
    (hg : P g) (h : timerCb ops elapsedMs order g = some g') : P g' := by
  have hg1 : P { g with sceneState :=
      { g.sceneState with elapsedTime := 0.001 * (elapsedMs : F) } } :=
    hsame _ _ hg ⟨rfl, rfl, rfl, rfl⟩
  unfold timerCb at h
  by_cases h4 : g.sceneState.cameraNum = 4
  · rw [if_pos h4] at h
    cases hf : order.foldlM
        (fun g pair => if g.sceneState.keyMap pair.1 then moveCamera ops pair.2 0.0 g else some g)
        { g with sceneState :=
          { g.sceneState with elapsedTime := 0.001 * (elapsedMs : F) } } with
    | none =>
      rw [hf] at h
      exact Option.noConfusion h
    | some g2 =>
      rw [hf] at h
      exact timerCb_tail_induct ops P hsame hupdate hbanner htime g2 g'
        (foldlM_moveCamera_induct ops P hmove order _ g2 hg1 hf) h
  · rw [if_neg h4] at h
    exact timerCb_tail_induct ops P hsame hupdate hbanner htime _ g' hg1 h

/-- Induction over the states of a run: a property that holds after `initApplication` and
that `resetScene` and every change the callbacks make to the scene keep holds in every
reachable state. -/
theorem reachable_induct (ops : FloatOps F) (P : Globals F → Prop)
    (hinit : ∀ file0 file1, P (initApplication ops file0 file1))
    (hreset : ∀ file g, P g → P (resetScene ops file g))
    (hsame : ∀ g g', P g → SameScene g g' → P g')
    (hmove : ∀ direction deltaAngle g g', P g →
      moveCamera ops direction deltaAngle g = some g' → P g')
    (hupdate : ∀ elapsedTime g g', P g → updateScene ops elapsedTime g = some g' → P g')
    (hcouch : ∀ g couch, P g → g.sceneObjects.couch = some couch →
      P { g with sceneObjects :=
        { g.sceneObjects with couch := some { couch with size := 0.0 } } })
    (hbanner : ∀ g, P g → P { g with sceneObjects :=
      { g.sceneObjects with amongus := setObject ops g BANNER ⟨0.0, 0.0, 0.0⟩ } })
    (htime : ∀ g t, P g → P { g with sceneObjects :=
      { g.sceneObjects with amongus :=
        g.sceneObjects.amongus.map (fun amongus => { amongus with currentTime := t }) } })
    (g : Globals F) (hg : Reachable ops g) : P g := by
  induction hg with
  | init file0 file1 => exact hinit file0 file1
  | step event g g' _ hstep ih =>
    cases event with
    | moveCamera direction deltaAngle => exact hmove direction deltaAngle g g' ih hstep
    | updateScene elapsedTime => exact hupdate elapsedTime g g' ih hstep
    | drawScene gl =>
      simp only [step, Option.map_eq_some'] at hstep
      obtain ⟨r, hr, rfl⟩ := hstep
      rw [drawScene_fst ops g gl r hr]
      exact ih
    | setCameraMode mode =>
      rw [← Option.some.inj hstep]
      exact hsame _ _ ih (setCameraMode_sameScene mode g)
    | resetScene file =>
      rw [← Option.some.inj hstep]
      exact hreset _ _ ih
    | keyboardCb keyPressed =>
      rw [← Option.some.inj hstep]
      exact hsame _ _ ih (keyboardCb_sameScene keyPressed g)
    | keyboardUpCb keyReleased file screenWidth screenHeight =>
      rw [← Option.some.inj hstep]
      rcases keyboardUpCb_cases ops keyReleased file screenWidth screenHeight g with h | h
      · exact hsame _ _ ih h
      · rw [h]
        exact hreset _ _ ih
    | specialKeyboardCb specKeyPressed =>
      rw [← Option.some.inj hstep]
      exact hsame _ _ ih (specialKeyboardCb_sameScene specKeyPressed g)
    | specialKeyboardUpCb specKeyReleased =>
      rw [← Option.some.inj hstep]
      exact hsame _ _ ih (specialKeyboardUpCb_sameScene specKeyReleased g)
    | mouseCb buttonPressed buttonState objStencilID =>
      rcases mouseCb_cases buttonPressed buttonState objStencilID g g' hstep with
        h | ⟨couch, hc, rfl⟩
      · exact hsame _ _ ih h
      · exact hcouch g couch ih hc
    | handleGameMenuChoice choice file =>
      rcases handleGameMenuChoice_cases ops choice file g g' hstep with h | h
      · exact hsame _ _ ih h
      · rw [h]
        exact hreset _ _ ih
    | passiveMouseMotionCb mouseX mouseY =>
      simp only [step] at hstep
      split_ifs at hstep
      unfold passiveMouseMotionCb at hstep
      split_ifs at hstep
      all_goals first
        | exact hmove _ _ g g' ih hstep
        | (rw [← Option.some.inj hstep]
           exact ih)
    | timerCb elapsedMs order =>
      simp only [step] at hstep
      split_ifs at hstep
      exact timerCb_induct ops P hsame hmove hupdate hbanner htime elapsedMs order g g' ih hstep
    | reshapeCb newWidth newHeight =>
      rw [← Option.some.inj hstep]
      exact hsame _ _ ih (reshapeCb_sameScene newWidth newHeight g)

theorem SceneReady.of_eq {F : Type} [LinearOrderedField F] {g g' : Globals F}
    (h : SceneReady g) (ho : g'.sceneObjects = g.sceneObjects)
    (hset : g'.settings = g.settings) : SceneReady g' := by
  obtain ⟨h1, h2, h3, h4, h5, h6, h7, h8, h9, h10⟩ := h
  constructor <;> (first | rw [ho] | rw [hset]) <;> assumption

/-- The function `moveCamera` changes the camera only. -/
theorem moveCamera_frame (ops : FloatOps F) (direction : Direction) (deltaAngle : F)
    (g g' : Globals F) (h : moveCamera ops direction deltaAngle g = some g') :
    g'.sceneObjects = g.sceneObjects ∧ g'.settings = g.settings ∧
      g'.sceneState = g.sceneState ∧ g'.passiveMotionFunc = g.passiveMotionFunc := by
  cases hd : g.sceneObjects.duck with
  | none =>
    simp only [moveCamera, hd] at h
    exact Option.noConfusion h
  | some dk =>
    obtain ⟨g'', h1, h2⟩ := moveCamera_position ops direction deltaAngle g dk hd
    rw [h1] at h
    rw [← Option.some.inj h, h2]
    exact ⟨rfl, rfl, rfl, rfl⟩

/-- What `updateScene` does to the scene objects: the flyer gets its orbit position and
direction, the fire sprite the elapsed time; the settings and the movement speed stay. -/
theorem updateScene_frame (ops : FloatOps F) (elapsedTime : F) (g g' : Globals F)
    (h : updateScene ops elapsedTime g = some g') :
    ∃ raider, g.sceneObjects.raider = some raider ∧
      g'.sceneObjects =
        { g.sceneObjects with
          raider := some { raider with
            position := ⟨ops.sin (elapsedTime * raider.speed),
              ops.cos (elapsedTime * raider.speed), 1⟩
            direction := glm.normalize ops ⟨-ops.cos (elapsedTime * raider.speed),
              ops.sin (elapsedTime * raider.speed), 0⟩ }
          sparkles := g.sceneObjects.sparkles.map
            (fun sp => { sp with currentTime := elapsedTime }) } ∧
      g'.settings = g.settings ∧
      g'.sceneState.movementSpeed = g.sceneState.movementSpeed := by
  cases hr : g.sceneObjects.raider with
  | none =>
    simp only [updateScene, hr] at h
    exact Option.noConfusion h
  | some raider =>
    simp only [updateScene, hr] at h
    refine ⟨raider, rfl, ?_⟩
    rw [← Option.some.inj h]
    split_ifs <;> exact ⟨rfl, rfl, rfl⟩

theorem updateScene_sceneReady (ops : FloatOps F) (elapsedTime : F) (g g' : Globals F)
    (hg : SceneReady g) (h : updateScene ops elapsedTime g = some g') : SceneReady g' := by
  obtain ⟨raider, hr, ho, hset, -⟩ := updateScene_frame ops elapsedTime g g' h
  obtain ⟨h1, h2, h3, h4, ⟨ra, h5, h5'⟩, h6, h7, h8, ⟨sp, h9, h9'⟩, h10⟩ := hg
  rw [hr] at h5
  have e := Option.some.inj h5
  subst e
  constructor
  · rw [ho]
    exact h1
  · rw [ho]
    exact h2
  · rw [hset]
    exact h3
  · rw [ho]
    exact h4
  · rw [ho]
    exact ⟨_, rfl, h5'⟩
  · rw [ho]
    exact h6
  · rw [ho]
    exact h7
  · rw [ho]
    exact h8
  · rw [ho]
    refine ⟨{ sp with currentTime := elapsedTime }, ?_, h9'⟩
    show g.sceneObjects.sparkles.map _ = _
    rw [h9]
    rfl
  · rw [ho]
    exact h10

/-- In every state of a run the scene is set up. -/
theorem reachable_sceneReady (ops : FloatOps F) (g : Globals F) (hg : Reachable ops g) :
    SceneReady g := by
  refine reachable_induct ops SceneReady ?_ (fun file g _ => resetScene_sceneReady ops file g)
    (fun g g' h hs => h.of_sameScene hs) ?_ (updateScene_sceneReady ops) ?_ ?_ ?_ g hg
  · intro file0 file1
    unfold initApplication
    exact resetScene_sceneReady ops file1 _
  · intro direction deltaAngle g g' h hm
    obtain ⟨ho, hset, -, -⟩ := moveCamera_frame ops direction deltaAngle g g' hm
    exact h.of_eq ho hset
  · intro g couch h hc
    obtain ⟨h1, h2, h3, h4, h5, h6, h7, h8, h9, h10⟩ := h
    refine ⟨h1, h2, h3, h4, h5, ⟨_, rfl, Or.inr ?_⟩, h7, h8, h9, h10⟩
    show (0.0 : F) = 0
    norm_num
  · intro g h
    obtain ⟨h1, h2, h3, h4, h5, h6, h7, h8, h9, h10⟩ := h
    refine ⟨h1, h2, h3, h4, h5, h6, h7, h8, h9, ?_⟩
    intro o ho
    exact (setObject_some ops g BANNER _ o ho).2.2.1
  · intro g t h
    obtain ⟨h1, h2, h3, h4, h5, h6, h7, h8, h9, h10⟩ := h
    refine ⟨h1, h2, h3, h4, h5, h6, h7, h8, h9, ?_⟩
    intro o ho
    cases ha : g.sceneObjects.amongus with
    | none =>
      simp only [ha, Option.map_none'] at ho
      exact Option.noConfusion ho
    | some a =>
      simp only [ha, Option.map_some'] at ho
      rw [← Option.some.inj ho]
      exact h10 a ha

/-- One `drawAllObjects` in a scene that is set up, entered with the stencil test off: it
returns, and these are its draw calls with their stencil values. -/
theorem drawAllObjects_of_sceneReady {F : Type} [LinearOrderedField F] (g : Globals F)
    (gl : GLState F) (hg : SceneReady g) (hgl : gl.stencilTest = false) :
    ∃ (tiles palms : List (Object F)) (sn ra co du di sp : Object F) (gl' : GLState F),
      (g.sceneObjects.terrainElementsList = tiles.map some ∧ tiles.length = 26 ∧
        ∀ o ∈ tiles, 0 < o.size) ∧
      (g.sceneObjects.palmList = palms.map some ∧ palms.length = 16 ∧
        ∀ o ∈ palms, 0 < o.size) ∧
      (g.sceneObjects.snowman = some sn ∧ 0 < sn.size) ∧
      (g.sceneObjects.raider = some ra ∧ 0 < ra.size) ∧
      (g.sceneObjects.couch = some co ∧ (co.size = 0.5 ∨ co.size = 0)) ∧
      (g.sceneObjects.duck = some du ∧ 0 < du.size) ∧
      (g.sceneObjects.diamond = some di ∧ 0 < di.size) ∧
      (g.sceneObjects.sparkles = some sp ∧ 0 < sp.size) ∧
      drawAllObjects g gl = some gl' ∧ gl'.stencilTest = false ∧
      gl'.drawn = gl.drawn ++
        (tiles.map (fun o => (DrawCall.object TERRAIN_ELEMENT o, (none : Option Int))) ++
        ((palms.take g.settings.NUM_PALMS.toNat).map
            (fun o => (DrawCall.object PALM o, (some 3 : Option Int))) ++
        ([(DrawCall.object SNOWMAN sn, (some 1 : Option Int)),
          (DrawCall.object RAIDER ra, (some 2 : Option Int)),
          (DrawCall.object COUCH co, (some 4 : Option Int)),
          (DrawCall.object DUCK du, (some 5 : Option Int)),
          (DrawCall.object DIAMOND di, (some 6 : Option Int)),
          (DrawCall.skybox, (none : Option Int))] ++
        ((if g.sceneState.sparklesOn then [(DrawCall.sparkles sp, (none : Option Int))]
          else []) ++
         (match g.sceneState.amongusOn, g.sceneObjects.amongus with
          | true, some a => [(DrawCall.amongus a, (some 7 : Option Int))]
          | _, _ => []))))) := by
  obtain ⟨⟨tiles, ht, htl, hts⟩, ⟨palms, hp, hpl, hps⟩, hn, ⟨sn, hsn, hsn'⟩, ⟨ra, hra, hra'⟩,
    ⟨co, hco, hco'⟩, ⟨du, hdu, hdu'⟩, ⟨di, hdi, hdi'⟩, ⟨sp, hsp, hsp'⟩, -⟩ := hg
  have hn' : 0 ≤ g.settings.NUM_PALMS ∧ g.settings.NUM_PALMS.toNat ≤ palms.length := by
    refine ⟨hn.1, ?_⟩
    rw [hpl]
    omega
  obtain ⟨gl', h1, h2, h3⟩ :=
    drawAllObjects_eq g gl tiles palms sn ra co du di sp ht hp hn' hsn hra hco hdu hdi hsp hgl
  exact ⟨tiles, palms, sn, ra, co, du, di, sp, gl', ⟨ht, htl, hts⟩, ⟨hp, hpl, hps⟩,
    ⟨hsn, hsn'⟩, ⟨hra, hra'⟩, ⟨hco, hco'⟩, ⟨hdu, hdu'⟩, ⟨hdi, hdi'⟩, ⟨hsp, hsp'⟩, h1, h2, h3⟩

/-- C11 (counterexample): right after the `b` key enabled the moving billboard at start-up,
and before the next tick has created it, the state is one of a run with `amongusOn` set and
no billboard object; `drawAllObjects` then writes the stencil values of the tiles, the 16
palms and the six entities and the skybox, and no 7. -/
theorem keyboardUpCb_banner_before_tick :
    ∃ g' gl',
      step ratOps (Event.keyboardUpCb 'b' none 1920 1080) exampleStart = some g' ∧
      Reachable ratOps g' ∧ g'.sceneState.amongusOn = true ∧
      g'.sceneObjects.amongus = none ∧ g'.sceneState.sparklesOn = false ∧
      g'.settings.NUM_PALMS = 16 ∧
      drawAllObjects g' exampleGL = some gl' ∧
      gl'.drawn.map Prod.snd =
        List.replicate 26 (none : Option Int) ++ (List.replicate 16 (some 3 : Option Int) ++
          [some 1, some 2, some 4, some 5, some 6, none]) ∧
      (some 7 : Option Int) ∉ gl'.drawn.map Prod.snd := by
  have hstep : step ratOps (Event.keyboardUpCb 'b' none 1920 1080) exampleStart =
      some (bannerToggle exampleStart) := rfl
  have hreach := Reachable.step _ _ _ (Reachable.init none none) hstep
  have hon : (bannerToggle exampleStart).sceneState.amongusOn = true := rfl
  have hobj : (bannerToggle exampleStart).sceneObjects.amongus = none := rfl
  have hsp : (bannerToggle exampleStart).sceneState.sparklesOn = false := rfl
  have hn : (bannerToggle exampleStart).settings.NUM_PALMS = 16 := rfl
  obtain ⟨tiles, palms, sn, ra, co, du, di, sp, gl', ⟨-, htl, -⟩, ⟨-, hpl, -⟩, -, -, -, -, -, -,
    h1, -, h3⟩ :=
    drawAllObjects_of_sceneReady _ exampleGL (reachable_sceneReady ratOps _ hreach) rfl
  have hc : ∀ (l : List (Object ℚ)) (c : Option Int) (f : Object ℚ → DrawCall ℚ),
      l.map (Prod.snd ∘ fun o => (f o, c)) = List.replicate l.length c := by
    intro l c f
    induction l with
    | nil => rfl
    | cons a l ih => simp [List.replicate_succ, ih]
  have hlen : (palms.take 16).length = 16 := by
    rw [List.length_take, hpl]
    rfl
  have hd : gl'.drawn.map Prod.snd =
      List.replicate 26 (none : Option Int) ++ (List.replicate 16 (some 3 : Option Int) ++
        [some 1, some 2, some 4, some 5, some 6, none]) := by
    rw [h3, hon, hobj, hsp, hn]
    have h16 : (16 : Int).toNat = 16 := rfl
    rw [h16]
    simp only [List.map_append, List.map_map, hc, hlen, htl]
    rfl
  refine ⟨_, gl', hstep, hreach, hon, hobj, hsp, hn, h1, hd, ?_⟩
  rw [hd]
  simp [List.mem_replicate]

/-- C11 (amended): in every state of a run (every state has been set up by `resetScene`),
one call of `drawAllObjects`, entered with the stencil test off as `displayCb` does, returns
and has drawn, in this order: the 26 ground tiles with no stencil value, the first
`NUM_PALMS` palms with 3, the snowman with 1, the flyer with 2, the sofa with 4, the duck
with 5, the gem with 6, the skybox with none, the fire sprite with none when `sparklesOn`,
and the moving billboard with 7 exactly when `amongusOn` is set and the billboard object
exists (a tick creates it once `amongusOn` is set); the stencil test is off again
afterwards. -/
theorem drawAllObjects_order (ops : FloatOps F) (g : Globals F) (gl : GLState F)
    (hg : Reachable ops g) (hgl : gl.stencilTest = false) :
    ∃ (tiles palms : List (Object F)) (sn ra co du di sp : Object F) (gl' : GLState F),
      g.sceneObjects.terrainElementsList = tiles.map some ∧ tiles.length = 26 ∧
      g.sceneObjects.palmList = palms.map some ∧ palms.length = 16 ∧
      (0 ≤ g.settings.NUM_PALMS ∧ g.settings.NUM_PALMS ≤ 16) ∧
      g.sceneObjects.snowman = some sn ∧ g.sceneObjects.raider = some ra ∧
      g.sceneObjects.couch = some co ∧ g.sceneObjects.duck = some du ∧
      g.sceneObjects.diamond = some di ∧ g.sceneObjects.sparkles = some sp ∧
      drawAllObjects g gl = some gl' ∧ gl'.stencilTest = false ∧
      gl'.drawn = gl.drawn ++
        (tiles.map (fun o => (DrawCall.object TERRAIN_ELEMENT o, (none : Option Int))) ++
        ((palms.take g.settings.NUM_PALMS.toNat).map
            (fun o => (DrawCall.object PALM o, (some 3 : Option Int))) ++
        ([(DrawCall.object SNOWMAN sn, (some 1 : Option Int)),
          (DrawCall.object RAIDER ra, (some 2 : Option Int)),
          (DrawCall.object COUCH co, (some 4 : Option Int)),
          (DrawCall.object DUCK du, (some 5 : Option Int)),
          (DrawCall.object DIAMOND di, (some 6 : Option Int)),
          (DrawCall.skybox, (none : Option Int))] ++
        ((if g.sceneState.sparklesOn then [(DrawCall.sparkles sp, (none : Option Int))]
          else []) ++
         (match g.sceneState.amongusOn, g.sceneObjects.amongus with
          | true, some a => [(DrawCall.amongus a, (some 7 : Option Int))]
          | _, _ => []))))) ∧
      gl'.drawn.map Prod.snd = gl.drawn.map Prod.snd ++
        (List.replicate 26 (none : Option Int) ++
        (List.replicate g.settings.NUM_PALMS.toNat (some 3 : Option Int) ++
        ([some 1, some 2, some 4, some 5, some 6, none] ++
        ((if g.sceneState.sparklesOn then [(none : Option Int)] else []) ++
         (if g.sceneState.amongusOn ∧ g.sceneObjects.amongus.isSome then [(some 7 : Option Int)]
          else []))))) := by
  have hr := reachable_sceneReady ops g hg
  obtain ⟨tiles, palms, sn, ra, co, du, di, sp, gl', ⟨ht, htl, -⟩, ⟨hp, hpl, -⟩, ⟨hsn, -⟩,
    ⟨hra, -⟩, ⟨hco, -⟩, ⟨hdu, -⟩, ⟨hdi, -⟩, ⟨hsp, -⟩, h1, h2, h3⟩ :=
    drawAllObjects_of_sceneReady g gl hr hgl
  refine ⟨tiles, palms, sn, ra, co, du, di, sp, gl', ht, htl, hp, hpl, hr.numPalms, hsn, hra,
    hco, hdu, hdi, hsp, h1, h2, h3, ?_⟩
  have hlen : (palms.take g.settings.NUM_PALMS.toNat).length = g.settings.NUM_PALMS.toNat := by
    rw [List.length_take, hpl]
    have := hr.numPalms
    omega
  have hc : ∀ (l : List (Object F)) (c : Option Int) (f : Object F → DrawCall F),
      l.map (Prod.snd ∘ fun o => (f o, c)) = List.replicate l.length c := by
    intro l c f
    induction l with
    | nil => rfl
    | cons a l ih => simp [List.replicate_succ, ih]
  rw [h3]
  simp only [List.map_append, List.map_map, hc, hlen, htl]
  cases g.sceneState.sparklesOn <;> cases g.sceneState.amongusOn <;>
    cases g.sceneObjects.amongus <;> simp

theorem drawAllObjects_order_witness :
    Reachable ratOps exampleStart ∧ exampleGL.stencilTest = false ∧
    exampleStart.settings.NUM_PALMS = 16 ∧ exampleStart.sceneState.sparklesOn = false ∧
    exampleStart.sceneState.amongusOn = false ∧
    ∃ gl', drawAllObjects exampleStart exampleGL = some gl' ∧
      gl'.drawn.map Prod.snd =
        List.replicate 26 (none : Option Int) ++ (List.replicate 16 (some 3 : Option Int) ++
          [some 1, some 2, some 4, some 5, some 6, none]) := by
  have hn : exampleStart.settings.NUM_PALMS = 16 := rfl
  have hs : exampleStart.sceneState.sparklesOn = false := rfl
  have ha : exampleStart.sceneState.amongusOn = false := rfl
  obtain ⟨tiles, palms, sn, ra, co, du, di, sp, gl', -, -, -, -, -, -, -, -, -, -, -, h1, -, -,
    h4⟩ := drawAllObjects_order ratOps exampleStart exampleGL (Reachable.init none none) rfl
  refine ⟨Reachable.init none none, rfl, hn, hs, ha, gl', h1, ?_⟩
  rw [h4, hn, hs, ha]
  rfl

/-- C19, counterexample: a left click on the sofa (stencil value 4) in the start-up scene
leads to a state in which the sofa has size 0, and `drawAllObjects` still draws it. -/
theorem mouseCb_couch_size_zero :
    ∃ g' co gl',
      step ratOps (Event.mouseCb GLUT_LEFT_BUTTON GLUT_DOWN 4) exampleStart = some g' ∧
      Reachable ratOps g' ∧ g'.sceneObjects.couch = some co ∧ co.size = 0 ∧
      drawAllObjects g' exampleGL = some gl' ∧
      (DrawCall.object COUCH co, (some 4 : Option Int)) ∈ gl'.drawn ∧ ¬ 0 < co.size := by
  obtain ⟨c0, hc0, -⟩ := (reachable_sceneReady ratOps exampleStart (Reachable.init none none)).couch
  have hstep : step ratOps (Event.mouseCb GLUT_LEFT_BUTTON GLUT_DOWN 4) exampleStart =
      some { exampleStart with sceneObjects :=
        { exampleStart.sceneObjects with couch := some { c0 with size := 0.0 } } } := by
    simp only [step, mouseCb, hc0]
    rfl
  have hreach := Reachable.step _ _ _ (Reachable.init none none) hstep
  obtain ⟨tiles, palms, sn, ra, co, du, di, sp, gl', -, -, -, -, ⟨hco, -⟩, -, -, -, h1, -, h3⟩ :=
    drawAllObjects_of_sceneReady _ exampleGL (reachable_sceneReady ratOps _ hreach) rfl
  have hsize : co.size = 0 := by
    have e : some co = some { c0 with size := (0.0 : ℚ) } := hco.symm
    rw [Option.some.inj e]
    show (0.0 : ℚ) = 0
    norm_num
  refine ⟨_, co, gl', hstep, hreach, hco, hsize, h1, ?_, ?_⟩
  · rw [h3]
    simp
  · rw [hsize]
    exact lt_irrefl 0

/-- C19, amended: in every state of a run, every entity that one call of `drawAllObjects`
draws has a positive size, except the sofa, whose size is 0.5 or, after a left click picked
stencil value 4, 0. -/
theorem drawAllObjects_sizes (ops : FloatOps F) (g : Globals F) (gl : GLState F)
    (hg : Reachable ops g) (hgl : gl.stencilTest = false) (hdrawn : gl.drawn = []) :
    ∃ gl', drawAllObjects g gl = some gl' ∧
      ∀ call ∈ gl'.drawn, ∀ o, call.1.entity = some o →
        0 < o.size ∨ (call.1 = DrawCall.object COUCH o ∧ (o.size = 0.5 ∨ o.size = 0)) := by
  have hr := reachable_sceneReady ops g hg
  obtain ⟨tiles, palms, sn, ra, co, du, di, sp, gl', ⟨-, -, hts⟩, ⟨-, -, hps⟩, ⟨-, hsn⟩,
    ⟨-, hra⟩, ⟨-, hco⟩, ⟨-, hdu⟩, ⟨-, hdi⟩, ⟨-, hsp⟩, h1, -, h3⟩ :=
    drawAllObjects_of_sceneReady g gl hr hgl
  refine ⟨gl', h1, ?_⟩
  intro call hcall o ho
  rw [h3, hdrawn, List.nil_append] at hcall
  simp only [List.mem_append, List.mem_map, List.mem_cons, List.mem_singleton] at hcall
  rcases hcall with ⟨t, ht, rfl⟩ | ⟨p, hp, rfl⟩ | hfix | hsparkles | hamongus
  · rw [← Option.some.inj ho]
    exact Or.inl (hts t ht)
  · rw [← Option.some.inj ho]
    exact Or.inl (hps p (List.mem_of_mem_take hp))
  · rcases hfix with rfl | rfl | rfl | rfl | rfl | rfl | hnil
    · rw [← Option.some.inj ho]
      exact Or.inl hsn
    · rw [← Option.some.inj ho]
      exact Or.inl hra
    · rw [← Option.some.inj ho]
      exact Or.inr ⟨rfl, hco⟩
    · rw [← Option.some.inj ho]
      exact Or.inl hdu
    · rw [← Option.some.inj ho]
      exact Or.inl hdi
    · exact Option.noConfusion ho
    · exact absurd hnil (List.not_mem_nil _)
  · cases hso : g.sceneState.sparklesOn with
    | false =>
      rw [hso] at hsparkles
      exact absurd hsparkles (List.not_mem_nil _)
    | true =>
      rw [hso] at hsparkles
      simp only [if_true, List.mem_singleton] at hsparkles
      subst hsparkles
      rw [← Option.some.inj ho]
      exact Or.inl hsp
  · cases hao : g.sceneState.amongusOn with
    | false =>
      rw [hao] at hamongus
      exact absurd hamongus (List.not_mem_nil _)
    | true =>
      cases ham : g.sceneObjects.amongus with
      | none =>
        rw [hao, ham] at hamongus
        exact absurd hamongus (List.not_mem_nil _)
      | some a =>
        rw [hao, ham] at hamongus
        simp only [List.mem_singleton] at hamongus
        subst hamongus
        rw [← Option.some.inj ho]
        exact Or.inl (hr.amongus a ham)

theorem drawAllObjects_sizes_witness :
    Reachable ratOps exampleStart ∧ exampleGL.stencilTest = false ∧ exampleGL.drawn = [] ∧
    ∃ gl', drawAllObjects exampleStart exampleGL = some gl' ∧
      ∀ call ∈ gl'.drawn, ∀ o, call.1.entity = some o →
        0 < o.size ∨ (call.1 = DrawCall.object COUCH o ∧ (o.size = 0.5 ∨ o.size = 0)) :=
  ⟨Reachable.init none none, rfl, rfl,
    drawAllObjects_sizes ratOps exampleStart exampleGL (Reachable.init none none) rfl rfl⟩

theorem palmsDrawn_append {F : Type} (a b : List (DrawCall F × Option Int)) :
    palmsDrawn (a ++ b) = palmsDrawn a ++ palmsDrawn b := by
  simp only [palmsDrawn, List.filterMap_append]

theorem palmsDrawn_palms {F : Type} (palms : List (Object F)) (tag : Option Int) :
    palmsDrawn (palms.map (fun o => (DrawCall.object PALM o, tag))) = palms := by
  induction palms with
  | nil => rfl
  | cons a l ih =>
    simp only [palmsDrawn, List.map_cons, List.filterMap_cons] at ih ⊢
    simp only [if_true, ih]

theorem palmsDrawn_tiles {F : Type} (tiles : List (Object F)) (tag : Option Int) :
    palmsDrawn (tiles.map (fun o => (DrawCall.object TERRAIN_ELEMENT o, tag))) = [] := by
  have h : ¬ TERRAIN_ELEMENT = PALM := by decide
  induction tiles with
  | nil => rfl
  | cons a l ih =>
    simp only [palmsDrawn, List.map_cons, List.filterMap_cons] at ih ⊢
    simp only [if_neg h, ih]

/-- C30: after `resetScene` the palm list holds 16 entities, none null, at the positions of
`palmsPositions` in array order, and `NUM_PALMS` is between 0 and 16, so it is at most the
length of the list; one `drawAllObjects` then returns, and the palms it draws are exactly
the first `NUM_PALMS` entities of the list, in order. -/
theorem resetScene_palms (ops : FloatOps F) (file : Option (List Char)) (g : Globals F)
    (gl : GLState F) (hgl : gl.stencilTest = false) :
    ∃ (palms : List (Object F)) (gl' : GLState F),
      (resetScene ops file g).sceneObjects.palmList = palms.map some ∧
      palms.map (fun o => o.position) = palmsPositions ∧ palms.length = 16 ∧
      (0 ≤ (resetScene ops file g).settings.NUM_PALMS ∧
        (resetScene ops file g).settings.NUM_PALMS ≤ 16) ∧
      (resetScene ops file g).settings.NUM_PALMS.toNat ≤
        (resetScene ops file g).sceneObjects.palmList.length ∧
      drawAllObjects (resetScene ops file g) gl = some gl' ∧
      palmsDrawn gl'.drawn =
        palmsDrawn gl.drawn ++ palms.take (resetScene ops file g).settings.NUM_PALMS.toNat := by
  have hr := resetScene_sceneReady ops file g
  obtain ⟨tiles, palms, sn, ra, co, du, di, sp, gl', -, ⟨hp, hpl, -⟩, -, -, -, -, -, -, h1, -,
    h3⟩ := drawAllObjects_of_sceneReady _ gl hr hgl
  have hpos : palms.map (fun o => o.position) = palmsPositions := by
    have e := hp
    rw [resetScene_eq ops file g _ rfl] at e
    simp only [setObject_PALM] at e
    have e' : palms = palmsPositions.map (fun p =>
        ({ position := p, direction := glm.normalize ops ⟨0.0, 0.0, 0.0⟩, speed := 0.0,
           size := if (loadConfig file g.settings).BIG_PALMS = 0 then 2.0 else 4.0,
           startTime := g.sceneState.elapsedTime, currentTime := g.sceneState.elapsedTime,
           viewAngle := 0.0, frameDuration := 0.0 } : Object F)) := by
      apply List.map_injective_iff.mpr (Option.some_injective _)
      rw [← e, List.map_map]
      rfl
    rw [e', List.map_map]
    exact List.map_id _
  refine ⟨palms, gl', hp, hpos, hpl, hr.numPalms, ?_, h1, ?_⟩
  · rw [hp, List.length_map, hpl]
    have := hr.numPalms
    omega
  · have hM : ¬ SNOWMAN = PALM := by decide
    have hR : ¬ RAIDER = PALM := by decide
    have hC : ¬ COUCH = PALM := by decide
    have hD : ¬ DUCK = PALM := by decide
    have hG : ¬ DIAMOND = PALM := by decide
    have hrest : ∀ l : List (DrawCall F × Option Int),
        (∀ c ∈ l, ∀ o, c.1 ≠ DrawCall.object PALM o) → palmsDrawn l = [] := by
      intro l hl
      induction l with
      | nil => rfl
      | cons c l ih =>
        have hc := hl c (List.mem_cons_self _ _)
        have ih' := ih (fun c' hc' => hl c' (List.mem_cons_of_mem _ hc'))
        simp only [palmsDrawn, List.filterMap_cons] at ih' ⊢
        obtain ⟨call, tag⟩ := c
        cases call with
        | object type o =>
          by_cases ht : type = PALM
          · exact absurd (by rw [ht]) (hc o)
          · simp only [if_neg ht, ih']
        | skybox => simp only [ih']
        | sparkles o => simp only [ih']
        | amongus o => simp only [ih']
    have e1 : palmsDrawn [(DrawCall.object SNOWMAN sn, (some 1 : Option Int)),
        (DrawCall.object RAIDER ra, (some 2 : Option Int)),
        (DrawCall.object COUCH co, (some 4 : Option Int)),
        (DrawCall.object DUCK du, (some 5 : Option Int)),
        (DrawCall.object DIAMOND di, (some 6 : Option Int)),
        (DrawCall.skybox, (none : Option Int))] = [] := by
      apply hrest
      intro c hc o
      simp only [List.mem_cons, List.mem_singleton, List.not_mem_nil, or_false] at hc
      rcases hc with rfl | rfl | rfl | rfl | rfl | rfl
      · exact fun h => hM (DrawCall.object.inj h).1
      · exact fun h => hR (DrawCall.object.inj h).1
      · exact fun h => hC (DrawCall.object.inj h).1
      · exact fun h => hD (DrawCall.object.inj h).1
      · exact fun h => hG (DrawCall.object.inj h).1
      · exact DrawCall.noConfusion
    have e2 : ∀ b : Bool, palmsDrawn
        (if b then [(DrawCall.sparkles sp, (none : Option Int))] else []) = [] := by
      intro b
      cases b <;> rfl
    have e3 : ∀ (b : Bool) (a : Option (Object F)), palmsDrawn
        (match b, a with
          | true, some a => [(DrawCall.amongus a, (some 7 : Option Int))]
          | _, _ => []) = [] := by
      intro b a
      cases b <;> cases a <;> rfl
    rw [h3]
    simp only [palmsDrawn_append, palmsDrawn_palms, palmsDrawn_tiles, e1, e2, e3,
      List.nil_append, List.append_nil]

theorem resetScene_palms_witness :
    exampleGL.stencilTest = false ∧
    ∃ (palms : List (Object ℚ)) (gl' : GLState ℚ),
      (resetScene ratOps (some "4\n1\n0\n1\n0".toList) exampleStart).sceneObjects.palmList =
        palms.map some ∧
      palms.map (fun o => o.position) = palmsPositions ∧ palms.length = 16 ∧
      (resetScene ratOps (some "4\n1\n0\n1\n0".toList) exampleStart).settings.NUM_PALMS = 4 ∧
      drawAllObjects (resetScene ratOps (some "4\n1\n0\n1\n0".toList) exampleStart) exampleGL =
        some gl' ∧
      palmsDrawn gl'.drawn = palms.take 4 := by
  obtain ⟨palms, gl', h1, h2, h3, -, -, h6, h7⟩ :=
    resetScene_palms ratOps (some "4\n1\n0\n1\n0".toList) exampleStart exampleGL rfl
  have hn : (resetScene ratOps (some "4\n1\n0\n1\n0".toList) exampleStart).settings.NUM_PALMS
      = 4 := by
    rw [resetScene_eq ratOps _ exampleStart _ rfl]
    decide
  refine ⟨rfl, palms, gl', h1, h2, h3, hn, h6, ?_⟩
  rw [h7, hn]
  rfl

/-- The free-camera flag and the camera number after `updateScene` in a scene with a flyer:
the flag is set exactly for a camera number other than 1, 2 and 5. -/
theorem updateScene_freeCameraMode (ops : FloatOps F) (elapsedTime : F) (g : Globals F)
    (r : Object F) (hr : g.sceneObjects.raider = some r) :
    ∃ g', updateScene ops elapsedTime g = some g' ∧
      g'.sceneState.cameraNum = g.sceneState.cameraNum ∧
      (g'.sceneState.freeCameraMode = true ↔
        ¬ (g.sceneState.cameraNum = 1 ∨ g.sceneState.cameraNum = 2 ∨
          g.sceneState.cameraNum = 5)) := by
  simp only [updateScene, hr]
  refine ⟨_, rfl, ?_, ?_⟩
  · split_ifs <;> rfl
  · split_ifs with h1 h2 h5
    · simp [h1]
    · simp [h2]
    · simp [h5]
    · simp [h1, h2, h5]

/-- C21: for every scene state and every mode `m` among 1, 2, 4 (free look) and 5, the menu
entry of the mode calls `setCameraMode(m)`, which assigns `cameraNum = m` and leaves the
free-camera flag false; after the next `updateScene` (in a scene with a flyer, which
`updateScene` reads) the flag is true if and only if `m` is 4. -/
theorem setCameraMode_modes (ops : FloatOps F) (elapsedTime : F) (file : Option (List Char))
    (g : Globals F) (r : Object F) (m : Int) (hr : g.sceneObjects.raider = some r)
    (hm : m = 1 ∨ m = 2 ∨ m = 4 ∨ m = 5) :
    handleGameMenuChoice ops m file g = some (setCameraMode m g) ∧
    (setCameraMode m g).sceneState.cameraNum = m ∧
    (setCameraMode m g).sceneState.freeCameraMode = false ∧
    ∃ g', updateScene ops elapsedTime (setCameraMode m g) = some g' ∧
      g'.sceneState.cameraNum = m ∧
      (g'.sceneState.freeCameraMode = true ↔ m = 4) := by
  have h3 : m ≠ 3 := by omega
  refine ⟨?_, rfl, ?_, ?_⟩
  · rcases hm with rfl | rfl | rfl | rfl <;> rfl
  · show decide (m = 3) = false
    exact decide_eq_false h3
  · obtain ⟨g', h1, h2, h4⟩ :=
      updateScene_freeCameraMode ops elapsedTime (setCameraMode m g) r hr
    refine ⟨g', h1, h2, ?_⟩
    rw [h4]
    show ¬ (m = 1 ∨ m = 2 ∨ m = 5) ↔ m = 4
    omega

theorem setCameraMode_modes_witness :
    ∃ r, exampleStart.sceneObjects.raider = some r ∧
      handleGameMenuChoice ratOps 5 none exampleStart = some (setCameraMode 5 exampleStart) ∧
      (setCameraMode 5 exampleStart).sceneState.cameraNum = 5 ∧
      (setCameraMode 5 exampleStart).sceneState.freeCameraMode = false ∧
      ∃ g', updateScene ratOps 0 (setCameraMode 5 exampleStart) = some g' ∧
        g'.sceneState.cameraNum = 5 ∧ (g'.sceneState.freeCameraMode = true ↔ (5 : Int) = 4) := by
  obtain ⟨r, hr, -⟩ := (reachable_sceneReady ratOps exampleStart (Reachable.init none none)).raider
  exact ⟨r, hr, setCameraMode_modes ratOps 0 none exampleStart r 5 hr (by decide)⟩

/-- C27: for every camera position `c`, obstacle centre `o` and radius `r`, the guarded
correction of `moveCamera` equals the unguarded `getAdjustedCameraPosition(c, o, r)`. -/
theorem guarded_correction_eq (ops : FloatOps F) (c o : Vec3 F) (r : F) :
    (if isCameraCollidingWithDuck ops c o r then getAdjustedCameraPosition ops c o r
      else some c) = getAdjustedCameraPosition ops c o r := by
  cases h : isCameraCollidingWithDuck ops c o r with
  | true => rfl
  | false =>
    rw [getAdjustedCameraPosition_of_not_colliding ops c o r h]
    rfl

/-- C22, counterexample: in a window 1920 pixels wide (centre 960) with view angle 90, the
pointer at x = 970 is 10 pixels right of the centre; `passiveMouseMotionCb` turns right by 5
degrees (view angle 85), not by the 10 degrees of the pixel displacement (view angle 80). -/
theorem passiveMouseMotionCb_half_angle :
    ∃ g' g'', passiveMouseMotionCb ratOps 970 540 (exampleFullScreenAt 90) = some g' ∧
      g'.camera.viewAngle = 85 ∧
      moveCamera ratOps Direction.TurnRight 10 (exampleFullScreenAt 90) = some g'' ∧
      g''.camera.viewAngle = 80 ∧ g'.camera.viewAngle ≠ g''.camera.viewAngle := by
  obtain ⟨g', h1, h2, -⟩ := moveCamera_camera ratOps Direction.TurnRight 5
    (exampleFullScreenAt 90) _ (exampleFullScreenAt_duck 90)
  obtain ⟨g'', h3, h4, -⟩ := moveCamera_camera ratOps Direction.TurnRight 10
    (exampleFullScreenAt 90) _ (exampleFullScreenAt_duck 90)
  have e : passiveMouseMotionCb ratOps 970 540 (exampleFullScreenAt 90) =
      moveCamera ratOps Direction.TurnRight 5 (exampleFullScreenAt 90) := by
    have hw : (exampleFullScreenAt 90).sceneState.windowWidth = 1920 := rfl
    have ht : Int.tdiv 1920 2 = 960 := by decide
    unfold passiveMouseMotionCb
    rw [hw, ht]
    norm_num
  have v1 : g'.camera.viewAngle = 85 := by
    rw [h2, (moveCameraSwitch_turnRight _ _ _ _).1]
    norm_num [exampleFullScreenAt, exampleGlobalsAt]
  have v2 : g''.camera.viewAngle = 80 := by
    rw [h4, (moveCameraSwitch_turnRight _ _ _ _).1]
    norm_num [exampleFullScreenAt, exampleGlobalsAt]
  refine ⟨g', g'', e.trans h1, v1, h3, v2, ?_⟩
  rw [v1, v2]
  norm_num

/-- C22, amended: with the pointer left of the centre `windowWidth / 2` (integer quotient)
`passiveMouseMotionCb` is one `moveCamera(TurnLeft, a)`, with the pointer right of it one
`moveCamera(TurnRight, a)`, where the angle `a` is half the absolute pixel displacement;
with the pointer at the centre it changes nothing. -/
theorem passiveMouseMotionCb_turn (ops : FloatOps F) (mouseX mouseY : Int) (g : Globals F) :
    (mouseX < Int.tdiv g.sceneState.windowWidth 2 →
      passiveMouseMotionCb ops mouseX mouseY g =
        moveCamera ops Direction.TurnLeft
          (0.5 * ((Int.tdiv g.sceneState.windowWidth 2 - mouseX : Int) : F)) g) ∧
    (Int.tdiv g.sceneState.windowWidth 2 < mouseX →
      passiveMouseMotionCb ops mouseX mouseY g =
        moveCamera ops Direction.TurnRight
          (0.5 * ((mouseX - Int.tdiv g.sceneState.windowWidth 2 : Int) : F)) g) ∧
    (mouseX = Int.tdiv g.sceneState.windowWidth 2 →
      passiveMouseMotionCb ops mouseX mouseY g = some g) := by
  have half : (0 : F) < 0.5 := by norm_num
  refine ⟨?_, ?_, ?_⟩
  · intro h
    have hne : mouseX ≠ Int.tdiv g.sceneState.windowWidth 2 := ne_of_lt h
    have hneg : ((mouseX - Int.tdiv g.sceneState.windowWidth 2 : Int) : F) < 0 := by
      exact_mod_cast sub_neg.mpr h
    have hd : (0.5 : F) * ((mouseX - Int.tdiv g.sceneState.windowWidth 2 : Int) : F) < 0 :=
      mul_neg_of_pos_of_neg half hneg
    unfold passiveMouseMotionCb
    rw [if_pos hne]
    simp only [hd, if_true, abs_of_neg hd]
    congr 1
    push_cast
    ring
  · intro h
    have hne : mouseX ≠ Int.tdiv g.sceneState.windowWidth 2 := ne_of_gt h
    have hpos : (0 : F) < ((mouseX - Int.tdiv g.sceneState.windowWidth 2 : Int) : F) := by
      exact_mod_cast sub_pos.mpr h
    have hd : (0 : F) < 0.5 * ((mouseX - Int.tdiv g.sceneState.windowWidth 2 : Int) : F) :=
      mul_pos half hpos
    unfold passiveMouseMotionCb
    rw [if_pos hne]
    simp only [not_lt_of_gt hd, if_false, abs_of_pos hd]
  · intro h
    unfold passiveMouseMotionCb
    rw [if_neg (not_not.mpr h)]

theorem passiveMouseMotionCb_turn_witness :
    (exampleFullScreenAt 90).sceneState.windowWidth = 1920 ∧
    ((950 : Int) < Int.tdiv (exampleFullScreenAt 90).sceneState.windowWidth 2 ∧
      passiveMouseMotionCb ratOps 950 540 (exampleFullScreenAt 90) =
        moveCamera ratOps Direction.TurnLeft
          (0.5 * ((Int.tdiv (exampleFullScreenAt 90).sceneState.windowWidth 2 - 950 : Int) : ℚ))
          (exampleFullScreenAt 90)) ∧
    (Int.tdiv (exampleFullScreenAt 90).sceneState.windowWidth 2 < (970 : Int) ∧
      passiveMouseMotionCb ratOps 970 540 (exampleFullScreenAt 90) =
        moveCamera ratOps Direction.TurnRight
          (0.5 * ((970 - Int.tdiv (exampleFullScreenAt 90).sceneState.windowWidth 2 : Int) : ℚ))
          (exampleFullScreenAt 90)) ∧
    ((960 : Int) = Int.tdiv (exampleFullScreenAt 90).sceneState.windowWidth 2 ∧
      passiveMouseMotionCb ratOps 960 540 (exampleFullScreenAt 90) =
        some (exampleFullScreenAt 90)) :=
  ⟨rfl,
    ⟨by decide, (passiveMouseMotionCb_turn ratOps 950 540 (exampleFullScreenAt 90)).1
      (by decide)⟩,
    ⟨by decide, (passiveMouseMotionCb_turn ratOps 970 540 (exampleFullScreenAt 90)).2.1
      (by decide)⟩,
    ⟨by decide, (passiveMouseMotionCb_turn ratOps 960 540 (exampleFullScreenAt 90)).2.2
      (by decide)⟩⟩

theorem reached_self (ops : FloatOps F) (h0 : SqrtExactAt ops 0) (v : Vec3 F) :
    reached ops (some v) (some v) 0.01 = true := by
  have hs : ops.sqrt 0 = 0 := by
    have h2 := h0.2
    exact pow_eq_zero_iff (two_ne_zero) |>.mp h2
  have hd : glm.dot (glm.sub v v) (glm.sub v v) = 0 := by
    simp only [glm.dot, glm.sub]
    ring
  simp only [reached, glm.length, hd, hs, decide_eq_true_eq]
  norm_num

/-- C23: in every state of a run in which the free-camera flag is set, `drawScene` (entered
with the stencil test off, as `displayCb` does) returns and leaves the camera position and
direction, and every other variable, as they were; and where the library square root is
exact at 0 and the position and direction have values, both `reached` tests of the
smoothing step hold, so that no blend is applied. -/
theorem drawScene_smoothing (ops : FloatOps F) (g : Globals F) (gl : GLState F)
    (hg : Reachable ops g) (hfree : g.sceneState.freeCameraMode = true)
    (hgl : gl.stencilTest = false) :
    (∃ g' gl', drawScene ops g gl = some (g', gl') ∧
      g'.camera.position = g.camera.position ∧ g'.camera.direction = g.camera.direction ∧
      g' = g) ∧
    (SqrtExactAt ops 0 → ∀ p d, g.camera.position = some p → g.camera.direction = some d →
      reached ops g.camera.position g.camera.position 0.01 = true ∧
      reached ops g.camera.direction g.camera.direction 0.01 = true) := by
  constructor
  · have hr := reachable_sceneReady ops g hg
    obtain ⟨tiles, palms, sn, ra, co, du, di, sp, gl', -, -, -, -, -, -, -, ⟨hsp, -⟩, h1, -, -⟩ :=
      drawAllObjects_of_sceneReady g gl hr hgl
    cases hd : drawScene ops g gl with
    | none =>
      exfalso
      obtain ⟨settings, ss, ⟨pos, dir, va⟩, so, pm⟩ := g
      simp only at hfree hsp
      simp only [drawScene, Option.bind_eq_bind, bind_mix_self, ite_self, hfree, if_true,
        Option.some_bind, hsp, h1] at hd
      exact Option.noConfusion hd
    | some r =>
      have e := drawScene_fst ops g gl r hd
      obtain ⟨g', gl''⟩ := r
      simp only at e
      subst e
      exact ⟨g', gl'', rfl, rfl, rfl, rfl⟩
  · intro h0 p d hp hd
    rw [hp, hd]
    exact ⟨reached_self ops h0 p, reached_self ops h0 d⟩

/-- The camera after `updateScene` in a scene with a flyer: the position and direction of
the camera number, the position clamped to the bounds of the scene. -/
theorem updateScene_camera (ops : FloatOps F) (elapsedTime : F) (g g' : Globals F)
    (r : Object F) (hr : g.sceneObjects.raider = some r)
    (h : updateScene ops elapsedTime g = some g') :
    g'.camera.position =
      (if g.sceneState.cameraNum = 1 then some ⟨0, 0, 0⟩
        else if g.sceneState.cameraNum = 2 then some ⟨3, 3, 0⟩
        else if g.sceneState.cameraNum = 5 then some r.position
        else g.camera.position).map correctCameraBoundsPosition ∧
    g'.camera.direction =
      (if g.sceneState.cameraNum = 1 then some ⟨0, 0, 0⟩
        else if g.sceneState.cameraNum = 2 then some ⟨-1, 0, 0⟩
        else if g.sceneState.cameraNum = 5 then r.direction
        else g.camera.direction) := by
  simp only [updateScene, hr] at h
  rw [← Option.some.inj h]
  constructor <;> split_ifs <;> rfl

theorem drawScene_smoothing_witness :
    ∃ g, step ratOps (Event.updateScene 0) exampleStart = some g ∧ Reachable ratOps g ∧
      g.sceneState.freeCameraMode = true ∧ exampleGL.stencilTest = false ∧
      SqrtExactAt ratOps 0 ∧ g.camera.position = some ⟨0, 0, 0⟩ ∧
      (∃ g' gl', drawScene ratOps g exampleGL = some (g', gl') ∧
        g'.camera.position = g.camera.position ∧ g'.camera.direction = g.camera.direction ∧
        g' = g) ∧
      reached ratOps g.camera.position g.camera.position 0.01 = true ∧
      reached ratOps g.camera.direction g.camera.direction 0.01 = true := by
  obtain ⟨r, hr, -⟩ := (reachable_sceneReady ratOps exampleStart (Reachable.init none none)).raider
  have hcam : exampleStart.sceneState.cameraNum = 4 := rfl
  have hpos0 : exampleStart.camera.position = some ⟨0.0, 0.0, 0.0⟩ := rfl
  have hdir0 : exampleStart.camera.direction = some (facing ratOps 0) := rfl
  obtain ⟨g, h1, h2, h3⟩ := updateScene_freeCameraMode ratOps 0 exampleStart r hr
  have hstep : step ratOps (Event.updateScene 0) exampleStart = some g := h1
  have hreach : Reachable ratOps g := Reachable.step _ _ _ (Reachable.init none none) hstep
  have hfree : g.sceneState.freeCameraMode = true := by
    rw [h3, hcam]
    decide
  obtain ⟨hp, hd⟩ := updateScene_camera ratOps 0 exampleStart g r hr h1
  have hpos : g.camera.position = some ⟨0, 0, 0⟩ := by
    rw [hp, hcam, hpos0]
    norm_num [correctCameraBoundsPosition, clampFromStd, SCENE_WIDTH, SCENE_HEIGHT]
  have hdir : g.camera.direction = some (facing ratOps 0) := by
    rw [hd, hcam, hdir0]
    rfl
  have h0 : SqrtExactAt ratOps 0 := by
    have h := ratOps_sqrtExactAt_sq 0
    norm_num at h
    exact h
  have hmain := drawScene_smoothing ratOps g exampleGL hreach hfree rfl
  obtain ⟨hr1, hr2⟩ := hmain.2 h0 _ _ hpos hdir
  exact ⟨g, hstep, hreach, hfree, rfl, h0, hpos, hmain.1, hr1, hr2⟩

theorem sqrt_pos_of_exact (ops : FloatOps F) (x : F) (hx : 0 < x) (h : SqrtExactAt ops x) :
    0 < ops.sqrt x := by
  rcases lt_or_eq_of_le h.1 with h' | h'
  · exact h'
  · exfalso
    have h2 := h.2
    rw [← h'] at h2
    rw [← h2] at hx
    norm_num at hx

theorem dot_self_pos_of_ne (v : Vec3 F) (hv : v ≠ ⟨0, 0, 0⟩) : 0 < glm.dot v v := by
  obtain ⟨x, y, z⟩ := v
  rcases lt_or_eq_of_le (dot_self_nonneg (⟨x, y, z⟩ : Vec3 F)) with h | h
  · exact h
  · exfalso
    apply hv
    simp only [glm.dot] at h
    have hx : x = 0 := by nlinarith [sq_nonneg x, sq_nonneg y, sq_nonneg z]
    have hy : y = 0 := by nlinarith [sq_nonneg x, sq_nonneg y, sq_nonneg z]
    have hz : z = 0 := by nlinarith [sq_nonneg x, sq_nonneg y, sq_nonneg z]
    rw [hx, hy, hz]

/-- Normalising a vector of squared length 1, with `sqrt 1 = 1`, returns the vector. -/
theorem normalize_of_unit (ops : FloatOps F) (hsqrt : SqrtExactAt ops 1) (v : Vec3 F)
    (hv : glm.dot v v = 1) : glm.normalize ops v = some v := by
  have h1 := sqrt_one_of_exact ops hsqrt
  obtain ⟨x, y, z⟩ := v
  simp only [glm.normalize, glm.inversesqrt, hv, h1, one_ne_zero, if_false, Option.map_some',
    glm.muls, Option.some.injEq, Vec3.mk.injEq]
  norm_num

/-- C29: after `resetScene` the view angle is 90, the position `(0, 0, 0)`, the camera number
4 and every key flag false, but the direction is `(cos θ, sin θ, 0)` for the view angle `θ`
that the camera had BEFORE the call: the direction is assigned before the view angle is.  At
start-up (view angle 0) that is `(1, 0, 0)` and not the facing `(0, 1, 0)` of 90 degrees. -/
theorem resetScene_direction_stale (ops : FloatOps F) (file : Option (List Char))
    (g : Globals F) :
    ((resetScene ops file g).camera.viewAngle = 90 ∧
      (resetScene ops file g).camera.direction =
        some ⟨ops.cos (glm.radians ops g.camera.viewAngle),
          ops.sin (glm.radians ops g.camera.viewAngle), 0⟩ ∧
      (resetScene ops file g).camera.position = some ⟨0, 0, 0⟩ ∧
      (resetScene ops file g).sceneState.cameraNum = 4 ∧
      ∀ key, (resetScene ops file g).sceneState.keyMap key = false) ∧
    (exampleStart.camera.viewAngle = 90 ∧ exampleStart.camera.direction = some ⟨1, 0, 0⟩ ∧
      exampleStart.camera.direction ≠ some ⟨0, 1, 0⟩) := by
  refine ⟨?_, ?_⟩
  · rw [resetScene_eq ops file g _ rfl]
    refine ⟨?_, rfl, ?_, rfl, fun _ => rfl⟩
    · show (90.0 : F) = 90
      norm_num
    · show some (⟨0.0, 0.0, 0.0⟩ : Vec3 F) = some ⟨0, 0, 0⟩
      norm_num
  · have hd : exampleStart.camera.direction = some ⟨1, 0, 0⟩ := by
      have e : exampleStart.camera.direction = some (facing ratOps 0) := rfl
      rw [e]
      norm_num [facing, glm.radians, ratOps]
    refine ⟨?_, hd, ?_⟩
    · show (90.0 : ℚ) = 90
      norm_num
    · rw [hd]
      intro h
      have := congrArg Vec3.x (Option.some.inj h)
      norm_num at this

/-- The correction of `getAdjustedCameraPosition` at a point that is not the obstacle
centre, where the square root is exact: the result is at squared distance at least `r ^ 2`
from the centre, exactly `r ^ 2` when the point was strictly inside the radius, and the point
itself otherwise. -/
theorem getAdjustedCameraPosition_clear (ops : FloatOps F) (q c : Vec3 F) (r : F)
    (hr : 0 < r) (hne : q ≠ c)
    (hsqrt : SqrtExactAt ops (glm.dot (glm.sub q c) (glm.sub q c))) :
    ∃ a, getAdjustedCameraPosition ops q c r = some a ∧
      r ^ 2 ≤ glm.dot (glm.sub a c) (glm.sub a c) ∧
      (glm.dot (glm.sub q c) (glm.sub q c) < r ^ 2 →
        glm.dot (glm.sub a c) (glm.sub a c) = r ^ 2) ∧
      (r ^ 2 ≤ glm.dot (glm.sub q c) (glm.sub q c) → a = q) := by
  have hsub : glm.sub q c ≠ ⟨0, 0, 0⟩ := by
    intro h0
    apply hne
    obtain ⟨qx, qy, qz⟩ := q
    obtain ⟨cx, cy, cz⟩ := c
    simp only [glm.sub, Vec3.mk.injEq] at h0 ⊢
    exact ⟨sub_eq_zero.mp h0.1, sub_eq_zero.mp h0.2.1, sub_eq_zero.mp h0.2.2⟩
  have hD := dot_self_pos_of_ne _ hsub
  have hd := sqrt_pos_of_exact ops _ hD hsqrt
  have hd2 := hsqrt.2
  have hd0 : ops.sqrt (glm.dot (glm.sub q c) (glm.sub q c)) ≠ 0 := ne_of_gt hd
  by_cases hlt : ops.sqrt (glm.dot (glm.sub q c) (glm.sub q c)) < r
  · refine ⟨glm.add q (glm.muls (glm.muls (glm.sub q c)
        (1 / ops.sqrt (glm.dot (glm.sub q c) (glm.sub q c))))
        (r - ops.sqrt (glm.dot (glm.sub q c) (glm.sub q c)))), ?_, ?_, ?_, ?_⟩
    · simp only [getAdjustedCameraPosition, glm.length, hlt, if_true, glm.normalize,
        glm.inversesqrt, hd0, if_false, Option.map_some']
    all_goals
      have key : glm.dot
          (glm.sub (glm.add q (glm.muls (glm.muls (glm.sub q c)
            (1 / ops.sqrt (glm.dot (glm.sub q c) (glm.sub q c))))
            (r - ops.sqrt (glm.dot (glm.sub q c) (glm.sub q c))))) c)
          (glm.sub (glm.add q (glm.muls (glm.muls (glm.sub q c)
            (1 / ops.sqrt (glm.dot (glm.sub q c) (glm.sub q c))))
            (r - ops.sqrt (glm.dot (glm.sub q c) (glm.sub q c))))) c) = r ^ 2 := by
        generalize ops.sqrt (glm.dot (glm.sub q c) (glm.sub q c)) = d at hd hd2 hd0 hlt
        have e : ∀ x y : F, x + (x - y) * (1 / d) * (r - d) - y = (x - y) * (r / d) := by
          intro x y
          field_simp
          ring
        simp only [glm.dot, glm.sub, glm.add, glm.muls] at hd2 ⊢
        rw [e, e, e]
        have e2 : (q.x - c.x) * (r / d) * ((q.x - c.x) * (r / d)) +
            (q.y - c.y) * (r / d) * ((q.y - c.y) * (r / d)) +
            (q.z - c.z) * (r / d) * ((q.z - c.z) * (r / d)) =
            ((q.x - c.x) * (q.x - c.x) + (q.y - c.y) * (q.y - c.y) +
              (q.z - c.z) * (q.z - c.z)) * (r / d) ^ 2 := by ring
        rw [e2, ← hd2]
        field_simp
    · exact le_of_eq key.symm
    · exact fun _ => key
    · intro hge
      exfalso
      have : ops.sqrt (glm.dot (glm.sub q c) (glm.sub q c)) ^ 2 < r ^ 2 :=
        pow_lt_pow_left₀ hlt (le_of_lt hd) two_ne_zero
      rw [hd2] at this
      exact absurd hge (not_le_of_gt this)
  · have hge : r ^ 2 ≤ glm.dot (glm.sub q c) (glm.sub q c) := by
      rw [← hd2]
      exact pow_le_pow_left₀ (le_of_lt hr) (le_of_not_gt hlt) 2
    refine ⟨q, ?_, hge, ?_, fun _ => rfl⟩
    · simp only [getAdjustedCameraPosition, glm.length, hlt, if_false]
    · intro h
      exact absurd hge (not_le_of_gt h)

theorem clampFromStd_x_clear (x : F) :
    clampFromStd x (-SCENE_WIDTH) SCENE_WIDTH = x ∨
      0.49 ≤ (clampFromStd x (-SCENE_WIDTH) SCENE_WIDTH - 0.4) *
        (clampFromStd x (-SCENE_WIDTH) SCENE_WIDTH - 0.4) := by
  unfold clampFromStd SCENE_WIDTH
  split_ifs
  · right
    norm_num
  · right
    norm_num
  · left
    rfl

theorem clampFromStd_y_clear (y : F) :
    clampFromStd y (-SCENE_HEIGHT) SCENE_HEIGHT = y ∨
      0.49 ≤ (clampFromStd y (-SCENE_HEIGHT) SCENE_HEIGHT - 2.0) *
        (clampFromStd y (-SCENE_HEIGHT) SCENE_HEIGHT - 2.0) := by
  unfold clampFromStd SCENE_HEIGHT
  split_ifs
  · right
    norm_num
  · right
    norm_num
  · left
    rfl

/-- The clamp to the bounds of the scene never moves a point to within 0.7 of the duck
centre `(0.4, 2.0, 0)`. -/
theorem correctCameraBoundsPosition_clear (p : Vec3 F)
    (h : 0.49 ≤ glm.dot (glm.sub p ⟨0.4, 2.0, 0⟩) (glm.sub p ⟨0.4, 2.0, 0⟩)) :
    0.49 ≤ glm.dot (glm.sub (correctCameraBoundsPosition p) ⟨0.4, 2.0, 0⟩)
      (glm.sub (correctCameraBoundsPosition p) ⟨0.4, 2.0, 0⟩) := by
  obtain ⟨x, y, z⟩ := p
  simp only [glm.dot, glm.sub, correctCameraBoundsPosition] at h ⊢
  rcases clampFromStd_x_clear x with hx | hx <;> rcases clampFromStd_y_clear y with hy | hy
  · rw [hx, hy]
    exact h
  · nlinarith [mul_self_nonneg (clampFromStd x (-SCENE_WIDTH) SCENE_WIDTH - 0.4),
      mul_self_nonneg (z - 0)]
  · nlinarith [mul_self_nonneg (clampFromStd y (-SCENE_HEIGHT) SCENE_HEIGHT - 2.0),
      mul_self_nonneg (z - 0)]
  · nlinarith [mul_self_nonneg (clampFromStd y (-SCENE_HEIGHT) SCENE_HEIGHT - 2.0),
      mul_self_nonneg (z - 0)]

/-- The camera position after `moveCamera` when the `switch` left the position `q`, which is
not the duck centre `(0.4, 2.0, 0)`, and the square root is exact at the squared distance of
`q` from the centre: the corrected position `a`, clamped to the bounds of the scene, at
squared distance at least 0.49 from the centre. -/
theorem moveCamera_clear (ops : FloatOps F) (direction : Direction) (deltaAngle : F)
    (g : Globals F) (dk : Object F) (q : Vec3 F)
    (hduck : g.sceneObjects.duck = some dk)
    (hx : dk.position.x = 0.4) (hy : dk.position.y = 2.0)
    (hq : (moveCameraSwitch ops direction deltaAngle g.sceneState.movementSpeed g.camera).2 =
      some q)
    (hne : q ≠ ⟨0.4, 2.0, 0⟩)
    (hsqrt : SqrtExactAt ops
      (glm.dot (glm.sub q ⟨0.4, 2.0, 0⟩) (glm.sub q ⟨0.4, 2.0, 0⟩))) :
    ∃ g' a, moveCamera ops direction deltaAngle g = some g' ∧
      getAdjustedCameraPosition ops q ⟨0.4, 2.0, 0⟩ 0.7 = some a ∧
      (glm.dot (glm.sub q ⟨0.4, 2.0, 0⟩) (glm.sub q ⟨0.4, 2.0, 0⟩) < 0.49 →
        glm.dot (glm.sub a ⟨0.4, 2.0, 0⟩) (glm.sub a ⟨0.4, 2.0, 0⟩) = 0.49) ∧
      g'.camera.position = some (correctCameraBoundsPosition a) ∧
      g'.camera.direction =
        (moveCameraSwitch ops direction deltaAngle g.sceneState.movementSpeed
          g.camera).1.direction ∧
      0.49 ≤ glm.dot (glm.sub (correctCameraBoundsPosition a) ⟨0.4, 2.0, 0⟩)
        (glm.sub (correctCameraBoundsPosition a) ⟨0.4, 2.0, 0⟩) := by
  have hc : ({ dk.position with z := 0 } : Vec3 F) = ⟨0.4, 2.0, 0⟩ := by
    rw [← hx, ← hy]
  have h49 : (0.7 : F) ^ 2 = 0.49 := by norm_num
  obtain ⟨a, ha, hge, hin, -⟩ :=
    getAdjustedCameraPosition_clear ops q ⟨0.4, 2.0, 0⟩ 0.7 (by norm_num) hne hsqrt
  rw [h49] at hge hin
  obtain ⟨g', h1, h2⟩ := moveCamera_position ops direction deltaAngle g dk hduck
  refine ⟨g', a, h1, ha, hin, ?_, ?_, correctCameraBoundsPosition_clear a hge⟩
  · rw [h2]
    simp only [hq, hc, Option.some_bind, ha, Option.map_some']
  · rw [h2]

/-- A step of length at most 0.05 from a point at distance at least 0.7 from `c` does not
end on `c`. -/
theorem step_ne_centre (p w c : Vec3 F) (k : F) (hk : k * k ≤ 0.0025)
    (hw : glm.dot w w ≤ 1)
    (hp : 0.49 ≤ glm.dot (glm.sub p c) (glm.sub p c)) :
    glm.add p (glm.smul k w) ≠ c := by
  intro h
  obtain ⟨px, py, pz⟩ := p
  obtain ⟨wx, wy, wz⟩ := w
  obtain ⟨cx, cy, cz⟩ := c
  simp only [glm.add, glm.smul, Vec3.mk.injEq] at h
  simp only [glm.dot, glm.sub] at hp hw
  obtain ⟨h1, h2, h3⟩ := h
  have e1 : px - cx = -(k * wx) := by linear_combination h1
  have e2 : py - cy = -(k * wy) := by linear_combination h2
  have e3 : pz - cz = -(k * wz) := by linear_combination h3
  rw [e1, e2, e3] at hp
  have e : -(k * wx) * -(k * wx) + -(k * wy) * -(k * wy) + -(k * wz) * -(k * wz) =
      k * k * (wx * wx + wy * wy + wz * wz) := by ring
  rw [e] at hp
  have h4 : k * k * (wx * wx + wy * wy + wz * wz) ≤ k * k * 1 :=
    mul_le_mul_of_nonneg_left hw (mul_self_nonneg k)
  have h5 : (0.49 : F) ≤ 0.0025 := by linarith
  norm_num at h5

theorem ne_centre_of_clear (p c : Vec3 F)
    (hp : 0.49 ≤ glm.dot (glm.sub p c) (glm.sub p c)) : p ≠ c := by
  intro h
  rw [h] at hp
  simp only [glm.dot, glm.sub, sub_self, mul_zero, add_zero] at hp
  norm_num at hp

/-- What the `switch` of `moveCamera` leaves for a camera that is clear of the duck and moves
with speed 0.1: a new position that is not the duck centre, and a direction of length at most
1. -/
theorem moveCameraSwitch_clear (ops : FloatOps F)
    (htrig : ∀ x, ops.sin x ^ 2 + ops.cos x ^ 2 = 1) (direction : Direction)
    (deltaAngle : F) (cam : Camera F) (p d : Vec3 F)
    (hp : cam.position = some p) (hd : cam.direction = some d) (hd1 : glm.dot d d ≤ 1)
    (hclear : 0.49 ≤ glm.dot (glm.sub p ⟨0.4, 2.0, 0⟩) (glm.sub p ⟨0.4, 2.0, 0⟩)) :
    ∃ q nd, (moveCameraSwitch ops direction deltaAngle 0.1 cam).2 = some q ∧
      q ≠ ⟨0.4, 2.0, 0⟩ ∧
      (moveCameraSwitch ops direction deltaAngle 0.1 cam).1.direction = some nd ∧
      glm.dot nd nd ≤ 1 := by
  obtain ⟨hF, hB, hL, hR⟩ := moveCameraSwitch_translate ops deltaAngle 0.1 cam p d hp hd
  have hk1 : (0.5 * 0.1 : F) * (0.5 * 0.1) ≤ 0.0025 := by norm_num
  have hk2 : (-(0.5 * 0.1) : F) * (-(0.5 * 0.1)) ≤ 0.0025 := by norm_num
  have hperp : glm.dot (⟨-d.y, d.x, d.z⟩ : Vec3 F) ⟨-d.y, d.x, d.z⟩ ≤ 1 := by
    have e : glm.dot (⟨-d.y, d.x, d.z⟩ : Vec3 F) ⟨-d.y, d.x, d.z⟩ = glm.dot d d := by
      simp only [glm.dot]
      ring
    rw [e]
    exact hd1
  cases direction with
  | Right =>
    rw [hR]
    exact ⟨_, d, rfl, step_ne_centre p _ _ _ hk2 hperp hclear, hd, hd1⟩
  | Left =>
    rw [hL]
    exact ⟨_, d, rfl, step_ne_centre p _ _ _ hk1 hperp hclear, hd, hd1⟩
  | Forward =>
    rw [hF]
    exact ⟨_, d, rfl, step_ne_centre p _ _ _ hk1 hd1 hclear, hd, hd1⟩
  | Backward =>
    rw [hB]
    exact ⟨_, d, rfl, step_ne_centre p _ _ _ hk2 hd1 hclear, hd, hd1⟩
  | TurnLeft =>
    refine ⟨p, _, hp, ne_centre_of_clear p _ hclear, (moveCameraSwitch_turnLeft _ _ _ _).2, ?_⟩
    exact le_of_eq (facing_unit ops htrig _)
  | TurnRight =>
    refine ⟨p, _, hp, ne_centre_of_clear p _ hclear, (moveCameraSwitch_turnRight _ _ _ _).2, ?_⟩
    exact le_of_eq (facing_unit ops htrig _)

theorem correctCameraBoundsPosition_range (p : Vec3 F) :
    (-SCENE_WIDTH ≤ (correctCameraBoundsPosition p).x ∧
      (correctCameraBoundsPosition p).x ≤ SCENE_WIDTH) ∧
    (-SCENE_HEIGHT ≤ (correctCameraBoundsPosition p).y ∧
      (correctCameraBoundsPosition p).y ≤ SCENE_HEIGHT) :=
  ⟨⟨clampFromStd_ge _ _ _ neg_scene_le_scene, clampFromStd_le _ _ _ neg_scene_le_scene⟩,
   ⟨clampFromStd_ge _ _ _ neg_scene_le_scene, clampFromStd_le _ _ _ neg_scene_le_scene⟩⟩

theorem moveCamera_cameraReady (ops : FloatOps F)
    (hsqrt : ∀ x, 0 ≤ x → SqrtExactAt ops x)
    (htrig : ∀ x, ops.sin x ^ 2 + ops.cos x ^ 2 = 1) (direction : Direction)
    (deltaAngle : F) (g g' : Globals F) (hg : CameraReady g)
    (h : moveCamera ops direction deltaAngle g = some g') : CameraReady g' := by
  obtain ⟨⟨p, hp, -, -, hclear⟩, ⟨d, hd, hd1⟩, ⟨dk, hdk, hx, hy⟩, hraider, hspeed⟩ := hg
  obtain ⟨q, nd, hq, hne, hnd, hnd1⟩ :=
    moveCameraSwitch_clear ops htrig direction deltaAngle g.camera p d hp hd hd1 hclear
  rw [← hspeed] at hq hnd
  obtain ⟨g'', a, h1, -, -, h4, h5, h6⟩ :=
    moveCamera_clear ops direction deltaAngle g dk q hdk hx hy hq hne
      (hsqrt _ (dot_self_nonneg _))
  rw [h1] at h
  have e := Option.some.inj h
  subst e
  obtain ⟨ho, -, hs, -⟩ := moveCamera_frame ops direction deltaAngle g g'' h1
  refine ⟨⟨_, h4, (correctCameraBoundsPosition_range a).1,
    (correctCameraBoundsPosition_range a).2, h6⟩, ⟨nd, ?_, hnd1⟩, ?_, ?_, ?_⟩
  · rw [h5, hnd]
  · rw [ho]
    exact ⟨dk, hdk, hx, hy⟩
  · rw [ho]
    exact hraider
  · rw [hs]
    exact hspeed

theorem updateScene_cameraReady (ops : FloatOps F) (hsqrt : SqrtExactAt ops 1)
    (htrig : ∀ x, ops.sin x ^ 2 + ops.cos x ^ 2 = 1) (elapsedTime : F) (g g' : Globals F)
    (hg : CameraReady g) (h : updateScene ops elapsedTime g = some g') : CameraReady g' := by
  obtain ⟨⟨p, hp, -, -, hclear⟩, ⟨d, hd, hd1⟩, hduck, ⟨r, rd, hr, hrd, hrd1, hrclear⟩,
    hspeed⟩ := hg
  obtain ⟨hpos, hdir⟩ := updateScene_camera ops elapsedTime g g' r hr h
  obtain ⟨r0, hr0, ho, -, hms⟩ := updateScene_frame ops elapsedTime g g' h
  rw [hr] at hr0
  have e := Option.some.inj hr0
  subst e
  have hv : ∃ v, (if g.sceneState.cameraNum = 1 then some (⟨0, 0, 0⟩ : Vec3 F)
        else if g.sceneState.cameraNum = 2 then some ⟨3, 3, 0⟩
        else if g.sceneState.cameraNum = 5 then some r.position
        else g.camera.position) = some v ∧
      0.49 ≤ glm.dot (glm.sub v ⟨0.4, 2.0, 0⟩) (glm.sub v ⟨0.4, 2.0, 0⟩) := by
    split_ifs
    · refine ⟨_, rfl, ?_⟩
      simp only [glm.dot, glm.sub]
      norm_num
    · refine ⟨_, rfl, ?_⟩
      simp only [glm.dot, glm.sub]
      norm_num
    · exact ⟨_, rfl, hrclear⟩
    · exact ⟨p, hp, hclear⟩
  have hw : ∃ w, (if g.sceneState.cameraNum = 1 then some (⟨0, 0, 0⟩ : Vec3 F)
        else if g.sceneState.cameraNum = 2 then some ⟨-1, 0, 0⟩
        else if g.sceneState.cameraNum = 5 then r.direction
        else g.camera.direction) = some w ∧ glm.dot w w ≤ 1 := by
    split_ifs
    · refine ⟨_, rfl, ?_⟩
      simp only [glm.dot]
      norm_num
    · refine ⟨_, rfl, ?_⟩
      simp only [glm.dot]
      norm_num
    · exact ⟨rd, hrd, hrd1⟩
    · exact ⟨d, hd, hd1⟩
  obtain ⟨v, hv1, hv2⟩ := hv
  obtain ⟨w, hw1, hw2⟩ := hw
  have hunit : glm.dot
      (⟨-ops.cos (elapsedTime * r.speed), ops.sin (elapsedTime * r.speed), 0⟩ : Vec3 F)
      ⟨-ops.cos (elapsedTime * r.speed), ops.sin (elapsedTime * r.speed), 0⟩ = 1 := by
    simp only [glm.dot]
    linear_combination htrig (elapsedTime * r.speed)
  refine ⟨⟨correctCameraBoundsPosition v, ?_, (correctCameraBoundsPosition_range v).1,
    (correctCameraBoundsPosition_range v).2, correctCameraBoundsPosition_clear v hv2⟩,
    ⟨w, ?_, hw2⟩, ?_, ?_, ?_⟩
  · rw [hpos, hv1]
    rfl
  · rw [hdir, hw1]
  · rw [ho]
    exact hduck
  · rw [ho]
    refine ⟨_, _, rfl, normalize_of_unit ops hsqrt _ hunit, le_of_eq hunit, ?_⟩
    simp only [glm.dot, glm.sub]
    nlinarith [mul_self_nonneg (ops.sin (elapsedTime * r.speed) - 0.4),
      mul_self_nonneg (ops.cos (elapsedTime * r.speed) - 2.0)]
  · rw [hms]
    exact hspeed

theorem resetScene_cameraReady (ops : FloatOps F)
    (htrig : ∀ x, ops.sin x ^ 2 + ops.cos x ^ 2 = 1) (file : Option (List Char))
    (g : Globals F) (hspeed : g.sceneState.movementSpeed = 0.1) :
    CameraReady (resetScene ops file g) := by
  rw [resetScene_eq ops file g _ rfl]
  refine ⟨⟨⟨0.0, 0.0, 0.0⟩, rfl, ?_, ?_, ?_⟩, ⟨_, rfl, le_of_eq (facing_unit ops htrig _)⟩,
    ⟨_, setObject_DUCK ops _ _, ?_, ?_⟩,
    ⟨_, _, setObject_RAIDER ops _ _, rfl, le_of_eq (facing_unit ops htrig _), ?_⟩, hspeed⟩
  · simp only [SCENE_WIDTH]
    norm_num
  · simp only [SCENE_HEIGHT]
    norm_num
  · simp only [glm.dot, glm.sub]
    norm_num
  · show (if _ then _ else _ : Vec3 F).x = 0.4
    split_ifs <;> rfl
  · show (if _ then _ else _ : Vec3 F).y = 2.0
    split_ifs <;> rfl
  · simp only [glm.dot, glm.sub]
    norm_num

/-- In every state of a run, with an exact library square root and sine and cosine on the
unit circle, the camera is clear of the duck. -/
theorem reachable_cameraReady (ops : FloatOps F)
    (hsqrt : ∀ x, 0 ≤ x → SqrtExactAt ops x)
    (htrig : ∀ x, ops.sin x ^ 2 + ops.cos x ^ 2 = 1) (g : Globals F)
    (hg : Reachable ops g) : CameraReady g := by
  refine reachable_induct ops CameraReady ?_
    (fun file g h => resetScene_cameraReady ops htrig file g h.speed) ?_
    (moveCamera_cameraReady ops hsqrt htrig)
    (updateScene_cameraReady ops (hsqrt 1 zero_le_one) htrig) ?_ ?_ ?_ g hg
  · intro file0 file1
    unfold initApplication
    exact resetScene_cameraReady ops htrig file1 _ rfl
  · intro g g' h hs
    obtain ⟨ho, -, hc, hm⟩ := hs
    obtain ⟨h1, h2, h3, h4, h5⟩ := h
    constructor
    · rw [hc]
      exact h1
    · rw [hc]
      exact h2
    · rw [ho]
      exact h3
    · rw [ho]
      exact h4
    · rw [hm]
      exact h5
  · intro g couch h _
    exact ⟨h.position, h.direction, h.duck, h.raider, h.speed⟩
  · intro g h
    exact ⟨h.position, h.direction, h.duck, h.raider, h.speed⟩
  · intro g t h
    exact ⟨h.position, h.direction, h.duck, h.raider, h.speed⟩

/-- C17: in every state reachable from the `resetScene` of start-up by any sequence of
`moveCamera`, `updateScene`, `drawScene`, `setCameraMode`, `resetScene` and the input
callbacks, where the library square root is exact and sine and cosine lie on the unit
circle, the camera has a position with `|position.x| ≤ SCENE_WIDTH` and
`|position.y| ≤ SCENE_HEIGHT`, both 3.8. -/
theorem camera_within_bounds (ops : FloatOps F)
    (hsqrt : ∀ x, 0 ≤ x → SqrtExactAt ops x)
    (htrig : ∀ x, ops.sin x ^ 2 + ops.cos x ^ 2 = 1) (g : Globals F)
    (hg : Reachable ops g) :
    ∃ p, g.camera.position = some p ∧ |p.x| ≤ SCENE_WIDTH ∧ |p.y| ≤ SCENE_HEIGHT ∧
      (SCENE_WIDTH : F) = 3.8 ∧ (SCENE_HEIGHT : F) = 3.8 := by
  obtain ⟨p, hp, hx, hy, -⟩ := (reachable_cameraReady ops hsqrt htrig g hg).position
  exact ⟨p, hp, abs_le.mpr hx, abs_le.mpr hy, rfl, rfl⟩

theorem camera_within_bounds_witness :
    (∀ x : ℝ, 0 ≤ x → SqrtExactAt (⟨Real.sqrt, Real.sin, Real.cos, Real.pi⟩ : FloatOps ℝ) x) ∧
    (∀ x : ℝ, (⟨Real.sqrt, Real.sin, Real.cos, Real.pi⟩ : FloatOps ℝ).sin x ^ 2 +
      (⟨Real.sqrt, Real.sin, Real.cos, Real.pi⟩ : FloatOps ℝ).cos x ^ 2 = 1) ∧
    Reachable (⟨Real.sqrt, Real.sin, Real.cos, Real.pi⟩ : FloatOps ℝ)
      (setCameraMode 2
        (initApplication (⟨Real.sqrt, Real.sin, Real.cos, Real.pi⟩ : FloatOps ℝ) none none)) ∧
    ∃ p, (setCameraMode 2
        (initApplication (⟨Real.sqrt, Real.sin, Real.cos, Real.pi⟩ : FloatOps ℝ)
          none none)).camera.position = some p ∧
      |p.x| ≤ SCENE_WIDTH ∧ |p.y| ≤ SCENE_HEIGHT := by
  have hsqrt : ∀ x : ℝ, 0 ≤ x →
      SqrtExactAt (⟨Real.sqrt, Real.sin, Real.cos, Real.pi⟩ : FloatOps ℝ) x :=
    fun x hx => ⟨Real.sqrt_nonneg x, Real.sq_sqrt hx⟩
  have htrig : ∀ x : ℝ, (⟨Real.sqrt, Real.sin, Real.cos, Real.pi⟩ : FloatOps ℝ).sin x ^ 2 +
      (⟨Real.sqrt, Real.sin, Real.cos, Real.pi⟩ : FloatOps ℝ).cos x ^ 2 = 1 :=
    fun x => Real.sin_sq_add_cos_sq x
  have hreach : Reachable (⟨Real.sqrt, Real.sin, Real.cos, Real.pi⟩ : FloatOps ℝ)
      (setCameraMode 2
        (initApplication (⟨Real.sqrt, Real.sin, Real.cos, Real.pi⟩ : FloatOps ℝ)
          none none)) :=
    Reachable.step (Event.setCameraMode 2) _ _ (Reachable.init none none) rfl
  obtain ⟨p, h1, h2, h3, -⟩ := camera_within_bounds _ hsqrt htrig _ hreach
  exact ⟨hsqrt, htrig, hreach, p, h1, h2, h3⟩

end manaeste
